import Mathlib

/-!
Verification of the AquaSim simulation core (`src/lib/simulation.ts`).

Modelling conventions:
* JavaScript numbers are modelled by `ℚ` (exact rational arithmetic);
  grid coordinates by `ℤ`, grid sizes by `ℕ`.
* `Math.random()` is modelled by a stream `draws : ℕ → ℚ` of values,
  consumed in program order through an explicit counter.
* `Math.sqrt` is modelled by an abstract parameter `sq : ℕ → ℚ`
  (it is only ever applied to natural numbers: squared distances and
  footprint areas).  Theorems that need facts about it assume `SqSpec`.
* TypeScript string-union types (`BuildingType`, `ZoneType`, ...) are
  modelled by `String`.  Optional object fields are modelled by `Option`.
* The tables imported from `@/types/game` (`BUILDING_STATS`,
  `RESIDENTIAL_BUILDINGS`, `COMMERCIAL_BUILDINGS`, `INDUSTRIAL_BUILDINGS`)
  are not part of the given source; functions take them as a `Tables`
  parameter, and concrete instantiations are modelled from the spec.
-/

namespace AquaSim

/-- Per-building stat record: the shape of one `BUILDING_STATS` entry
(fields the simulation core reads). -/
structure BStats where
  maxPop : ℚ
  maxJobs : ℚ
  pollution : ℚ
  landValue : ℚ
  pollutionType : Option String
deriving DecidableEq, Repr

/-- Modelled from the spec: the static lookup tables consumed by the core
(`BUILDING_STATS` and the three zone building lists) live in
`@/types/game`, which is outside the given source; they are passed as a
parameter. -/
structure Tables where
  buildingStats : String → Option BStats
  residentialBuildings : List String
  commercialBuildings : List String
  industrialBuildings : List String

/-- The `Building` record (fields as used by `simulation.ts`;
bridge-specific fields are optional as in the TypeScript interface). -/
structure Building where
  type : String
  level : ℚ
  population : ℚ
  jobs : ℚ
  powered : Bool
  watered : Bool
  onFire : Bool
  fireProgress : ℚ
  age : ℚ
  constructionProgress : ℚ
  abandoned : Bool
  bridgeType : Option String := none
  bridgeOrientation : Option String := none
  bridgeVariant : Option ℤ := none
  bridgePosition : Option String := none
  bridgeIndex : Option ℤ := none
  bridgeSpan : Option ℤ := none
  bridgeTrackType : Option String := none
  flipped : Bool := false
deriving DecidableEq, Repr

/-- The `Tile` record.  `hasRailOverlay` is optional in TypeScript and only
ever tested for truthiness, so `undefined` is modelled as `false`. -/
structure Tile where
  x : ℤ
  y : ℤ
  zone : String
  building : Building
  landValue : ℚ
  pollution : ℚ
  crime : ℚ
  traffic : ℚ
  hasSubway : Bool
  hasRailOverlay : Bool := false
  pollutionType : Option String := none
deriving DecidableEq, Repr

/-- One grid row (`Tile[]`). -/
abbrev Row := List Tile

/-- The grid (`Tile[][]`, indexed `grid[y][x]`). -/
abbrev Grid := List Row

/-- Service coverage fields (`ServiceCoverage`). -/
structure ServiceCoverage where
  police : List (List ℚ)
  fire : List (List ℚ)
  health : List (List ℚ)
  education : List (List ℚ)
  power : List (List Bool)
  water : List (List Bool)
deriving DecidableEq, Repr

/-- List of integers `a, a+1, ..., b` (empty when `b < a`): the index
ranges of the `for` loops. -/
def intRange (a b : ℤ) : List ℤ :=
  (List.range (b + 1 - a).toNat).map (fun i => a + Int.ofNat i)

/-- Read `l[i]` at an integer index (JavaScript array indexing:
out-of-range or negative gives `undefined`, modelled as `none`). -/
def zget (l : List α) (i : ℤ) : Option α :=
  if 0 ≤ i then l[i.toNat]? else none

/-- Write `l[i] = a` at an integer index (in-bounds writes only; the
sites that use it are in bounds). -/
def zset (l : List α) (i : ℤ) (a : α) : List α :=
  if 0 ≤ i then l.set i.toNat a else l

/-- Read a cell of a 2-dimensional array at `[y][x]`. -/
def zget2 (m : List (List α)) (x y : ℤ) : Option α :=
  (zget m y).bind (fun row => zget row x)

/-- Write a cell of a 2-dimensional array at `[y][x]`. -/
def zset2 (m : List (List α)) (x y : ℤ) (a : α) : List (List α) :=
  match zget m y with
  | none => m
  | some row => zset m y (zset row x a)

/-- Numeric coverage read `field[y][x]` (in-bounds at all use sites). -/
def covQ (m : List (List ℚ)) (x y : ℤ) : ℚ := (zget2 m x y).getD 0

/-- Boolean coverage read `field[y][x]` (in-bounds at all use sites). -/
def covB (m : List (List Bool)) (x y : ℤ) : Bool := (zget2 m x y).getD false

/-- `NO_CONSTRUCTION_TYPES`. -/
def NO_CONSTRUCTION_TYPES : List String :=
  ["grass", "empty", "water", "road", "bridge", "tree"]

/-- `MAX_BRIDGE_SPAN`. -/
def MAX_BRIDGE_SPAN : ℕ := 10

/-- `BRIDGE_TYPE_THRESHOLDS.large`. -/
def BRIDGE_THRESHOLD_LARGE : ℕ := 5

/-- `BRIDGE_VARIANTS`. -/
def BRIDGE_VARIANTS (bridgeType : String) : ℤ :=
  if bridgeType = "small" then 3
  else if bridgeType = "medium" then 3
  else if bridgeType = "large" then 2
  else 2

/-- `WATERFRONT_BUILDINGS`. -/
def WATERFRONT_BUILDINGS : List String := ["marina_docks_small", "pier_large"]

/-- `MERGEABLE_TILE_TYPES`. -/
def MERGEABLE_TILE_TYPES : List String := ["grass", "tree"]

/-- `CONSOLIDATABLE_BUILDINGS`, keyed by zone. -/
def CONSOLIDATABLE_BUILDINGS (zone : String) : List String :=
  if zone = "residential" then ["house_small", "house_medium"]
  else if zone = "commercial" then ["shop_small", "shop_medium"]
  else if zone = "industrial" then ["factory_small"]
  else []

/-- `BUILDING_SIZES` / `getBuildingSize` (default 1×1). -/
def getBuildingSize (buildingType : String) : ℕ × ℕ :=
  if buildingType = "power_plant" then (2, 2)
  else if buildingType = "hospital" then (2, 2)
  else if buildingType = "school" then (2, 2)
  else if buildingType = "stadium" then (3, 3)
  else if buildingType = "museum" then (3, 3)
  else if buildingType = "university" then (3, 3)
  else if buildingType = "airport" then (4, 4)
  else if buildingType = "space_program" then (3, 3)
  else if buildingType = "park_large" then (3, 3)
  else if buildingType = "mansion" then (2, 2)
  else if buildingType = "apartment_low" then (2, 2)
  else if buildingType = "apartment_high" then (2, 2)
  else if buildingType = "office_low" then (2, 2)
  else if buildingType = "office_high" then (2, 2)
  else if buildingType = "mall" then (3, 3)
  else if buildingType = "factory_medium" then (2, 2)
  else if buildingType = "factory_large" then (3, 3)
  else if buildingType = "warehouse" then (2, 2)
  else if buildingType = "city_hall" then (2, 2)
  else if buildingType = "amusement_park" then (4, 4)
  else if buildingType = "playground_large" then (2, 2)
  else if buildingType = "baseball_field_small" then (2, 2)
  else if buildingType = "football_field" then (2, 2)
  else if buildingType = "baseball_stadium" then (3, 3)
  else if buildingType = "mini_golf_course" then (2, 2)
  else if buildingType = "go_kart_track" then (2, 2)
  else if buildingType = "amphitheater" then (2, 2)
  else if buildingType = "greenhouse_garden" then (2, 2)
  else if buildingType = "marina_docks_small" then (2, 2)
  else if buildingType = "roller_coaster_small" then (2, 2)
  else if buildingType = "mountain_lodge" then (2, 2)
  else if buildingType = "mountain_trailhead" then (3, 3)
  else if buildingType = "rail_station" then (2, 2)
  else (1, 1)

/-- `SERVICE_CONFIG` base ranges. -/
def serviceRange (t : String) : Option ℚ :=
  if t = "police_station" then some 13
  else if t = "fire_station" then some 18
  else if t = "hospital" then some 24
  else if t = "school" then some 11
  else if t = "university" then some 19
  else if t = "power_plant" then some 15
  else if t = "water_tower" then some 12
  else none

/-- The quality-service kind of a `SERVICE_CONFIG` entry
(`config.type`; `power_plant` / `water_tower` carry no kind). -/
def serviceKind (t : String) : Option String :=
  if t = "police_station" then some "police"
  else if t = "fire_station" then some "fire"
  else if t = "hospital" then some "health"
  else if t = "school" then some "education"
  else if t = "university" then some "education"
  else none

/-- `SERVICE_BUILDING_TYPES`. -/
def SERVICE_BUILDING_TYPES : List String :=
  ["police_station", "fire_station", "hospital", "school", "university",
   "power_plant", "water_tower"]

/-- `SERVICE_MAX_LEVEL`. -/
def SERVICE_MAX_LEVEL : ℚ := 5

/-- `SERVICE_RANGE_INCREASE_PER_LEVEL`. -/
def SERVICE_RANGE_INCREASE_PER_LEVEL : ℚ := 1 / 5

/-- `getConstructionSpeed`; `r` is the `Math.random()` draw and `sq`
models `Math.sqrt` (every footprint in `BUILDING_SIZES` is square, so
the argument is always a perfect square). -/
def getConstructionSpeed (sq : ℕ → ℚ) (r : ℚ) (buildingType : String) : ℚ :=
  let size := getBuildingSize buildingType
  let area := size.1 * size.2
  let baseSpeed := 24 + r * 12
  (baseSpeed / sq area) / (13 / 10)

/-- `createBuilding`. -/
def createBuilding (t : String) : Building :=
  { type := t
    level := if t = "grass" ∨ t = "empty" ∨ t = "water" then 0 else 1
    population := 0, jobs := 0, powered := false, watered := false
    onFire := false, fireProgress := 0, age := 0
    constructionProgress := if t ∈ NO_CONSTRUCTION_TYPES then 100 else 0
    abandoned := false }

/-- `createTile`. -/
def createTile (x y : ℤ) (buildingType : String) : Tile :=
  { x := x, y := y, zone := "none"
    building := createBuilding buildingType
    landValue := 50, pollution := 0, crime := 0, traffic := 0
    hasSubway := false }

/-- `isStarterBuilding`. -/
def isStarterBuilding (_x _y : ℤ) (buildingType : String) : Bool :=
  if buildingType = "house_small" ∨ buildingType = "shop_small" then true
  else if buildingType = "animal_pens_farm" ∨ buildingType = "greenhouse_garden" then true
  else if buildingType = "factory_small" then true
  else false

/-- `requiresWaterAdjacency`. -/
def requiresWaterAdjacency (buildingType : String) : Bool :=
  buildingType ∈ WATERFRONT_BUILDINGS

/-- `createServiceCoverage`. -/
def createServiceCoverage (size : ℕ) : ServiceCoverage :=
  let zeros := List.replicate size (List.replicate size (0 : ℚ))
  let falses := List.replicate size (List.replicate size false)
  { police := zeros, fire := zeros, health := zeros, education := zeros
    power := falses, water := falses }

/-- The service-building records collected by the first pass of
`calculateServiceCoverage` (grid scan order: `y` outer, `x` inner). -/
def collectServiceBuildings (grid : Grid) (size : ℕ) :
    List (ℤ × ℤ × String × ℚ) :=
  (intRange 0 (size - 1)).flatMap (fun y =>
    (intRange 0 (size - 1)).filterMap (fun x =>
      match zget2 grid x y with
      | none => none
      | some tile =>
        if tile.building.type ∈ SERVICE_BUILDING_TYPES then
          if tile.building.constructionProgress < 100 then none
          else if tile.building.abandoned then none
          else some (x, y, tile.building.type, tile.building.level)
        else none))

/-- Paint one boolean coverage circle (the `power_plant` / `water_tower`
branches of `calculateServiceCoverage`). -/
def paintBool (size : ℕ) (x y range : ℤ) (m : List (List Bool)) :
    List (List Bool) :=
  (intRange (max 0 (y - range)) (min ((size : ℤ) - 1) (y + range))).foldl
    (fun m1 ny =>
      (intRange (max 0 (x - range)) (min ((size : ℤ) - 1) (x + range))).foldl
        (fun m2 nx =>
          let dx := nx - x
          let dy := ny - y
          if dx * dx + dy * dy ≤ range * range then zset2 m2 nx ny true else m2)
        m1)
    m

/-- Paint one additive-falloff coverage circle (the quality-service branch
of `calculateServiceCoverage`). -/
def paintQ (sq : ℕ → ℚ) (size : ℕ) (x y range : ℤ) (m : List (List ℚ)) :
    List (List ℚ) :=
  (intRange (max 0 (y - range)) (min ((size : ℤ) - 1) (y + range))).foldl
    (fun m1 ny =>
      (intRange (max 0 (x - range)) (min ((size : ℤ) - 1) (x + range))).foldl
        (fun m2 nx =>
          let dx := nx - x
          let dy := ny - y
          let distSquared := dx * dx + dy * dy
          if distSquared ≤ range * range then
            let distance := sq distSquared.toNat
            let coverage := max 0 ((1 - distance / (range : ℚ)) * 100)
            zset2 m2 nx ny (min 100 (covQ m2 nx ny + coverage))
          else m2)
        m1)
    m

/-- Apply one collected service building to the coverage record
(the body of the second loop of `calculateServiceCoverage`). -/
def applyServiceBuilding (sq : ℕ → ℚ) (size : ℕ)
    (services : ServiceCoverage) (b : ℤ × ℤ × String × ℚ) : ServiceCoverage :=
  let x := b.1
  let y := b.2.1
  let t := b.2.2.1
  let level := b.2.2.2
  match serviceRange t with
  | none => services
  | some baseRange =>
    let effectiveRange := baseRange * (1 + (level - 1) * SERVICE_RANGE_INCREASE_PER_LEVEL)
    let range : ℤ := ⌊effectiveRange⌋
    if t = "power_plant" then
      { services with power := paintBool size x y range services.power }
    else if t = "water_tower" then
      { services with water := paintBool size x y range services.water }
    else
      match serviceKind t with
      | some "police" => { services with police := paintQ sq size x y range services.police }
      | some "fire" => { services with fire := paintQ sq size x y range services.fire }
      | some "health" => { services with health := paintQ sq size x y range services.health }
      | some "education" => { services with education := paintQ sq size x y range services.education }
      | _ => services

/-- `calculateServiceCoverage`. -/
def calculateServiceCoverage (sq : ℕ → ℚ) (grid : Grid) (size : ℕ) :
    ServiceCoverage :=
  (collectServiceBuildings grid size).foldl
    (applyServiceBuilding sq size) (createServiceCoverage size)

/-!
Grid views.  In the TypeScript source, functions like
`applyBuildingFootprint`, `findBuildingOrigin`, `hasRoadAccess` and
`evolveBuilding` mutate (or read) whatever `Tile[][]` array they are
handed.  During `simulateTick` that array is the copy-on-write `newGrid`
whose unmodified rows alias the rows of the input `state.grid`; elsewhere
it is an independent deep copy.  A `GridView` packages reading and
writing a tile at `[y][x]` so the same definitions serve both cases with
the exact aliasing semantics of each.
-/

structure GridView (σ : Type) where
  read : σ → ℤ → ℤ → Option Tile
  write : σ → ℤ → ℤ → Tile → σ
  len : σ → ℕ

/-- The view of a plain, independently owned `Tile[][]`. -/
def plainView : GridView Grid :=
  { read := fun g x y => zget2 g x y
    write := fun g x y t => zset2 g x y t
    len := fun g => g.length }

/-- Modify the tile at `[y][x]` in place (no-op when out of bounds; the
mutation sites are in bounds). -/
def vmod (V : GridView σ) (s : σ) (x y : ℤ) (f : Tile → Tile) : σ :=
  match V.read s x y with
  | none => s
  | some t => V.write s x y (f t)

/-- Modify the building of the tile at `[y][x]` in place. -/
def vmodB (V : GridView σ) (s : σ) (x y : ℤ) (f : Building → Building) : σ :=
  vmod V s x y (fun t => { t with building := f t.building })

/-- Building types treated as structural (non-origin) by
`findBuildingOrigin`. -/
def ORIGIN_STRUCTURAL : List String :=
  ["empty", "grass", "water", "road", "bridge", "rail", "tree"]

/-- `findBuildingOrigin`. -/
def findBuildingOrigin (V : GridView σ) (s : σ) (x y : ℤ) (gridSize : ℕ) :
    Option (ℤ × ℤ × String) :=
  match V.read s x y with
  | none => none
  | some tile =>
    if tile.building.type ∉ ORIGIN_STRUCTURAL then
      let size := getBuildingSize tile.building.type
      if size.1 > 1 ∨ size.2 > 1 then some (x, y, tile.building.type) else none
    else if tile.building.type = "empty" then
      -- scan backward up to the maximum footprint size (4), row-major
      ((List.range 4).flatMap (fun dy => (List.range 4).map (fun dx => (dy, dx)))).findSome?
        (fun d =>
          let checkX := x - (d.2 : ℤ)
          let checkY := y - (d.1 : ℤ)
          if 0 ≤ checkX ∧ 0 ≤ checkY ∧ checkX < (gridSize : ℤ) ∧ checkY < (gridSize : ℤ) then
            match V.read s checkX checkY with
            | none => none
            | some checkTile =>
              if checkTile.building.type ∉ ORIGIN_STRUCTURAL then
                let size := getBuildingSize checkTile.building.type
                if checkX ≤ x ∧ x < checkX + (size.1 : ℤ) ∧
                    checkY ≤ y ∧ y < checkY + (size.2 : ℤ) then
                  some (checkX, checkY, checkTile.building.type)
                else none
              else none
          else none)
    else none

/-- The part of `isMergeableZoneTile` after the exclude-tile early case. -/
def isMergeableRest (tile : Tile) (zone : String) (allow : Bool) : Bool :=
  if tile.zone ≠ zone then false
  else if tile.building.onFire then false
  else if tile.building.type = "water" ∨ tile.building.type = "road" ∨
      tile.building.type = "bridge" then false
  else if tile.building.type ∈ MERGEABLE_TILE_TYPES then true
  else if allow ∧ tile.building.type ∈ CONSOLIDATABLE_BUILDINGS zone then true
  else false

/-- `isMergeableZoneTile`. -/
def isMergeableZoneTile (tile : Tile) (zone : String)
    (excludeTile : Option (ℤ × ℤ)) (allowBuildingConsolidation : Bool) : Bool :=
  match excludeTile with
  | some e =>
    if tile.x = e.1 ∧ tile.y = e.2 then
      tile.zone = zone ∧ ¬tile.building.onFire ∧
        tile.building.type ≠ "water" ∧ tile.building.type ≠ "road"
    else
      isMergeableRest tile zone allowBuildingConsolidation
  | none => isMergeableRest tile zone allowBuildingConsolidation

/-- `footprintAvailable`. -/
def footprintAvailable (V : GridView σ) (s : σ) (originX originY : ℤ)
    (width height : ℕ) (zone : String) (gridSize : ℕ)
    (excludeTile : Option (ℤ × ℤ)) (allowBuildingConsolidation : Bool) : Bool :=
  if originX < 0 ∨ originY < 0 ∨ originX + (width : ℤ) > (gridSize : ℤ) ∨
      originY + (height : ℤ) > (gridSize : ℤ) then false
  else
    (List.range height).all (fun dy =>
      (List.range width).all (fun dx =>
        match V.read s (originX + (dx : ℤ)) (originY + (dy : ℤ)) with
        | none => false
        | some tile => isMergeableZoneTile tile zone excludeTile allowBuildingConsolidation))

/-- One adjacent-cell contribution to `scoreFootprint`'s `roadScore`. -/
def scoreOffset (V : GridView σ) (s : σ) (gridSize : ℕ) (gx gy : ℤ)
    (o : ℤ × ℤ) : ℚ :=
  let nx := gx + o.1
  let ny := gy + o.2
  if 0 ≤ nx ∧ 0 ≤ ny ∧ nx < (gridSize : ℤ) ∧ ny < (gridSize : ℤ) then
    match V.read s nx ny with
    | some t =>
      if t.building.type = "road" ∨ t.building.type = "bridge" then (1 : ℚ) else 0
    | none => 0
  else 0

/-- `scoreFootprint`. -/
def scoreFootprint (V : GridView σ) (s : σ) (originX originY : ℤ)
    (width height : ℕ) (gridSize : ℕ) : ℚ :=
  let offsets : List (ℤ × ℤ) := [(-1, 0), (1, 0), (0, -1), (0, 1)]
  let cells := (List.range height).flatMap
    (fun dy => (List.range width).map (fun dx => (dy, dx)))
  let roadScore := (cells.map (fun d =>
    let gx := originX + (d.2 : ℤ)
    let gy := originY + (d.1 : ℤ)
    (offsets.map (scoreOffset V s gridSize gx gy)).sum)).sum
  roadScore - (width : ℚ) * (height : ℚ) * (1 / 4)

/-- `findFootprintIncludingTile`.  JavaScript's stable descending sort
followed by taking element 0 picks the first candidate (in generation
order) with maximal score; the fold keeps a candidate unless a strictly
better one appears. -/
def findFootprintIncludingTile (V : GridView σ) (s : σ) (x y : ℤ)
    (width height : ℕ) (zone : String) (gridSize : ℕ)
    (allowBuildingConsolidation : Bool) : Option (ℤ × ℤ) :=
  let excludeTile := some (x, y)
  let candidates :=
    (intRange (y - ((height : ℤ) - 1)) y).flatMap (fun oy =>
      (intRange (x - ((width : ℤ) - 1)) x).filterMap (fun ox =>
        if ¬footprintAvailable V s ox oy width height zone gridSize excludeTile
            allowBuildingConsolidation then none
        else if x < ox ∨ x ≥ ox + (width : ℤ) ∨ y < oy ∨ y ≥ oy + (height : ℤ) then none
        else some (ox, oy, scoreFootprint V s ox oy width height gridSize)))
  let best := candidates.foldl
    (fun acc c =>
      match acc with
      | none => some c
      | some b => if c.2.2 > b.2.2 then some c else some b)
    none
  best.map (fun b => (b.1, b.2.1))

/-- `applyBuildingFootprint`; returns the updated grid state and
`grid[originY][originX].building`. -/
def applyBuildingFootprint (T : Tables) (V : GridView σ) (s : σ)
    (originX originY : ℤ) (buildingType zone : String) (level : ℚ)
    (services : Option ServiceCoverage) : σ × Building :=
  let size := getBuildingSize buildingType
  let stats := (T.buildingStats buildingType).getD
    { maxPop := 0, maxJobs := 0, pollution := 0, landValue := 0, pollutionType := none }
  let s1 :=
    (List.range size.2).foldl (fun sa dy =>
      (List.range size.1).foldl (fun sb dx =>
        let cx := originX + (dx : ℤ)
        let cy := originY + (dy : ℤ)
        vmod V sb cx cy (fun cell =>
          let b :=
            if dx = 0 ∧ dy = 0 then
              let b0 := createBuilding buildingType
              let b1 := { b0 with level := level, age := 0 }
              match services with
              | some sv =>
                { b1 with powered := covB sv.power cx cy, watered := covB sv.water cx cy }
              | none => b1
            else
              { createBuilding "empty" with level := 0 }
          { cell with
            building := b
            zone := zone
            pollution := if dx = 0 ∧ dy = 0 then stats.pollution else 0 }))
      sa) s
  (s1, ((V.read s1 originX originY).map (·.building)).getD (createBuilding buildingType))

/-- `canPlaceMultiTileBuilding`. -/
def canPlaceMultiTileBuilding (V : GridView σ) (s : σ) (x y : ℤ)
    (width height : ℕ) (gridSize : ℕ) : Bool :=
  if x + (width : ℤ) > (gridSize : ℤ) ∨ y + (height : ℤ) > (gridSize : ℤ) then false
  else
    (List.range height).all (fun dy =>
      (List.range width).all (fun dx =>
        match V.read s (x + (dx : ℤ)) (y + (dy : ℤ)) with
        | none => false
        | some tile => tile.building.type = "grass" ∨ tile.building.type = "tree"))

/-!
`hasRoadAccess`: bounded breadth-first search.  The source uses two
module-level scratch buffers: a 256-entry queue (`Int16Array(3 * 256)`,
pushes refused once `queueTail` reaches `765`) and a visited bitmap
(`Uint8Array(128 * 128)`) that is cleared, per call, on the search
window only.  The search never reads visited marks outside the window,
so for grids of size ≤ 128 a per-call fresh visited set is faithful; the
queue capacity is modelled exactly.  The `while` loop dequeues one entry
per iteration and at most 255 entries are ever enqueued, so `300` units
of fuel are never exhausted.
-/

/-- One BFS state: the pending queue entries `(x, y, dist)` (head first),
the value of `queueTail`, and the visited positions. -/
structure BfsState where
  pending : List (ℤ × ℤ × ℕ)
  tailSlots : ℕ
  visited : List (ℤ × ℤ)

/-- The four 4-neighbors of a position, in the code's scan order. -/
def nbhd (p : ℤ × ℤ) : List (ℤ × ℤ) :=
  [(p.1 - 1, p.2), (p.1 + 1, p.2), (p.1, p.2 - 1), (p.1, p.2 + 1)]

/-- Outcome of scanning the four neighbors of one dequeued node:
either a road/bridge was found (the function returns `true` immediately,
skipping the remaining neighbors) or the updated state. -/
def roadAccessNeighbors (V : GridView σ) (s : σ) (size : ℕ)
    (startZone : String) : List (ℤ × ℤ) → ℕ → BfsState → Bool × BfsState
  | [], _, st => (false, st)
  | n :: rest, dist, st =>
    let nx := n.1
    let ny := n.2
    if nx < 0 ∨ nx ≥ (size : ℤ) ∨ ny < 0 ∨ ny ≥ (size : ℤ) then
      roadAccessNeighbors V s size startZone rest dist st
    else if (nx, ny) ∈ st.visited then
      roadAccessNeighbors V s size startZone rest dist st
    else
      let st1 := { st with visited := (nx, ny) :: st.visited }
      match V.read s nx ny with
      | none => roadAccessNeighbors V s size startZone rest dist st1
      | some neighbor =>
        if neighbor.building.type = "road" ∨ neighbor.building.type = "bridge" then
          (true, st1)
        else
          let isPassableZone := neighbor.zone = startZone ∧ neighbor.building.type ≠ "water"
          if isPassableZone ∧ st1.tailSlots < 765 then
            let st2 := { st1 with
              pending := st1.pending ++ [(nx, ny, dist + 1)]
              tailSlots := st1.tailSlots + 3 }
            roadAccessNeighbors V s size startZone rest dist st2
          else
            roadAccessNeighbors V s size startZone rest dist st1

/-- The BFS `while` loop (fuel-indexed; see the module comment: fuel 300
exceeds the 256 possible iterations). -/
def roadAccessLoop (V : GridView σ) (s : σ) (size : ℕ) (startZone : String)
    (maxDistance : ℕ) : ℕ → BfsState → Bool
  | 0, _ => false
  | f + 1, st =>
    match st.pending with
    | [] => false
    | e :: rest =>
      let st1 := { st with pending := rest }
      if e.2.2 ≥ maxDistance then
        roadAccessLoop V s size startZone maxDistance f st1
      else
        match roadAccessNeighbors V s size startZone (nbhd (e.1, e.2.1))
            e.2.2 st1 with
        | (true, _) => true
        | (false, st2) => roadAccessLoop V s size startZone maxDistance f st2

/-- `hasRoadAccess` (callers pass in-bounds start coordinates). -/
def hasRoadAccess (V : GridView σ) (s : σ) (x y : ℤ) (size : ℕ)
    (maxDistance : ℕ) : Bool :=
  match V.read s x y with
  | none => false
  | some startTile =>
    let startZone := startTile.zone
    if startZone = "none" then false
    else
      roadAccessLoop V s size startZone maxDistance 300
        { pending := [(x, y, 0)], tailSlots := 3, visited := [(x, y)] }

/-- The tail of `evolveBuilding` (its lines from `anchorTile` on): refresh
the anchor's utilities, bump its level, recompute population/jobs, and
return `grid[y][x].building`. -/
def evolveFinish (T : Tables) (V : GridView σ) (s : σ) (anchorX anchorY x y : ℤ)
    (services : ServiceCoverage) (targetLevel : ℚ) : σ × Building :=
  let s1 := vmodB V s anchorX anchorY (fun ab =>
    let ab1 := { ab with
      powered := covB services.power anchorX anchorY
      watered := covB services.water anchorX anchorY }
    let ab2 := { ab1 with level := max ab1.level (min targetLevel (ab1.level + 1)) }
    let buildingStats := T.buildingStats ab2.type
    let efficiency : ℚ :=
      (if ab2.powered then 1 / 2 else 0) + (if ab2.watered then 1 / 2 else 0)
    let pop : ℚ :=
      match buildingStats with
      | some st =>
        if st.maxPop > 0 then
          ((⌊st.maxPop * max 1 ab2.level * efficiency * (4 / 5)⌋ : ℤ) : ℚ)
        else 0
      | none => 0
    let jb : ℚ :=
      match buildingStats with
      | some st =>
        if st.maxJobs > 0 then
          ((⌊st.maxJobs * max 1 ab2.level * efficiency * (4 / 5)⌋ : ℤ) : ℚ)
        else 0
      | none => 0
    { ab2 with population := pop, jobs := jb })
  (s1, ((V.read s1 x y).map (·.building)).getD (createBuilding "grass"))

/-- The abandoned-building block of `evolveBuilding` (its
`if (building.abandoned)` branch); `btype` is the enclosing
`building.type`. -/
def evolveAbandoned (V : GridView σ) (draws : ℕ → ℚ)
    (services : ServiceCoverage) (s1 : σ) (k0 : ℕ) (x y : ℤ)
    (btype : String) (b1 : Building) (zoneDemandValue : ℚ) :
    σ × ℕ × Building :=
  if zoneDemandValue > 10 then
    let clearingChance := min (12 / 100) ((zoneDemandValue - 10) / 600)
    let r := draws k0
    if r < clearingChance then
      let size := getBuildingSize btype
      let s2 :=
        if size.1 > 1 ∨ size.2 > 1 then
          (List.range size.2).foldl (fun sa dy =>
            (List.range size.1).foldl (fun sb dx =>
              vmod V sb (x + (dx : ℤ)) (y + (dy : ℤ)) (fun clearTile =>
                let cb := { createBuilding "grass" with
                  powered := covB services.power (x + (dx : ℤ)) (y + (dy : ℤ))
                  watered := covB services.water (x + (dx : ℤ)) (y + (dy : ℤ)) }
                { clearTile with building := cb })) sa) s1
        else s1
      let cb2 := { createBuilding "grass" with
        powered := b1.powered
        watered := b1.watered }
      (s2, k0 + 1, cb2)
    else
      let b2 := { b1 with population := 0, jobs := 0, age := b1.age + 1 / 10 }
      (vmodB V s1 x y (fun _ => b2), k0 + 1, b2)
  else
    let b2 := { b1 with population := 0, jobs := 0, age := b1.age + 1 / 10 }
    (vmodB V s1 x y (fun _ => b2), k0, b2)

/-- The zone-specific list of evolvable building types. -/
def zoneBuildingList (T : Tables) (zone : String) : List String :=
  if zone = "residential" then T.residentialBuildings
  else if zone = "commercial" then T.commercialBuildings
  else if zone = "industrial" then T.industrialBuildings
  else []

/-- Whether a building is one of the small starter forms of its zone. -/
def isSmallStarter (zone btype : String) : Bool :=
  decide
    ((zone = "residential" ∧ (btype = "house_small" ∨ btype = "house_medium")) ∨
     (zone = "commercial" ∧ (btype = "shop_small" ∨ btype = "shop_medium")) ∨
     (zone = "industrial" ∧ btype = "factory_small"))

/-- The consolidation probability for a building. -/
def consolidationChanceOf (zoneDemandValue : ℚ) (small : Bool) : ℚ :=
  if zoneDemandValue > 30 ∧ small = true then
    8 / 100 + min (25 / 100) ((zoneDemandValue - 30) / 300) +
      (if zoneDemandValue > 70 then 5 / 100 else 0)
  else 8 / 100

/-- The healthy tail of `evolveBuilding` (from `building.age += 1` on):
age bump, consolidation attempt, and the evolve finish. -/
def evolveHealthyTail (T : Tables) (V : GridView σ) (draws : ℕ → ℚ)
    (s1 : σ) (k1 : ℕ) (x y : ℤ) (services : ServiceCoverage)
    (zone : String) (b1 : Building) (landValue : ℚ)
    (hasPower hasWater : Bool) (zoneDemandValue : ℚ) : σ × ℕ × Building :=
  let b2 := { b1 with age := b1.age + 1 }
  let s2 := vmodB V s1 x y (fun _ => b2)
  let buildingList := zoneBuildingList T zone
  let serviceCoverage := (covQ services.police x y + covQ services.fire x y +
    covQ services.health x y + covQ services.education x y) / 4
  let demandLevelBoost := max 0 ((zoneDemandValue - 30) / 70) * (7 / 10)
  let targetLevelZ : ℤ :=
    min 5 (max 1 ⌊landValue / 24 + serviceCoverage / 28 + b2.age / 60 + demandLevelBoost⌋)
  let targetLevel : ℚ := (targetLevelZ : ℚ)
  let targetIndex : ℤ := min ((buildingList.length : ℤ) - 1) (targetLevelZ - 1)
  let targetType := (zget buildingList targetIndex).getD "undefined"
  let isSmall := isSmallStarter zone b2.type
  let consolidationChance := consolidationChanceOf zoneDemandValue isSmall
  let allowBuildingConsolidation :=
    zoneDemandValue > 30 ∧ isSmall = true ∧ zoneDemandValue > 70
  let hasUtilitiesForConsolidation := hasPower ∧ hasWater
  let consolidationTest := hasUtilitiesForConsolidation ∧ b2.age > 12 ∧
    (targetLevel > b2.level ∨ targetType ≠ b2.type)
  if consolidationTest then
    if draws k1 < consolidationChance then
      let fsize := getBuildingSize targetType
      match findFootprintIncludingTile V s2 x y fsize.1 fsize.2 zone (V.len s2)
          allowBuildingConsolidation with
      | some o =>
        let s3 := (applyBuildingFootprint T V s2 o.1 o.2 targetType zone targetLevel
          (some services)).1
        let s4 := vmodB V s3 o.1 o.2 (fun ab => { ab with level := targetLevel })
        let fin := evolveFinish T V s4 o.1 o.2 x y services targetLevel
        (fin.1, k1 + 1, fin.2)
      | none =>
        let s3 :=
          if targetLevel > b2.level then
            vmodB V s2 x y (fun b => { b with level := min targetLevel (b.level + 1) })
          else s2
        let fin := evolveFinish T V s3 x y x y services targetLevel
        (fin.1, k1 + 1, fin.2)
    else
      let fin := evolveFinish T V s2 x y x y services targetLevel
      (fin.1, k1 + 1, fin.2)
  else
    let fin := evolveFinish T V s2 x y x y services targetLevel
    (fin.1, k1, fin.2)

/-- The demand value for a tile zone. -/
def zoneDemandOf (zone : String) (demand : ℚ × ℚ × ℚ) : ℚ :=
  if zone = "residential" then demand.1
  else if zone = "commercial" then demand.2.1
  else if zone = "industrial" then demand.2.2
  else 0

/-- The abandonment probability once the abandonment test holds. -/
def abandonChanceOf (isStarter hasPower hasWater : Bool)
    (level zoneDemandValue : ℚ) : ℚ :=
  min (2 / 100) (|zoneDemandValue + 20| / 4000) +
    (if isStarter then 0
     else (if ¬hasPower then 5 / 1000 else 0) +
       (if ¬hasWater then 5 / 1000 else 0)) +
    (if level ≤ 2 then 3 / 1000 else 0)

/-- `evolveBuilding`.  Returns the updated grid state, the updated random
counter, and the returned `Building` (which the caller assigns to
`newGrid[y][x].building`).  Callers pass in-bounds coordinates. -/
def evolveBuilding (T : Tables) (sq : ℕ → ℚ) (V : GridView σ) (draws : ℕ → ℚ)
    (s0 : σ) (k0 : ℕ) (x y : ℤ) (services : ServiceCoverage)
    (demand : ℚ × ℚ × ℚ) : σ × ℕ × Building :=
  match V.read s0 x y with
  | none => (s0, k0, createBuilding "grass")
  | some tile =>
  let building := tile.building
  let zone := tile.zone
  if zone = "none" ∨ building.type = "grass" ∨ building.type = "water" ∨
      building.type = "road" ∨ building.type = "bridge" then (s0, k0, building)
  else if building.type = "empty" then
    let b1 := { building with
      powered := covB services.power x y
      watered := covB services.water x y
      population := 0
      jobs := 0 }
    (vmodB V s0 x y (fun _ => b1), k0, b1)
  else
  let b1 := { building with
    powered := covB services.power x y
    watered := covB services.water x y }
  let s1 := vmodB V s0 x y (fun _ => b1)
  let hasPower := b1.powered
  let hasWater := b1.watered
  let landValue := tile.landValue
  let isStarter := isStarterBuilding x y building.type
  if ¬isStarter ∧ (¬hasPower ∨ ¬hasWater) then (s1, k0, b1)
  else if b1.constructionProgress < 100 then
    let speed := getConstructionSpeed sq (draws k0) building.type
    let b2 := { b1 with
      constructionProgress := min 100 (b1.constructionProgress + speed)
      population := 0
      jobs := 0 }
    (vmodB V s1 x y (fun _ => b2), k0 + 1, b2)
  else
  let zoneDemandValue := zoneDemandOf zone demand
  if b1.abandoned then
    evolveAbandoned V draws services s1 k0 x y building.type b1 zoneDemandValue
  else if zoneDemandValue < -20 ∧ b1.age > 30 then
    (if draws k0 <
        abandonChanceOf isStarter hasPower hasWater b1.level zoneDemandValue then
      let b2 := { b1 with abandoned := true, population := 0, jobs := 0 }
      (vmodB V s1 x y (fun _ => b2), k0 + 1, b2)
    else
      evolveHealthyTail T V draws s1 (k0 + 1) x y services zone b1 landValue
        hasPower hasWater zoneDemandValue)
  else
    evolveHealthyTail T V draws s1 k0 x y services zone b1 landValue
      hasPower hasWater zoneDemandValue

/-!
The tick pass.  `simulateTick` builds `newGrid` with `newGrid[y] =
state.grid[y]` (row aliasing) and copies a row only on first
modification (`getModifiableTile` and the two inline copy sites).  A
`PassState` holds the caller's grid (`inp`, which shared-row writes
mutate — observable by the caller) and, per row, either `none` (the
`newGrid` row still aliases `inp`) or `some row` (a private copy).
-/

structure PassState where
  inp : Grid
  cow : List (Option Row)
deriving DecidableEq, Repr

/-- Read `newGrid[y][x]`. -/
def aliasRead (s : PassState) (x y : ℤ) : Option Tile :=
  match zget s.cow y with
  | none => none
  | some none => zget2 s.inp x y
  | some (some row) => zget row x

/-- Write `newGrid[y][x] = t`: a write through a still-shared row mutates
the input grid. -/
def aliasWrite (s : PassState) (x y : ℤ) (t : Tile) : PassState :=
  match zget s.cow y with
  | none => s
  | some none => { s with inp := zset2 s.inp x y t }
  | some (some row) => { s with cow := zset s.cow y (some (zset row x t)) }

/-- The `GridView` of the tick's `newGrid`. -/
def aliasView : GridView PassState :=
  { read := aliasRead, write := aliasWrite, len := fun s => s.cow.length }

/-- Copy row `y` on first modification (`modifiedRows` bookkeeping plus
`state.grid[y].map(t => ({...t, building: {...t.building}}))`, which under
value semantics is the row's current contents). -/
def ensureRow (s : PassState) (y : ℤ) : PassState :=
  match zget s.cow y with
  | some none =>
    match zget s.inp y with
    | some row => { s with cow := zset s.cow y (some row) }
    | none => s
  | _ => s

/-- Construction advance inside the tick loop (the `tile.zone === 'none'`
construction block). -/
def tickConstruction (sq : ℕ → ℚ) (draws : ℕ → ℚ) (x y : ℤ)
    (sk : PassState × ℕ) : PassState × ℕ :=
  match aliasRead sk.1 x y with
  | none => sk
  | some tile =>
    if tile.zone = "none" ∧ tile.building.constructionProgress < 100 ∧
        tile.building.type ∉ NO_CONSTRUCTION_TYPES then
      let isUtilityBuilding := tile.building.type = "power_plant" ∨
        tile.building.type = "water_tower"
      let canConstruct := isUtilityBuilding ∨
        (tile.building.powered ∧ tile.building.watered)
      if canConstruct then
        let speed := getConstructionSpeed sq (draws sk.2) tile.building.type
        (vmodB aliasView sk.1 x y (fun b =>
          { b with constructionProgress := min 100 (b.constructionProgress + speed) }),
         sk.2 + 1)
      else sk
    else sk

/-- Orphaned-filler reversion inside the tick loop. -/
def tickOrphan (x y : ℤ) (size : ℕ) (newPowered newWatered : Bool)
    (s : PassState) : PassState :=
  match aliasRead s x y with
  | none => s
  | some tile =>
    if tile.building.type = "empty" then
      match findBuildingOrigin aliasView s x y size with
      | some _ => s
      | none =>
        vmodB aliasView s x y (fun _ =>
          { createBuilding "grass" with powered := newPowered, watered := newWatered })
    else s

/-- The zone-specific candidate list for spawning (industrial is the
fallback branch in the code). -/
def spawnBuildingList (T : Tables) (zone : String) : List String :=
  if zone = "residential" then T.residentialBuildings
  else if zone = "commercial" then T.commercialBuildings
  else T.industrialBuildings

/-- Spawn-or-evolve inside the tick loop (vacant zoned grass spawns a
starter building; other zoned tiles evolve). -/
def tickSpawnOrEvolve (T : Tables) (sq : ℕ → ℚ) (draws : ℕ → ℚ)
    (services : ServiceCoverage) (demand : ℚ × ℚ × ℚ) (size : ℕ)
    (newPowered newWatered : Bool) (x y : ℤ) (sk : PassState × ℕ) :
    PassState × ℕ :=
  match aliasRead sk.1 x y with
  | none => sk
  | some tile =>
    if tile.zone ≠ "none" ∧ tile.building.type = "grass" then
      let roadAccess := hasRoadAccess aliasView sk.1 x y size 8
      let hasUtilities := newPowered ∧ newWatered
      let zoneDemandForSpawn := zoneDemandOf tile.zone demand
      let baseSpawnChance : ℚ := 1 / 20
      let demandFactor := max 0 (min 1 ((zoneDemandForSpawn + 30) / 80))
      let spawnChance := baseSpawnChance * demandFactor
      let buildingList := spawnBuildingList T tile.zone
      let candidate := buildingList[0]?.getD "undefined"
      let wouldBeStarter := isStarterBuilding x y candidate
      if roadAccess ∧ (hasUtilities ∨ wouldBeStarter) then
        let r := draws sk.2
        let k1 := sk.2 + 1
        if r < spawnChance then
          let candidateSize := getBuildingSize candidate
          if canPlaceMultiTileBuilding aliasView sk.1 x y candidateSize.1
              candidateSize.2 size then
            let s1 := (List.range candidateSize.2).foldl
              (fun sa dy =>
                if y + (dy : ℤ) < (size : ℤ) then ensureRow sa (y + (dy : ℤ)) else sa)
              sk.1
            ((applyBuildingFootprint T aliasView s1 x y candidate tile.zone 1
              (some services)).1, k1)
          else (sk.1, k1)
        else (sk.1, k1)
      else sk
    else if tile.zone ≠ "none" ∧ tile.building.type ≠ "grass" then
      let r := evolveBuilding T sq aliasView draws sk.1 sk.2 x y services demand
      (vmodB aliasView r.1 x y (fun _ => r.2.2), r.2.1)
    else sk

/-- Pollution production/absorption inside the tick loop. -/
def tickPollution (T : Tables) (x y : ℤ) (s : PassState) : PassState :=
  match aliasRead s x y with
  | none => s
  | some tile =>
    match T.buildingStats tile.building.type with
    | none => s
    | some stats =>
      if stats.pollution ≠ 0 then
        if stats.pollution < 0 then
          vmod aliasView s x y (fun t =>
            { t with pollution := max 0 (t.pollution + stats.pollution * (1 / 10)) })
        else
          vmod aliasView s x y (fun t =>
            let t1 := { t with
              pollution := min 100 (t.pollution + stats.pollution * (1 / 20)) }
            match stats.pollutionType with
            | some pt =>
              if pt ≠ "" ∧ pt ≠ "none" then { t1 with pollutionType := some pt } else t1
            | none => t1)
      else s

/-- Water-tower pollution scrubbing inside the tick loop.  The neighbor
writes go through `newGrid[y+cdy]?.[x+cdx]` without a copy-on-write
check, so they can land on rows still shared with the input grid. -/
def tickScrub (x y : ℤ) (s : PassState) : PassState :=
  match aliasRead s x y with
  | none => s
  | some tile =>
    if tile.building.type = "water_tower" then
      let s1 := vmod aliasView s x y (fun t => { t with pollution := 0 })
      let cleanRadius : List (ℤ × ℤ) :=
        [(0, 1), (0, -1), (1, 0), (-1, 0), (1, 1), (-1, -1), (1, -1), (-1, 1)]
      cleanRadius.foldl (fun sa o =>
        vmod aliasView sa (x + o.1) (y + o.2) (fun n =>
          { n with pollution := max 0 (n.pollution - 5) })) s1
    else s

/-- Pollution diffusion inside the tick loop (this site does copy rows
before writing). -/
def tickSpread (draws : ℕ → ℚ) (size : ℕ) (x y : ℤ) (sk : PassState × ℕ) :
    PassState × ℕ :=
  match aliasRead sk.1 x y with
  | none => sk
  | some tile =>
    if tile.pollution > 30 then
      let spreadAmount : ℚ := if tile.building.type = "water" then 4 else 1
      let neighbors : List (ℤ × ℤ) := [(0, 1), (0, -1), (1, 0), (-1, 0)]
      neighbors.foldl (fun acc o =>
        let nx := x + o.1
        let ny := y + o.2
        if 0 ≤ nx ∧ nx < (size : ℤ) ∧ 0 ≤ ny ∧ ny < (size : ℤ) then
          let sa := ensureRow acc.1 ny
          match aliasRead sa nx ny with
          | none => (sa, acc.2)
          | some neighbor =>
            if neighbor.building.type = "water" then
              (vmod aliasView sa nx ny (fun n =>
                { n with
                  pollution := min 100 (n.pollution + spreadAmount)
                  pollutionType := tile.pollutionType }), acc.2)
            else if neighbor.pollution < tile.pollution then
              let r := draws acc.2
              (vmod aliasView sa nx ny (fun n =>
                let n1 := { n with
                  pollution := min 100 (n.pollution + spreadAmount * (1 / 10)) }
                if r > 1 / 2 then { n1 with pollutionType := tile.pollutionType }
                else n1), acc.2 + 1)
            else (sa, acc.2)
        else acc) sk
    else sk

/-- The `tile.pollution *= 0.99` decay step. -/
def tickDecay (x y : ℤ) (s : PassState) : PassState :=
  vmod aliasView s x y (fun t => { t with pollution := t.pollution * (99 / 100) })

/-- Burning-tile handling inside the tick loop (extinguish attempt, fire
progress, burn-down to grass). -/
def tickFireBurn (draws : ℕ → ℚ) (services : ServiceCoverage)
    (disastersEnabled : Bool) (x y : ℤ) (sk : PassState × ℕ) : PassState × ℕ :=
  match aliasRead sk.1 x y with
  | none => sk
  | some tile =>
    if disastersEnabled ∧ tile.building.onFire then
      let fireCoverage := covQ services.fire x y
      let fightingChance := fireCoverage / 300
      let r := draws sk.2
      if r < fightingChance then
        (vmodB aliasView sk.1 x y (fun b =>
          { b with onFire := false, fireProgress := 0 }), sk.2 + 1)
      else
        let newProgress := tile.building.fireProgress + 2 / 3
        if newProgress ≥ 100 then
          (vmod aliasView sk.1 x y (fun t =>
            { t with building := createBuilding "grass", zone := "none" }), sk.2 + 1)
        else
          (vmodB aliasView sk.1 x y (fun b =>
            { b with fireProgress := newProgress }), sk.2 + 1)
    else sk

/-- Building types excluded from neighbor-spread ignition. -/
def FIRE_SPREAD_IMMUNE : List String :=
  ["grass", "water", "road", "tree", "empty", "bridge", "rail"]

/-- Building types excluded from spontaneous self-ignition. -/
def FIRE_SELF_IMMUNE : List String :=
  ["grass", "water", "road", "tree", "empty"]

/-- Neighbor-spread ignition inside the tick loop. -/
def tickFireCatch (draws : ℕ → ℚ) (services : ServiceCoverage)
    (disastersEnabled : Bool) (size : ℕ) (x y : ℤ) (sk : PassState × ℕ) :
    PassState × ℕ :=
  match aliasRead sk.1 x y with
  | none => sk
  | some tile =>
    if disastersEnabled ∧ ¬tile.building.onFire ∧
        tile.building.type ∉ FIRE_SPREAD_IMMUNE then
      let adjacentOffsets : List (ℤ × ℤ) := [(-1, 0), (1, 0), (0, -1), (0, 1)]
      let adjacentFireCount : ℕ := (adjacentOffsets.filter (fun o =>
        let nx := x + o.1
        let ny := y + o.2
        if 0 ≤ nx ∧ nx < (size : ℤ) ∧ 0 ≤ ny ∧ ny < (size : ℤ) then
          match aliasRead sk.1 nx ny with
          | some neighbor => neighbor.building.onFire
          | none => false
        else false)).length
      if adjacentFireCount > 0 then
        let fireCoverage := covQ services.fire x y
        let coverageReduction := fireCoverage / 100
        let baseSpreadChance : ℚ := (5 / 1000) * (adjacentFireCount : ℚ)
        let spreadChance := baseSpreadChance * (1 - coverageReduction * (95 / 100))
        let r := draws sk.2
        if r < spreadChance then
          (vmodB aliasView sk.1 x y (fun b =>
            { b with onFire := true, fireProgress := 0 }), sk.2 + 1)
        else (sk.1, sk.2 + 1)
      else sk
    else sk

/-- Spontaneous self-ignition inside the tick loop (note: its exclusion
list omits `bridge` and `rail`). -/
def tickFireSelf (draws : ℕ → ℚ) (disastersEnabled : Bool) (x y : ℤ)
    (sk : PassState × ℕ) : PassState × ℕ :=
  match aliasRead sk.1 x y with
  | none => sk
  | some tile =>
    if disastersEnabled ∧ ¬tile.building.onFire ∧
        tile.building.type ∉ FIRE_SELF_IMMUNE then
      let r := draws sk.2
      if r < 3 / 100000 then
        (vmodB aliasView sk.1 x y (fun b =>
          { b with onFire := true, fireProgress := 0 }), sk.2 + 1)
      else (sk.1, sk.2 + 1)
    else sk

/-- The body of the per-tile loop of `simulateTick` (its skip checks read
the original tile from the input grid). -/
def processTile (T : Tables) (sq : ℕ → ℚ) (draws : ℕ → ℚ)
    (services : ServiceCoverage) (demand : ℚ × ℚ × ℚ)
    (disastersEnabled : Bool) (size : ℕ) (sk : PassState × ℕ)
    (pos : ℤ × ℤ) : PassState × ℕ :=
  let y := pos.1
  let x := pos.2
  match zget2 sk.1.inp x y with
  | none => sk
  | some originalTile =>
  let ob := originalTile.building
  let newPowered := covB services.power x y
  let newWatered := covB services.water x y
  let needsPowerWaterUpdate := ob.powered ≠ newPowered ∨ ob.watered ≠ newWatered
  if (ob.type = "road" ∨ ob.type = "bridge") ∧ ¬needsPowerWaterUpdate then sk
  else if originalTile.zone = "none" ∧ (ob.type = "grass" ∨ ob.type = "tree") ∧
      ¬needsPowerWaterUpdate ∧ originalTile.pollution < 1 / 100 ∧
      ((T.buildingStats ob.type).map (fun st => st.pollution)).getD 0 = 0 then sk
  else
  let isCompletedServiceBuilding := originalTile.zone = "none" ∧
    ob.constructionProgress = 100 ∧ ¬ob.onFire ∧ ob.type ≠ "grass" ∧
    ob.type ≠ "tree" ∧ ob.type ≠ "empty"
  if isCompletedServiceBuilding ∧ ¬needsPowerWaterUpdate ∧
      originalTile.pollution < 1 / 100 then sk
  else
  let s1 := ensureRow sk.1 y
  let s2 := vmodB aliasView s1 x y (fun b =>
    { b with powered := newPowered, watered := newWatered })
  let sk3 := tickConstruction sq draws x y (s2, sk.2)
  let s4 := tickOrphan x y size newPowered newWatered sk3.1
  let sk5 := tickSpawnOrEvolve T sq draws services demand size newPowered
    newWatered x y (s4, sk3.2)
  let s6 := tickPollution T x y sk5.1
  let s7 := tickScrub x y s6
  let sk8 := tickSpread draws size x y (s7, sk5.2)
  let s9 := tickDecay x y sk8.1
  let sk10 := tickFireBurn draws services disastersEnabled x y (s9, sk8.2)
  let sk11 := tickFireCatch draws services disastersEnabled size x y sk10
  tickFireSelf draws disastersEnabled x y sk11

/-- The slice of `GameState` that the grid pass of `simulateTick` reads
(the remaining fields — budget, clock, history, notifications — are
recomputed after the pass and never write the grid). -/
structure GameState where
  grid : Grid
  gridSize : ℕ
  demand : ℚ × ℚ × ℚ
  disastersEnabled : Bool
deriving DecidableEq, Repr

/-- Result of the grid pass: the caller's grid object after the call
(`inputAfter` — mutations through still-shared rows are visible there)
and the returned state's new grid. -/
structure TickResult where
  inputAfter : Grid
  grid : Grid
deriving DecidableEq, Repr

/-- Materialize row `y` of `newGrid`. -/
def materializeRow (s : PassState) (y : ℤ) : Row :=
  match zget s.cow y with
  | some (some row) => row
  | some none => (zget s.inp y).getD []
  | none => []

/-- The row-major list of tile positions `(y, x)` visited by the pass. -/
def tilePositions (size : ℕ) : List (ℤ × ℤ) :=
  (intRange 0 ((size : ℤ) - 1)).flatMap (fun y =>
    (intRange 0 ((size : ℤ) - 1)).map (fun x => (y, x)))

/-- `simulateTick` (its grid pass; see `GameState`). -/
def simulateTick (T : Tables) (sq : ℕ → ℚ) (draws : ℕ → ℚ)
    (state : GameState) : TickResult :=
  let size := state.gridSize
  let services := calculateServiceCoverage sq state.grid size
  let init : PassState := { inp := state.grid, cow := List.replicate size none }
  let final := (tilePositions size).foldl
    (processTile T sq draws services state.demand state.disastersEnabled size)
    (init, 0)
  { inputAfter := final.1.inp
    grid := (intRange 0 ((size : ℤ) - 1)).map (materializeRow final.1) }

/-- `getWaterAdjacency`; returns `(hasWater, shouldFlip)`. -/
def getWaterAdjacency (grid : Grid) (x y : ℤ) (width height : ℕ)
    (gridSize : ℕ) : Bool × Bool :=
  let isWaterAt (cx cy : ℤ) : Bool :=
    ((zget2 grid cx cy).map (fun t => decide (t.building.type = "water"))).getD false
  let southRow := (List.range width).any (fun dx =>
    let checkY := y + (height : ℤ)
    checkY < (gridSize : ℤ) ∧ isWaterAt (x + (dx : ℤ)) checkY)
  let eastCol := (List.range height).any (fun dy =>
    let checkX := x + (width : ℤ)
    checkX < (gridSize : ℤ) ∧ isWaterAt checkX (y + (dy : ℤ)))
  let waterOnSouthOrEast := southRow ∨ (¬southRow ∧ eastCol)
  let northRow := (List.range width).any (fun dx =>
    let checkY := y - 1
    0 ≤ checkY ∧ isWaterAt (x + (dx : ℤ)) checkY)
  let westCol := (List.range height).any (fun dy =>
    let checkX := x - 1
    0 ≤ checkX ∧ isWaterAt checkX (y + (dy : ℤ)))
  let waterOnNorthOrWest := northRow ∨ (¬northRow ∧ westCol)
  let hasWater := waterOnSouthOrEast ∨ waterOnNorthOrWest
  (hasWater, hasWater ∧ waterOnNorthOrWest ∧ ¬waterOnSouthOrEast)

/-- Helper for `placeBuilding`: the placed type is present and is neither
road nor rail. -/
def isSomeNonTrack (b : Option String) : Bool :=
  match b with
  | some bt => bt ≠ "road" ∧ bt ≠ "rail"
  | none => false

/-- The single-tile placement branch of `placeBuilding` (its final
`else` under `size 1×1`). -/
def placeSingleTile (tile : Tile) (bt : String) (x y : ℤ) (g : Grid) : Grid :=
  if bt = "rail" ∧ tile.building.type = "road" then
    vmod plainView g x y (fun t => { t with hasRailOverlay := true })
  else if bt = "road" ∧ tile.building.type = "rail" then
    vmod plainView g x y (fun t =>
      { t with building := createBuilding "road", hasRailOverlay := true, zone := "none" })
  else if bt = "rail" ∧ tile.hasRailOverlay then g
  else if bt = "road" ∧ tile.hasRailOverlay then g
  else
    vmod plainView g x y (fun t =>
      let t1 := { t with building := createBuilding bt, zone := "none" }
      if bt ≠ "road" then { t1 with hasRailOverlay := false } else t1)

/-- The placement step of `placeBuilding` after the water-adjacency
check. -/
def placeBuildingBody (T : Tables) (state : GameState) (tile : Tile)
    (newGrid : Grid) (x y : ℤ) (bt : String) (bsize : ℕ × ℕ)
    (shouldFlip : Bool) : GameState :=
  if bsize.1 > 1 ∨ bsize.2 > 1 then
    if ¬canPlaceMultiTileBuilding plainView newGrid x y bsize.1 bsize.2
        state.gridSize then state
    else
      let g1 := (applyBuildingFootprint T plainView newGrid x y bt "none" 1 none).1
      let g2 := if shouldFlip then
          vmodB plainView g1 x y (fun b => { b with flipped := true })
        else g1
      { state with grid := g2 }
  else
    if tile.building.type ∉ (["grass", "tree", "road", "rail"] : List String) then state
    else
      let g1 := placeSingleTile tile bt x y newGrid
      let g2 := if shouldFlip then
          vmodB plainView g1 x y (fun b => { b with flipped := true })
        else g1
      { state with grid := g2 }

/-- `placeBuilding`.  The `state.grid.map(...)` deep copy is the identity
under value semantics. -/
def placeBuilding (T : Tables) (state : GameState) (x y : ℤ)
    (buildingType : Option String) (zone : Option String) : GameState :=
  match zget2 state.grid x y with
  | none => state
  | some tile =>
  if tile.building.type = "water" then state
  else if buildingType = some "road" ∧
      tile.building.type ∉ (["grass", "tree", "road", "rail"] : List String) then state
  else if buildingType = some "rail" ∧
      tile.building.type ∉ (["grass", "tree", "rail", "road"] : List String) then state
  else if isSomeNonTrack buildingType ∧
      (tile.building.type = "road" ∨ tile.building.type = "bridge") then state
  else if isSomeNonTrack buildingType ∧ tile.building.type = "rail" then state
  else
  let newGrid := state.grid
  match zone with
  | some z =>
    if z = "none" then
      match findBuildingOrigin plainView newGrid x y state.gridSize with
      | some origin =>
        let osize := getBuildingSize origin.2.2
        let g1 := (List.range osize.2).foldl (fun ga dy =>
          (List.range osize.1).foldl (fun gb dx =>
            let clearX := origin.1 + (dx : ℤ)
            let clearY := origin.2.1 + (dy : ℤ)
            if clearX < (state.gridSize : ℤ) ∧ clearY < (state.gridSize : ℤ) then
              vmod plainView gb clearX clearY (fun t =>
                { t with building := createBuilding "grass", zone := "none" })
            else gb) ga) newGrid
        { state with grid := g1 }
      | none =>
        if tile.zone = "none" then state
        else
          { state with grid := vmod plainView newGrid x y (fun t =>
              { t with zone := "none", building := createBuilding "grass" }) }
    else
      if tile.building.type ∉ (["grass", "tree", "road"] : List String) then state
      else { state with grid := vmod plainView newGrid x y (fun t => { t with zone := z }) }
  | none =>
    match buildingType with
    | none => { state with grid := newGrid }
    | some bt =>
      let bsize := getBuildingSize bt
      let waterCheck :=
        if requiresWaterAdjacency bt then
          some (getWaterAdjacency newGrid x y bsize.1 bsize.2 state.gridSize)
        else none
      match waterCheck with
      | some wc =>
        if ¬wc.1 then state
        else placeBuildingBody T state tile newGrid x y bt bsize wc.2
      | none => placeBuildingBody T state tile newGrid x y bt bsize false

/-- One direction of `findConnectedBridgeTiles`'s walk (fuel-indexed; the
walk advances strictly in one direction, so `gridSize + 1` fuel is never
exhausted while in bounds). -/
def bridgeWalk (grid : Grid) (gridSize : ℕ) (orientation : String)
    (dx dy : ℤ) : ℕ → ℤ → ℤ → List (ℤ × ℤ)
  | 0, _, _ => []
  | f + 1, cx, cy =>
    if 0 ≤ cx ∧ cx < (gridSize : ℤ) ∧ 0 ≤ cy ∧ cy < (gridSize : ℤ) then
      match zget2 grid cx cy with
      | none => []
      | some t =>
        if t.building.type = "bridge" ∧ t.building.bridgeOrientation = some orientation then
          (cx, cy) :: bridgeWalk grid gridSize orientation dx dy f (cx + dx) (cy + dy)
        else []
    else []

/-- `findConnectedBridgeTiles`. -/
def findConnectedBridgeTiles (grid : Grid) (gridSize : ℕ) (x y : ℤ) :
    List (ℤ × ℤ) :=
  match zget2 grid x y with
  | none => []
  | some tile =>
    if tile.building.type ≠ "bridge" then []
    else
      let orientation := tile.building.bridgeOrientation.getD "ns"
      let dx : ℤ := if orientation = "ns" then 1 else 0
      let dy : ℤ := if orientation = "ns" then 0 else 1
      ((x, y) :: bridgeWalk grid gridSize orientation dx dy (gridSize + 1) (x + dx) (y + dy)) ++
        bridgeWalk grid gridSize orientation (-dx) (-dy) (gridSize + 1) (x - dx) (y - dy)

/-- `findAdjacentBridgeTiles`. -/
def findAdjacentBridgeTiles (grid : Grid) (gridSize : ℕ) (x y : ℤ) :
    List (ℤ × ℤ) :=
  let directions : List (ℤ × ℤ) := [(-1, 0), (1, 0), (0, -1), (0, 1)]
  (directions.findSome? (fun d =>
    let nx := x + d.1
    let ny := y + d.2
    if 0 ≤ nx ∧ nx < (gridSize : ℤ) ∧ 0 ≤ ny ∧ ny < (gridSize : ℤ) then
      match zget2 grid nx ny with
      | some neighbor =>
        if neighbor.building.type = "bridge" ∧
            (neighbor.building.bridgePosition = some "start" ∨
              neighbor.building.bridgePosition = some "end") then
          some (findConnectedBridgeTiles grid gridSize nx ny)
        else none
      | none => none
    else none)).getD []

/-- `bulldozeTile`. -/
def bulldozeTile (state : GameState) (x y : ℤ) : GameState :=
  match zget2 state.grid x y with
  | none => state
  | some tile =>
  if tile.building.type = "water" then state
  else
  let newGrid := state.grid
  if tile.building.type = "bridge" then
    let bridgeTiles := findConnectedBridgeTiles newGrid state.gridSize x y
    let g1 := bridgeTiles.foldl (fun g bt =>
      vmod plainView g bt.1 bt.2 (fun t =>
        { t with
          building := createBuilding "water"
          zone := "none"
          hasRailOverlay := false })) newGrid
    { state with grid := g1 }
  else if tile.building.type = "road" ∧
      findAdjacentBridgeTiles newGrid state.gridSize x y ≠ [] then
    let adjacentBridgeTiles := findAdjacentBridgeTiles newGrid state.gridSize x y
    let g1 := vmod plainView newGrid x y (fun t =>
      { t with
        building := createBuilding "grass"
        zone := "none"
        hasRailOverlay := false })
    let g2 := adjacentBridgeTiles.foldl (fun g bt =>
      vmod plainView g bt.1 bt.2 (fun t =>
        { t with
          building := createBuilding "water"
          zone := "none"
          hasRailOverlay := false })) g1
    { state with grid := g2 }
  else
    match findBuildingOrigin plainView newGrid x y state.gridSize with
    | some origin =>
      let osize := getBuildingSize origin.2.2
      let g1 := (List.range osize.2).foldl (fun ga dy =>
        (List.range osize.1).foldl (fun gb dx =>
          let clearX := origin.1 + (dx : ℤ)
          let clearY := origin.2.1 + (dy : ℤ)
          if clearX < (state.gridSize : ℤ) ∧ clearY < (state.gridSize : ℤ) then
            vmod plainView gb clearX clearY (fun t =>
              { t with
                building := createBuilding "grass"
                zone := "none"
                hasRailOverlay := false })
          else gb) ga) newGrid
      { state with grid := g1 }
    | none =>
      { state with grid := vmod plainView newGrid x y (fun t =>
          { t with
            building := createBuilding "grass"
            zone := "none"
            hasRailOverlay := false }) }

/-- `getBridgeTypeForSpan`. -/
def getBridgeTypeForSpan (span : ℕ) : String :=
  if span = 1 then "small"
  else if span ≤ BRIDGE_THRESHOLD_LARGE then "large"
  else "suspension"

/-- `getBridgeVariant` (JavaScript `%` truncates toward zero; the inputs
are non-negative tile coordinates). -/
def getBridgeVariant (x y : ℤ) (bridgeType : String) : ℤ :=
  let seed := Int.tmod (x * 31 + y * 17) 100
  Int.tmod seed (BRIDGE_VARIANTS bridgeType)

/-- `createBridgeBuilding`. -/
def createBridgeBuilding (bridgeType orientation : String) (variant : ℤ)
    (position : String) (index : ℤ) (span : ℤ) (trackType : String) : Building :=
  { type := "bridge", level := 0, population := 0, jobs := 0
    powered := true, watered := true, onFire := false, fireProgress := 0
    age := 0, constructionProgress := 100, abandoned := false
    bridgeType := some bridgeType
    bridgeOrientation := some orientation
    bridgeVariant := some variant
    bridgePosition := some position
    bridgeIndex := some index
    bridgeSpan := some span
    bridgeTrackType := some trackType }

/-- `BridgeOpportunity`. -/
structure BridgeOpportunity where
  startX : ℤ
  startY : ℤ
  endX : ℤ
  endY : ℤ
  orientation : String
  span : ℕ
  bridgeType : String
  waterTiles : List (ℤ × ℤ)
  trackType : String
deriving DecidableEq, Repr

/-- The `while` loop of `scanForBridgeInDirection` (fuel-indexed; the
scan advances strictly in one direction, so `gridSize + 1` fuel is never
exhausted while in bounds).  Returns the terminating track tile and the
collected water run. -/
def scanBridgeLoop (grid : Grid) (gridSize : ℕ) (trackType : String)
    (dx dy : ℤ) : ℕ → ℤ → ℤ → List (ℤ × ℤ) → Option (ℤ × ℤ × List (ℤ × ℤ))
  | 0, _, _, _ => none
  | f + 1, x, y, waterTiles =>
    if 0 ≤ x ∧ x < (gridSize : ℤ) ∧ 0 ≤ y ∧ y < (gridSize : ℤ) then
      match zget2 grid x y with
      | none => none
      | some tile =>
        if tile.building.type = "water" then
          let wt := waterTiles ++ [(x, y)]
          if wt.length > MAX_BRIDGE_SPAN then none
          else scanBridgeLoop grid gridSize trackType dx dy f (x + dx) (y + dy) wt
        else if tile.building.type = trackType then
          if waterTiles.length > 0 then some (x, y, waterTiles) else none
        else none
    else none

/-- `scanForBridgeInDirection`. -/
def scanForBridgeInDirection (grid : Grid) (gridSize : ℕ) (startX startY : ℤ)
    (dx dy : ℤ) (orientation : String) (trackType : String) :
    Option BridgeOpportunity :=
  match scanBridgeLoop grid gridSize trackType dx dy (gridSize + 1)
      (startX + dx) (startY + dy) [] with
  | none => none
  | some r =>
    let span := r.2.2.length
    some { startX := startX, startY := startY, endX := r.1, endY := r.2.1
           orientation := orientation, span := span
           bridgeType := getBridgeTypeForSpan span
           waterTiles := r.2.2, trackType := trackType }

/-- `detectBridgeOpportunity`. -/
def detectBridgeOpportunity (grid : Grid) (gridSize : ℕ) (x y : ℤ)
    (trackType : String) : Option BridgeOpportunity :=
  match zget2 grid x y with
  | none => none
  | some tile =>
    if tile.building.type ≠ trackType then none
    else
      match scanForBridgeInDirection grid gridSize x y (-1) 0 "ns" trackType with
      | some opp => some opp
      | none =>
        match scanForBridgeInDirection grid gridSize x y 1 0 "ns" trackType with
        | some opp => some opp
        | none =>
          match scanForBridgeInDirection grid gridSize x y 0 (-1) "ew" trackType with
          | some opp => some opp
          | none => scanForBridgeInDirection grid gridSize x y 0 1 "ew" trackType

/-- Insert into a sorted list (ascending with respect to `le`). -/
def sortInsert (le : α → α → Bool) (a : α) : List α → List α
  | [] => [a]
  | b :: l => if le a b then a :: b :: l else b :: sortInsert le a l

/-- Insertion sort, ascending with respect to `le`.  The water-tile
positions sorted in `buildBridges` are pairwise distinct, so JavaScript's
sort with the coordinate comparator produces the unique ascending order,
which this computes. -/
def sortBy (le : α → α → Bool) : List α → List α
  | [] => []
  | a :: l => sortInsert le a (sortBy le l)

/-- `buildBridges`. -/
def buildBridges (grid : Grid) (opp : BridgeOpportunity) : Grid :=
  let w0 := opp.waterTiles.headD (0, 0)
  let variant := getBridgeVariant w0.1 w0.2 opp.bridgeType
  let sortedTiles := sortBy (fun a b =>
    if opp.orientation = "ns" then
      if a.1 ≠ b.1 then a.1 ≤ b.1 else a.2 ≤ b.2
    else
      if a.2 ≠ b.2 then a.2 ≤ b.2 else a.1 ≤ b.1) opp.waterTiles
  let span := sortedTiles.length
  (sortedTiles.enum).foldl (fun g ip =>
    let index := ip.1
    let pos := ip.2
    let position :=
      if index = 0 then "start"
      else if index = span - 1 then "end"
      else "middle"
    vmod plainView g pos.1 pos.2 (fun t =>
      { t with
        building := createBridgeBuilding opp.bridgeType opp.orientation variant
          position (index : ℤ) (span : ℤ) opp.trackType
        zone := "none" })) grid

/-- `checkAndCreateBridges`. -/
def checkAndCreateBridges (grid : Grid) (gridSize : ℕ) (placedX placedY : ℤ)
    (trackType : String) : Grid :=
  match detectBridgeOpportunity grid gridSize placedX placedY trackType with
  | some opportunity => buildBridges grid opportunity
  | none => grid

/-- `createBridgesOnPath`. -/
def createBridgesOnPath (state : GameState) (pathTiles : List (ℤ × ℤ))
    (trackType : String) : GameState :=
  if pathTiles.isEmpty then state
  else
    let hasWaterInPath := pathTiles.any (fun p =>
      ((zget2 state.grid p.1 p.2).map
        (fun t => decide (t.building.type = "water"))).getD false)
    if ¬hasWaterInPath then state
    else
      let newGrid := state.grid
      let g1 := pathTiles.foldl (fun g p =>
        if ((zget2 g p.1 p.2).map
            (fun t => decide (t.building.type = trackType))).getD false then
          checkAndCreateBridges g state.gridSize p.1 p.2 trackType
        else g) newGrid
      { state with grid := g1 }

/-- `expandGrid`; returns `(grid, newSize)`. -/
def expandGrid (currentGrid : Grid) (currentSize : ℕ) (expansion : ℕ) :
    Grid × ℕ :=
  let newSize := currentSize + expansion * 2
  let grid := (intRange 0 ((newSize : ℤ) - 1)).map (fun y =>
    (intRange 0 ((newSize : ℤ) - 1)).map (fun x =>
      let oldX := x - (expansion : ℤ)
      let oldY := y - (expansion : ℤ)
      let wasInOldGrid := 0 ≤ oldX ∧ 0 ≤ oldY ∧ oldX < (currentSize : ℤ) ∧
        oldY < (currentSize : ℤ)
      if wasInOldGrid then
        match zget2 currentGrid oldX oldY with
        | some oldTile => { oldTile with x := x, y := y }
        | none => createTile x y "grass"
      else createTile x y "grass"))
  (grid, newSize)

/-- `shrinkGrid`; returns `none` when the result would be smaller than
20×20. -/
def shrinkGrid (currentGrid : Grid) (currentSize : ℕ) (shrinkAmount : ℕ) :
    Option (Grid × ℕ) :=
  let newSizeZ : ℤ := (currentSize : ℤ) - (shrinkAmount : ℤ) * 2
  if newSizeZ < 20 then none
  else
    let newSize := newSizeZ.toNat
    let grid := (intRange 0 ((newSize : ℤ) - 1)).map (fun y =>
      (intRange 0 ((newSize : ℤ) - 1)).map (fun x =>
        let oldX := x + (shrinkAmount : ℤ)
        let oldY := y + (shrinkAmount : ℤ)
        match zget2 currentGrid oldX oldY with
        | some oldTile => { oldTile with x := x, y := y }
        | none => createTile x y "grass"))
    some (grid, newSize)

/-!
## Verification infrastructure
-/

set_option maxRecDepth 40000
unseal Rat.add Rat.mul Rat.sub Rat.inv Rat.ofScientific

/-- Floor square root over ℚ: a valid instantiation of the abstract
`Math.sqrt` parameter for concrete runs (it agrees with `Math.sqrt` on
the perfect-square footprint areas, and the theorems that quantify over
`sq` only use the properties in `SqSpec`). -/
def qsqrt (n : ℕ) : ℚ := (Nat.sqrt n : ℚ)

/-- The properties of `Math.sqrt` (as a correctly rounded, monotone,
non-negative square root) that the theorems rely on. -/
structure SqSpec (sq : ℕ → ℚ) : Prop where
  nonneg : ∀ n, 0 ≤ sq n
  mono : ∀ m n, m ≤ n → sq m ≤ sq n
  zero : sq 0 = 0

/-- Modelled from the spec: a concrete instance of the external tables
(`BUILDING_STATS` and the zone building lists live in `@/types/game`,
outside the given source).  The stats are all zero (the spec treats the
stat catalog as an opaque read-only table; the concrete scenarios below
do not depend on its values), and the zone lists start with the starter
types the spec names (`house_small`, `shop_small`, `factory_small`). -/
def specTables : Tables :=
  { buildingStats := fun _ => some
      { maxPop := 0, maxJobs := 0, pollution := 0, landValue := 0, pollutionType := none }
    residentialBuildings :=
      ["house_small", "house_medium", "apartment_low", "apartment_high", "mansion"]
    commercialBuildings :=
      ["shop_small", "shop_medium", "office_low", "office_high", "mall"]
    industrialBuildings :=
      ["factory_small", "factory_medium", "factory_large", "warehouse"] }

/-- A well-formed `n × n` grid. -/
def WFGrid (g : Grid) (n : ℕ) : Prop :=
  g.length = n ∧ ∀ r ∈ g, r.length = n

/-!
## Concrete scenario states

Fixed inputs used by the counterexample and witness theorems below.
-/

/-- A 1×1 game state with a single grass tile (witness input for C9). -/
def oneGrassState : GameState :=
  { grid := [[createTile 0 0 "grass"]], gridSize := 1
    demand := (0, 0, 0), disastersEnabled := false }

/-- A 1×1 game state with a single water tile (witness input for C9). -/
def oneWaterState : GameState :=
  { grid := [[createTile 0 0 "water"]], gridSize := 1
    demand := (0, 0, 0), disastersEnabled := false }

/-- Build an `m × m` grid from a tile-valued function. -/
def mkGrid (m : ℕ) (F : ℤ → ℤ → Tile) : Grid :=
  (intRange 0 ((m : ℤ) - 1)).map (fun y =>
    (intRange 0 ((m : ℤ) - 1)).map (fun x => F x y))

/-- A well-formed 4×4 all-grass grid (too small to shrink back). -/
def smallGrassGrid : Grid := mkGrid 4 (fun x y => createTile x y "grass")

/-- A well-formed 20×20 all-grass grid (witness input for C8). -/
def grass20Grid : Grid := mkGrid 20 (fun x y => createTile x y "grass")

/-- An `n × n` 2-dimensional array shape. -/
def Shape2 (m : List (List α)) (n : ℕ) : Prop :=
  m.length = n ∧ ∀ r ∈ m, r.length = n

/-- The integer service radius the code derives for a service building:
`Math.floor(baseRange * (1 + (level - 1) * 0.2))`. -/
def entryRange (t : String) (level : ℚ) : ℤ :=
  ⌊((serviceRange t).getD 0) * (1 + (level - 1) * SERVICE_RANGE_INCREASE_PER_LEVEL)⌋

/-- A completed level-2 water tower covering a tile. -/
def towerLevel2 (x y : ℤ) : Tile :=
  let t := createTile x y "water_tower"
  { t with building := { t.building with level := 2, constructionProgress := 100 } }

/-- A 15×15 grid whose only service building is a completed level-2 water
tower at the origin (input for the C3 counterexample). -/
def towerLevel2Grid : Grid :=
  mkGrid 15 (fun x y => if x = 0 ∧ y = 0 then towerLevel2 0 0 else createTile x y "grass")

/-- All six coverage fields have `n × n` shape. -/
def CovShape (sv : ServiceCoverage) (n : ℕ) : Prop :=
  Shape2 sv.police n ∧ Shape2 sv.fire n ∧ Shape2 sv.health n ∧
    Shape2 sv.education n ∧ Shape2 sv.power n ∧ Shape2 sv.water n

/-- A collected service-building record of the given type covers the tile
`(x, y)`: the squared Euclidean distance is within the square of the
floored effective radius. -/
def entryCovers (svcType : String) (e : ℤ × ℤ × String × ℚ) (x y : ℤ) : Prop :=
  e.2.2.1 = svcType ∧ 0 ≤ entryRange svcType e.2.2.2 ∧
    (x - e.1) * (x - e.1) + (y - e.2.1) * (y - e.2.1) ≤
      entryRange svcType e.2.2.2 * entryRange svcType e.2.2.2

/-- The tile with its building level replaced (the grid variation the
level-monotonicity claim considers). -/
def setTileLevel (t : Tile) (lvl : ℚ) : Tile :=
  { t with building := { t.building with level := lvl } }

/-- Pointwise order on coverage records: no tile's value decreases in any
of the six fields (with `false < true` on the boolean planes). -/
def SvLE (sv sv' : ServiceCoverage) : Prop :=
  ∀ x y : ℤ,
    covQ sv.police x y ≤ covQ sv'.police x y ∧
    covQ sv.fire x y ≤ covQ sv'.fire x y ∧
    covQ sv.health x y ≤ covQ sv'.health x y ∧
    covQ sv.education x y ≤ covQ sv'.education x y ∧
    (covB sv.power x y = true → covB sv'.power x y = true) ∧
    (covB sv.water x y = true → covB sv'.water x y = true)

/-- Relation between optional values: both absent, or both present and
related. -/
def optionRel (R : α → β → Prop) : Option α → Option β → Prop
  | none, none => True
  | some a, some b => R a b
  | _, _ => False

/-- `t'` is `t` with its building level raised (every other field equal). -/
def TileLevelLE (t t' : Tile) : Prop :=
  t.building.level ≤ t'.building.level ∧ t' = setTileLevel t t'.building.level

/-- The second grid differs from the first only by raised building levels. -/
def GridLevelLE (grid grid' : Grid) : Prop :=
  List.Forall₂ (List.Forall₂ TileLevelLE) grid grid'

/-- `e'` is the collected record `e` with its level raised. -/
def EntryLE (e e' : ℤ × ℤ × String × ℚ) : Prop :=
  e.2.2.2 ≤ e'.2.2.2 ∧ e' = (e.1, e.2.1, e.2.2.1, e'.2.2.2)

/-- Invariant of the coverage record during the painting pass: square
shape and quality values at most 100. -/
def SvOK (sv : ServiceCoverage) (n : ℕ) : Prop :=
  CovShape sv n ∧
    ∀ x y : ℤ,
      covQ sv.police x y ≤ 100 ∧ covQ sv.fire x y ≤ 100 ∧
      covQ sv.health x y ≤ 100 ∧ covQ sv.education x y ≤ 100

/-- The level-2 tower grid with its tower raised to level 3 (witness input
for the level-monotonicity theorem). -/
def towerLevel3Grid : Grid :=
  mkGrid 15 (fun x y =>
    if x = 0 ∧ y = 0 then setTileLevel (towerLevel2 0 0) 3
    else createTile x y "grass")

/-- 5×5 grid: roads at (0,2) and (4,2) bridging water at (1..3,2)
(the positive bridge-detection scenario). -/
def bridge5Grid : Grid :=
  mkGrid 5 (fun x y =>
    if y = 2 ∧ (x = 0 ∨ x = 4) then createTile x y "road"
    else if y = 2 ∧ (x = 1 ∨ x = 2 ∨ x = 3) then createTile x y "water"
    else createTile x y "grass")

/-- 13×13 grid: roads at (0,2) and (12,2) with an 11-tile water run
between them (exceeds `MAX_BRIDGE_SPAN`). -/
def bridge13Grid : Grid :=
  mkGrid 13 (fun x y =>
    if y = 2 ∧ (x = 0 ∨ x = 12) then createTile x y "road"
    else if y = 2 ∧ 1 ≤ x ∧ x ≤ 11 then createTile x y "water"
    else createTile x y "grass")

/-- 5×5 grid: road at (0,2), water at (1..3,2), grass at (4,2) — the water
run is terminated by a non-track tile. -/
def bridgeGrassGrid : Grid :=
  mkGrid 5 (fun x y =>
    if y = 2 ∧ x = 0 then createTile x y "road"
    else if y = 2 ∧ (x = 1 ∨ x = 2 ∨ x = 3) then createTile x y "water"
    else createTile x y "grass")

/-- The expected bridge tile of the 5×5 scenario at column `x`, bridge
position `pos` and run index `i`. -/
def c7BridgeTile (x : ℤ) (pos : String) (i : ℤ) : Tile :=
  { createTile x 2 "water" with
      building := createBridgeBuilding "large" "ns" (getBridgeVariant 1 2 "large")
        pos i 3 "road"
      zone := "none" }

/-- The expected result of bridge creation on `bridge5Grid`: exactly the
three water tiles replaced, in order start / middle / end along the run. -/
def c7Expected : Grid :=
  zset2 (zset2 (zset2 bridge5Grid 1 2 (c7BridgeTile 1 "start" 0))
    2 2 (c7BridgeTile 2 "middle" 1)) 3 2 (c7BridgeTile 3 "end" 2)

/-- The tile at `(u, v)` is a bridge tile with the given orientation. -/
def isBridgeO (grid : Grid) (o : String) (u v : ℤ) : Bool :=
  ((zget2 grid u v).map (fun t =>
    decide (t.building.type = "bridge" ∧
      t.building.bridgeOrientation = some o))).getD false

/-- `(a, b)` lies on the maximal contiguous run of same-orientation bridge
tiles through `(x, y)`: the run extends along x for orientation `ns` and
along y otherwise, and every tile between `(x, y)` and `(a, b)` inclusive
is a bridge of that orientation. -/
def inBridgeRun (grid : Grid) (o : String) (x y a b : ℤ) : Bool :=
  if o = "ns" then
    decide (b = y) &&
      (intRange (min x a) (max x a)).all (fun u => isBridgeO grid o u y)
  else
    decide (a = x) &&
      (intRange (min y b) (max y b)).all (fun v => isBridgeO grid o x v)

/-- The update `bulldozeTile` applies to each tile of a bulldozed bridge
run: a fresh water building, zone reset, rail overlay cleared. -/
def bulldozeBridgeTileUpdate (t : Tile) : Tile :=
  { t with
      building := createBuilding "water"
      zone := "none"
      hasRailOverlay := false }

/-- A 5×5 game state whose grid carries the three-tile "ns" bridge of the
bridge-creation scenario (witness input for the bridge-bulldozing
theorem). -/
def c10State : GameState :=
  { grid := c7Expected, gridSize := 5
    demand := (0, 0, 0), disastersEnabled := false }

/-- A grass tile at (0, 1) carrying pollution 50 (input for the
input-mutation counterexample). -/
def c1Polluted : Tile :=
  { createTile 0 1 "grass" with pollution := 50 }

/-- A 2×2 grid: an (under-construction) water tower at the origin and a
polluted grass tile directly below it. -/
def c1Grid : Grid :=
  [[createTile 0 0 "water_tower", createTile 1 0 "grass"],
   [c1Polluted, createTile 1 1 "grass"]]

/-- The 2×2 input state of the input-mutation counterexample. -/
def c1State : GameState :=
  { grid := c1Grid, gridSize := 2, demand := (0, 0, 0), disastersEnabled := false }

/-- A deterministic stream of `Math.random()` draws, constantly 1/2. -/
def halfDraws : ℕ → ℚ := fun _ => 1 / 2

/-- Closure conditions on a building relation that every write of the
tick pass satisfies: it must accept writes that keep type, fire state and
construction progress; writes of fresh non-burning buildings with capped
progress; ignition writes on self-ignitable types; capped progress
updates; and extinguishing writes. -/
structure TickPredB (PB : Building → Building → Prop) : Prop where
  refl : ∀ b, PB b b
  trans : ∀ {a b c}, PB a b → PB b c → PB a c
  keep : ∀ {b b' : Building}, b'.type = b.type → b'.onFire = b.onFire →
    b'.constructionProgress = b.constructionProgress → PB b b'
  fresh : ∀ {b b' : Building}, b'.onFire = false →
    b'.constructionProgress ≤ 100 → PB b b'
  ignite : ∀ {b b' : Building}, b'.type = b.type →
    b.type ∉ FIRE_SELF_IMMUNE →
    b'.constructionProgress = b.constructionProgress → PB b b'
  capped : ∀ {b b' : Building}, b'.type = b.type → b'.onFire = b.onFire →
    b'.constructionProgress ≤ 100 → PB b b'
  unfire : ∀ {b b' : Building}, b'.type = b.type → b'.onFire = false →
    b'.constructionProgress = b.constructionProgress → PB b b'

/-- The pass-state transition relation induced by a building relation:
every tile now readable was already readable, with related building. -/
def StepRel (PB : Building → Building → Prop) (s s' : PassState) : Prop :=
  ∀ a b t', aliasRead s' a b = some t' →
    ∃ t, aliasRead s a b = some t ∧ PB t.building t'.building

/-- A tile of a self-ignitable type on fire after the step was already a
tile of a self-ignitable type on fire (the C2 building relation). -/
def FireIntro (b b' : Building) : Prop :=
  b'.type ∈ FIRE_SELF_IMMUNE → b'.onFire = true →
    b.type ∈ FIRE_SELF_IMMUNE ∧ b.onFire = true

/-- Construction progress stays at most 100 (the C6 building relation). -/
def ProgCap (b b' : Building) : Prop :=
  b.constructionProgress ≤ 100 → b'.constructionProgress ≤ 100

/-- A deterministic stream of `Math.random()` draws, constantly 0. -/
def zeroDraws : ℕ → ℚ := fun _ => 0

/-- A 1×1 state holding a rail tile with a little pollution, disasters
enabled (input of the rail self-ignition counterexample). -/
def c2State : GameState :=
  { grid := [[{ createTile 0 0 "rail" with pollution := 1 }]], gridSize := 1
    demand := (0, 0, 0), disastersEnabled := true }

/-- A tile whose building is completed (`constructionProgress` 100). -/
def completedTile (x y : ℤ) (ty : String) : Tile :=
  let t := createTile x y ty
  { t with building := { t.building with constructionProgress := 100 } }

/-- A 2×2 grid: a road, a residential-zoned grass tile, and completed
water and power service buildings (input of the construction-progress
reset counterexample). -/
def c6Grid : Grid :=
  [[createTile 0 0 "road", { createTile 1 0 "grass" with zone := "residential" }],
   [completedTile 0 1 "water_tower", completedTile 1 1 "power_plant"]]

/-- The 2×2 state of the construction-progress reset counterexample. -/
def c6State : GameState :=
  { grid := c6Grid, gridSize := 2, demand := (50, 0, 0), disastersEnabled := false }

/-- A grass tile already on fire (the tick leaves it untouched). -/
def burningGrassTile : Tile :=
  let t := createTile 0 0 "grass"
  { t with building := { t.building with onFire := true } }

/-- A 1×1 state holding a burning grass tile, disasters enabled. -/
def c2WitnessState : GameState :=
  { grid := [[burningGrassTile]], gridSize := 1
    demand := (0, 0, 0), disastersEnabled := true }

/-- Specification of one `evolveBuilding` call: the grid updates satisfy
the step relation, and the returned building is related to whatever is
left at the evolved cell. -/
def EvolveSpec (PB : Building → Building → Prop) (s0 : PassState) (x y : ℤ)
    (r : PassState × ℕ × Building) : Prop :=
  StepRel PB s0 r.1 ∧
    ∀ t1, aliasRead r.1 x y = some t1 → PB t1.building r.2.2

-- SCENARIO-DEFS-END

/-!
## Theorems
-/

theorem qsqrt_spec : SqSpec qsqrt := by
  refine ⟨?_, ?_, ?_⟩
  · intro n
    unfold qsqrt
    positivity
  · intro m n h
    unfold qsqrt
    exact_mod_cast Nat.sqrt_le_sqrt h
  · unfold qsqrt
    norm_num

theorem mem_intRange {l u a : ℤ} : a ∈ intRange l u ↔ l ≤ a ∧ a ≤ u := by
  unfold intRange
  simp only [List.mem_map, List.mem_range, Int.ofNat_eq_coe]
  constructor
  · rintro ⟨i, hi, rfl⟩
    constructor
    · omega
    · omega
  · rintro ⟨h1, h2⟩
    exact ⟨(a - l).toNat, by omega, by omega⟩

theorem zget_map {f : α → β} {l : List α} {i : ℤ} :
    zget (l.map f) i = (zget l i).map f := by
  unfold zget
  split
  · simp
  · simp

theorem zget_intRange {l u i : ℤ} :
    zget (intRange l u) i = if 0 ≤ i ∧ i ≤ u - l then some (l + i) else none := by
  unfold intRange zget
  split
  next h =>
    rw [List.getElem?_map]
    rcases Nat.lt_or_ge i.toNat (u + 1 - l).toNat with hlt | hge
    · rw [List.getElem?_range hlt]
      simp only [Option.map_some']
      rw [if_pos ⟨h, by omega⟩]
      congr 1
      simp only [Int.ofNat_eq_coe]
      omega
    · rw [List.getElem?_eq_none (by simpa using hge)]
      simp only [Option.map_none']
      rw [if_neg (by omega)]
  next h => rw [if_neg (by omega)]

theorem zget_tab {f : ℤ → α} {m : ℕ} {i : ℤ} :
    zget ((intRange 0 ((m : ℤ) - 1)).map f) i =
      if 0 ≤ i ∧ i < (m : ℤ) then some (f i) else none := by
  rw [zget_map, zget_intRange]
  split
  next h =>
    rw [if_pos (by omega)]
    simp
  next h =>
    rw [if_neg (by omega)]
    simp

theorem zget2_tab {F : ℤ → ℤ → α} {m : ℕ} {x y : ℤ} :
    zget2 ((intRange 0 ((m : ℤ) - 1)).map
        (fun yy => (intRange 0 ((m : ℤ) - 1)).map (fun xx => F xx yy))) x y =
      if 0 ≤ x ∧ x < (m : ℤ) ∧ 0 ≤ y ∧ y < (m : ℤ) then some (F x y) else none := by
  unfold zget2
  rw [zget_tab]
  split
  next h =>
    simp only [Option.some_bind]
    rw [zget_tab]
    split
    next h2 => rw [if_pos (by omega)]
    next h2 => rw [if_neg (by omega)]
  next h =>
    simp only [Option.none_bind]
    rw [if_neg (by omega)]

theorem intRange_length (a b : ℤ) : (intRange a b).length = (b + 1 - a).toNat := by
  unfold intRange
  rw [List.length_map, List.length_range]

theorem wf_mkGrid {m : ℕ} {F : ℤ → ℤ → Tile} : WFGrid (mkGrid m F) m := by
  unfold WFGrid mkGrid
  constructor
  · rw [List.length_map, intRange_length]
    omega
  · intro r hr
    rw [List.mem_map] at hr
    obtain ⟨yy, hyy, hr⟩ := hr
    rw [← hr, List.length_map, intRange_length]
    omega

theorem zget2_mkGrid {m : ℕ} {F : ℤ → ℤ → Tile} {x y : ℤ} :
    zget2 (mkGrid m F) x y =
      if 0 ≤ x ∧ x < (m : ℤ) ∧ 0 ≤ y ∧ y < (m : ℤ) then some (F x y)
      else none := by
  unfold mkGrid
  exact zget2_tab

theorem zget2_eq_none_of_oob {g : Grid} {n : ℕ} (hwf : WFGrid g n) {x y : ℤ}
    (h : x < 0 ∨ y < 0 ∨ (n : ℤ) ≤ x ∨ (n : ℤ) ≤ y) :
    zget2 g x y = none := by
  obtain ⟨hlen, hrows⟩ := hwf
  unfold zget2 zget
  rcases Decidable.em (0 ≤ y) with hy | hy
  · rw [if_pos hy]
    rcases hg : g[y.toNat]? with _ | row
    · simp
    · have hyn : y < (n : ℤ) := by
        have := (List.getElem?_eq_some_iff.1 hg).1
        omega
      have hrl : row.length = n := hrows row (List.getElem?_mem hg)
      simp only [Option.some_bind]
      rcases Decidable.em (0 ≤ x) with hx | hx
      · rw [if_pos hx]
        rw [List.getElem?_eq_none (by omega)]
      · rw [if_neg hx]
  · rw [if_neg hy]
    simp

theorem zget2_isSome_of_inb {g : Grid} {n : ℕ} (hwf : WFGrid g n) {x y : ℤ}
    (hx0 : 0 ≤ x) (hxn : x < (n : ℤ)) (hy0 : 0 ≤ y) (hyn : y < (n : ℤ)) :
    ∃ t, zget2 g x y = some t := by
  obtain ⟨hlen, hrows⟩ := hwf
  unfold zget2 zget
  rw [if_pos hy0]
  rcases hg : g[y.toNat]? with _ | row
  · exfalso
    rw [List.getElem?_eq_none_iff] at hg
    omega
  · have hrl : row.length = n := hrows row (List.getElem?_mem hg)
    simp only [Option.some_bind]
    rw [if_pos hx0]
    rcases hr : row[x.toNat]? with _ | t
    · exfalso
      rw [List.getElem?_eq_none_iff] at hr
      omega
    · exact ⟨t, rfl⟩

theorem getElem?_isSome_iff {l : List α} {i : ℕ} :
    l[i]?.isSome = true ↔ i < l.length := by
  rw [Option.isSome_iff_exists]
  constructor
  · rintro ⟨a, ha⟩
    exact (List.getElem?_eq_some_iff.1 ha).1
  · intro h
    exact ⟨l[i], List.getElem?_eq_getElem h⟩

theorem zget_zset_self {l : List α} {i : ℤ} {a : α}
    (h : (zget l i).isSome) : zget (zset l i a) i = some a := by
  unfold zget zset at *
  split at h
  next h0 =>
    rw [if_pos h0, if_pos h0]
    rw [getElem?_isSome_iff] at h
    exact List.getElem?_set_self h
  next => simp at h

theorem zget_zset_other {l : List α} {i j : ℤ} {a : α} (hne : j ≠ i) :
    zget (zset l i a) j = zget l j := by
  unfold zget zset
  split
  next h0 =>
    split
    next hj =>
      rw [List.getElem?_set_ne]
      omega
    next => rfl
  next => rfl

theorem zget_zset_isSome {l : List α} {i j : ℤ} {a : α} :
    (zget (zset l i a) j).isSome = (zget l j).isSome := by
  rcases Decidable.em (j = i) with rfl | hne
  · unfold zget zset
    split
    next h0 =>
      rcases Decidable.em (j.toNat < l.length) with hlt | hge
      · rw [getElem?_isSome_iff.2 hlt,
          getElem?_isSome_iff.2 (by rw [List.length_set]; exact hlt)]
      · have h1 : l[j.toNat]? = none := by
          rw [List.getElem?_eq_none_iff]
          omega
        have h2 : (l.set j.toNat a)[j.toNat]? = none := by
          rw [List.getElem?_eq_none_iff, List.length_set]
          omega
        rw [h1, h2]
    next => rfl
  · rw [zget_zset_other hne]

theorem zget2_zset2_self {m : List (List α)} {x y : ℤ} {a : α}
    (h : (zget2 m x y).isSome) : zget2 (zset2 m x y a) x y = some a := by
  unfold zget2 zset2 at *
  rcases hrow : zget m y with _ | row
  · rw [hrow] at h
    simp at h
  · rw [hrow] at h
    simp only [Option.some_bind] at h
    simp only [hrow]
    rw [zget_zset_self (by rw [hrow]; simp)]
    simp only [Option.some_bind]
    exact zget_zset_self h

theorem zget2_zset2_other {m : List (List α)} {x y px py : ℤ} {a : α}
    (hne : px ≠ x ∨ py ≠ y) : zget2 (zset2 m x y a) px py = zget2 m px py := by
  unfold zget2 zset2
  rcases hrow : zget m y with _ | row
  · rfl
  · simp only
    rcases Decidable.em (py = y) with rfl | hpy
    · rw [zget_zset_self (by rw [hrow]; simp), hrow]
      simp only [Option.some_bind]
      rcases hne with hne | hne
      · exact zget_zset_other hne
      · exact absurd rfl hne
    · rw [zget_zset_other hpy]

theorem zget2_zset2_isSome {m : List (List α)} {x y px py : ℤ} {a : α} :
    (zget2 (zset2 m x y a) px py).isSome = (zget2 m px py).isSome := by
  rcases Decidable.em (px = x ∧ py = y) with ⟨rfl, rfl⟩ | hne
  · unfold zget2 zset2
    rcases hrow : zget m py with _ | row
    · simp only [hrow, Option.none_bind]
    · simp only [hrow]
      rw [zget_zset_self (by rw [hrow]; simp)]
      simp only [Option.some_bind]
      exact zget_zset_isSome
  · rw [zget2_zset2_other (by tauto)]

theorem shape2_zset2 {m : List (List α)} {n : ℕ} {x y : ℤ} {a : α}
    (h : Shape2 m n) : Shape2 (zset2 m x y a) n := by
  obtain ⟨hlen, hrows⟩ := h
  unfold zset2
  rcases hrow : zget m y with _ | row
  · exact ⟨hlen, hrows⟩
  · simp only
    unfold zset
    split
    next h0 =>
      constructor
      · rw [List.length_set]
        exact hlen
      · intro r hr
        rcases List.mem_or_eq_of_mem_set hr with hin | rfl
        · exact hrows r hin
        · unfold zget at hrow
          rw [if_pos h0] at hrow
          have hmem : row ∈ m := List.getElem?_mem hrow
          have hlr : row.length = n := hrows row hmem
          split
          · rw [List.length_set]
            exact hlr
          · exact hlr
    next => exact ⟨hlen, hrows⟩

theorem zget2_isSome_of_shape {m : List (List α)} {n : ℕ} (h : Shape2 m n)
    {x y : ℤ} (hx0 : 0 ≤ x) (hxn : x < (n : ℤ)) (hy0 : 0 ≤ y) (hyn : y < (n : ℤ)) :
    (zget2 m x y).isSome := by
  obtain ⟨hlen, hrows⟩ := h
  unfold zget2 zget
  rw [if_pos hy0]
  rcases hg : m[y.toNat]? with _ | row
  · rw [List.getElem?_eq_none_iff] at hg
    omega
  · have hrl : row.length = n := hrows row (List.getElem?_mem hg)
    simp only [Option.some_bind]
    rw [if_pos hx0]
    rw [Option.isSome_iff_ne_none]
    intro hnone
    rw [List.getElem?_eq_none_iff] at hnone
    omega

theorem covB_zset2_self {m : List (List Bool)} {x y : ℤ} {v : Bool}
    (h : (zget2 m x y).isSome) : covB (zset2 m x y v) x y = v := by
  unfold covB
  rw [zget2_zset2_self h]
  rfl

theorem covB_zset2_other {m : List (List Bool)} {x y px py : ℤ} {v : Bool}
    (hne : px ≠ x ∨ py ≠ y) : covB (zset2 m x y v) px py = covB m px py := by
  unfold covB
  rw [zget2_zset2_other hne]

/-- Pointwise value of the inner (x-direction) loop of `paintBool`. -/
theorem covB_paintBool_inner {size : ℕ} {x y range ny px py : ℤ}
    (xs : List ℤ) (m : List (List Bool))
    (hsh : Shape2 m size)
    (hpx : 0 ≤ px ∧ px < (size : ℤ)) (hpy : 0 ≤ py ∧ py < (size : ℤ))
    (hny : 0 ≤ ny ∧ ny < (size : ℤ))
    (hxs : ∀ nx ∈ xs, 0 ≤ nx ∧ nx < (size : ℤ)) :
    covB (xs.foldl (fun m2 nx =>
        if (nx - x) * (nx - x) + (ny - y) * (ny - y) ≤ range * range
        then zset2 m2 nx ny true else m2) m) px py =
      (covB m px py ||
        decide (py = ny ∧ px ∈ xs ∧
          (px - x) * (px - x) + (ny - y) * (ny - y) ≤ range * range)) ∧
    Shape2 (xs.foldl (fun m2 nx =>
        if (nx - x) * (nx - x) + (ny - y) * (ny - y) ≤ range * range
        then zset2 m2 nx ny true else m2) m) size := by
  induction xs generalizing m with
  | nil => simp [hsh]
  | cons nx rest ih =>
    simp only [List.foldl_cons]
    have hrest : ∀ a ∈ rest, 0 ≤ a ∧ a < (size : ℤ) :=
      fun a ha => hxs a (List.mem_cons_of_mem nx ha)
    by_cases hcond : (nx - x) * (nx - x) + (ny - y) * (ny - y) ≤ range * range
    · rw [if_pos hcond]
      have hsh2 : Shape2 (zset2 m nx ny true) size := shape2_zset2 hsh
      obtain ⟨hval, hshf⟩ := ih (zset2 m nx ny true) hsh2 hrest
      refine ⟨?_, hshf⟩
      rw [hval]
      by_cases heq : px = nx ∧ py = ny
      · obtain ⟨rfl, rfl⟩ := heq
        rw [covB_zset2_self (zget2_isSome_of_shape hsh hpx.1 hpx.2 hpy.1 hpy.2)]
        simp only [Bool.true_or]
        symm
        rw [Bool.or_eq_true, decide_eq_true_eq]
        right
        exact ⟨by trivial, List.mem_cons_self px rest, hcond⟩
      · have hne : px ≠ nx ∨ py ≠ ny := by tauto
        rw [covB_zset2_other hne]
        congr 1
        rw [Bool.eq_iff_iff]
        simp only [decide_eq_true_eq, List.mem_cons]
        constructor
        · rintro ⟨h1, h2, h3⟩
          exact ⟨h1, Or.inr h2, h3⟩
        · rintro ⟨h1, h2 | h2, h3⟩
          · exact absurd ⟨h2, h1⟩ heq
          · exact ⟨h1, h2, h3⟩
    · rw [if_neg hcond]
      obtain ⟨hval, hshf⟩ := ih m hsh hrest
      refine ⟨?_, hshf⟩
      rw [hval]
      congr 1
      rw [Bool.eq_iff_iff]
      simp only [decide_eq_true_eq, List.mem_cons]
      constructor
      · rintro ⟨h1, h2, h3⟩
        exact ⟨h1, Or.inr h2, h3⟩
      · rintro ⟨h1, h2 | h2, h3⟩
        · rw [← h2] at hcond
          exact absurd h3 hcond
        · exact ⟨h1, h2, h3⟩

/-- Pointwise value of `paintBool`: a boolean coverage circle is the union
of the previous field and the in-range disk (for in-bounds tiles). -/
theorem covB_paintBool {m : List (List Bool)} {size : ℕ} {x y range px py : ℤ}
    (hsh : Shape2 m size)
    (hpx : 0 ≤ px ∧ px < (size : ℤ)) (hpy : 0 ≤ py ∧ py < (size : ℤ)) :
    covB (paintBool size x y range m) px py =
      (covB m px py ||
        decide (0 ≤ range ∧
          (px - x) * (px - x) + (py - y) * (py - y) ≤ range * range)) ∧
    Shape2 (paintBool size x y range m) size := by
  unfold paintBool
  have main : ∀ (ys : List ℤ) (m0 : List (List Bool)), Shape2 m0 size →
      (∀ ny ∈ ys, 0 ≤ ny ∧ ny < (size : ℤ)) →
      covB (ys.foldl (fun m1 ny =>
        (intRange (max 0 (x - range)) (min ((size : ℤ) - 1) (x + range))).foldl
          (fun m2 nx =>
            if (nx - x) * (nx - x) + (ny - y) * (ny - y) ≤ range * range
            then zset2 m2 nx ny true else m2) m1) m0) px py =
        (covB m0 px py ||
          decide (py ∈ ys ∧
            px ∈ intRange (max 0 (x - range)) (min ((size : ℤ) - 1) (x + range)) ∧
            (px - x) * (px - x) + (py - y) * (py - y) ≤ range * range)) ∧
      Shape2 (ys.foldl (fun m1 ny =>
        (intRange (max 0 (x - range)) (min ((size : ℤ) - 1) (x + range))).foldl
          (fun m2 nx =>
            if (nx - x) * (nx - x) + (ny - y) * (ny - y) ≤ range * range
            then zset2 m2 nx ny true else m2) m1) m0) size := by
    intro ys
    induction ys with
    | nil => intro m0 h0 _; simp [h0]
    | cons ny rest ih =>
      intro m0 h0 hys
      simp only [List.foldl_cons]
      have hny := hys ny (List.mem_cons_self ny rest)
      have hrest : ∀ a ∈ rest, 0 ≤ a ∧ a < (size : ℤ) :=
        fun a ha => hys a (List.mem_cons_of_mem ny ha)
      have hxs : ∀ nx ∈ intRange (max 0 (x - range)) (min ((size : ℤ) - 1) (x + range)),
          0 ≤ nx ∧ nx < (size : ℤ) := by
        intro nx hnx
        rw [mem_intRange] at hnx
        omega
      obtain ⟨hinner, hshi⟩ := covB_paintBool_inner
        (intRange (max 0 (x - range)) (min ((size : ℤ) - 1) (x + range))) m0
        h0 hpx hpy hny hxs
      obtain ⟨hv, hshf⟩ := ih _ hshi hrest
      refine ⟨?_, hshf⟩
      rw [hv, hinner, Bool.or_assoc]
      congr 1
      rw [Bool.eq_iff_iff]
      simp only [Bool.or_eq_true, decide_eq_true_eq, List.mem_cons]
      constructor
      · rintro (⟨h1, h2, h3⟩ | ⟨h1, h2, h3⟩)
        · exact ⟨Or.inl h1, h2, by rwa [← h1] at h3⟩
        · exact ⟨Or.inr h1, h2, h3⟩
      · rintro ⟨h1 | h1, h2, h3⟩
        · exact Or.inl ⟨h1, h2, by rwa [h1] at h3⟩
        · exact Or.inr ⟨h1, h2, h3⟩
  obtain ⟨hv, hshf⟩ := main
    (intRange (max 0 (y - range)) (min ((size : ℤ) - 1) (y + range))) m hsh
    (by intro ny hny; rw [mem_intRange] at hny; omega)
  refine ⟨?_, hshf⟩
  rw [hv]
  congr 1
  rw [Bool.eq_iff_iff]
  simp only [decide_eq_true_eq, mem_intRange]
  constructor
  · rintro ⟨h1, h2, h3⟩
    refine ⟨?_, h3⟩
    omega
  · rintro ⟨h0, h3⟩
    have hax2 : -range ≤ px - x ∧ px - x ≤ range := by
      constructor <;>
        nlinarith [sq_nonneg (px - x + range), sq_nonneg (px - x - range),
          sq_nonneg (py - y)]
    have hay2 : -range ≤ py - y ∧ py - y ≤ range := by
      constructor <;>
        nlinarith [sq_nonneg (py - y + range), sq_nonneg (py - y - range),
          sq_nonneg (px - x)]
    refine ⟨⟨?_, ?_⟩, ⟨?_, ?_⟩, h3⟩ <;> omega

theorem shape2_foldl {l : List ι} {m : List (List α)} {n : ℕ}
    (f : List (List α) → ι → List (List α))
    (hstep : ∀ m2 i, Shape2 m2 n → Shape2 (f m2 i) n)
    (h : Shape2 m n) : Shape2 (l.foldl f m) n := by
  induction l generalizing m with
  | nil => exact h
  | cons a rest ih => exact ih (hstep m a h)

theorem shape2_paintQ {sq : ℕ → ℚ} {size : ℕ} {x y range : ℤ}
    {m : List (List ℚ)} {n : ℕ} (h : Shape2 m n) :
    Shape2 (paintQ sq size x y range m) n := by
  unfold paintQ
  refine shape2_foldl _ ?_ h
  intro m2 ny hm2
  refine shape2_foldl _ ?_ hm2
  intro m3 nx hm3
  dsimp only
  split
  · exact shape2_zset2 hm3
  · exact hm3

theorem shape2_paintBool {size : ℕ} {x y range : ℤ}
    {m : List (List Bool)} {n : ℕ} (h : Shape2 m n) :
    Shape2 (paintBool size x y range m) n := by
  unfold paintBool
  refine shape2_foldl _ ?_ h
  intro m2 ny hm2
  refine shape2_foldl _ ?_ hm2
  intro m3 nx hm3
  dsimp only
  split
  · exact shape2_zset2 hm3
  · exact hm3

theorem covShape_applyService {sq : ℕ → ℚ} {size : ℕ} {sv : ServiceCoverage}
    {n : ℕ} {e : ℤ × ℤ × String × ℚ} (h : CovShape sv n) :
    CovShape (applyServiceBuilding sq size sv e) n := by
  obtain ⟨h1, h2, h3, h4, h5, h6⟩ := h
  unfold applyServiceBuilding
  dsimp only
  split
  · exact ⟨h1, h2, h3, h4, h5, h6⟩
  · split
    · exact ⟨h1, h2, h3, h4, shape2_paintBool h5, h6⟩
    · split
      · exact ⟨h1, h2, h3, h4, h5, shape2_paintBool h6⟩
      · split
        · exact ⟨shape2_paintQ h1, h2, h3, h4, h5, h6⟩
        · exact ⟨h1, shape2_paintQ h2, h3, h4, h5, h6⟩
        · exact ⟨h1, h2, shape2_paintQ h3, h4, h5, h6⟩
        · exact ⟨h1, h2, h3, shape2_paintQ h4, h5, h6⟩
        · exact ⟨h1, h2, h3, h4, h5, h6⟩

/-- The `power` field after one `applyServiceBuilding` step. -/
theorem applyService_power {sq : ℕ → ℚ} {size : ℕ} {sv : ServiceCoverage}
    {e : ℤ × ℤ × String × ℚ} :
    (applyServiceBuilding sq size sv e).power =
      if e.2.2.1 = "power_plant" then
        paintBool size e.1 e.2.1 (entryRange "power_plant" e.2.2.2) sv.power
      else sv.power := by
  obtain ⟨ex, ey, et, el⟩ := e
  by_cases h : et = "power_plant"
  · subst h
    rw [if_pos rfl]
    rfl
  · rw [if_neg h]
    unfold applyServiceBuilding
    dsimp only
    split <;> first
      | rfl
      | exact absurd (by assumption) h
      | (split <;> first
          | rfl
          | exact absurd (by assumption) h
          | (split <;> first
              | rfl
              | exact absurd (by assumption) h
              | (split <;> rfl)))

/-- The `water` field after one `applyServiceBuilding` step. -/
theorem applyService_water {sq : ℕ → ℚ} {size : ℕ} {sv : ServiceCoverage}
    {e : ℤ × ℤ × String × ℚ} :
    (applyServiceBuilding sq size sv e).water =
      if e.2.2.1 = "water_tower" then
        paintBool size e.1 e.2.1 (entryRange "water_tower" e.2.2.2) sv.water
      else sv.water := by
  obtain ⟨ex, ey, et, el⟩ := e
  by_cases h : et = "water_tower"
  · subst h
    rw [if_pos rfl]
    rfl
  · rw [if_neg h]
    unfold applyServiceBuilding
    dsimp only
    split <;> first
      | rfl
      | exact absurd (by assumption) h
      | (split <;> first
          | rfl
          | exact absurd (by assumption) h
          | (split <;> first
              | rfl
              | exact absurd (by assumption) h
              | (split <;> rfl)))

/-- Boolean coverage after folding a list of service buildings: a union
of in-range disks over the list's plants/towers. -/
theorem covB_foldApply {sq : ℕ → ℚ} {size : ℕ} (L : List (ℤ × ℤ × String × ℚ))
    (sv : ServiceCoverage) (hsh : CovShape sv size) {x y : ℤ}
    (hx : 0 ≤ x ∧ x < (size : ℤ)) (hy : 0 ≤ y ∧ y < (size : ℤ)) :
    (covB (L.foldl (applyServiceBuilding sq size) sv).power x y = true ↔
      covB sv.power x y = true ∨ ∃ e ∈ L, entryCovers "power_plant" e x y) ∧
    (covB (L.foldl (applyServiceBuilding sq size) sv).water x y = true ↔
      covB sv.water x y = true ∨ ∃ e ∈ L, entryCovers "water_tower" e x y) := by
  induction L generalizing sv with
  | nil => simp
  | cons e rest ih =>
    simp only [List.foldl_cons]
    have hsh2 : CovShape (applyServiceBuilding sq size sv e) size :=
      covShape_applyService hsh
    obtain ⟨ihp, ihw⟩ := ih (applyServiceBuilding sq size sv e) hsh2
    constructor
    · rw [ihp, applyService_power]
      by_cases he : e.2.2.1 = "power_plant"
      · rw [if_pos he]
        obtain ⟨hval, _⟩ := @covB_paintBool _ _ e.1 e.2.1
          (entryRange "power_plant" e.2.2.2) _ _ hsh.2.2.2.2.1 hx hy
        rw [hval]
        simp only [Bool.or_eq_true, decide_eq_true_eq, List.mem_cons]
        constructor
        · rintro ((hc | hc) | ⟨e2, he2, hc⟩)
          · exact Or.inl hc
          · exact Or.inr ⟨e, Or.inl rfl, he, hc.1, hc.2⟩
          · exact Or.inr ⟨e2, Or.inr he2, hc⟩
        · rintro (hc | ⟨e2, he2 | he2, hc⟩)
          · exact Or.inl (Or.inl hc)
          · subst he2
            exact Or.inl (Or.inr ⟨hc.2.1, hc.2.2⟩)
          · exact Or.inr ⟨e2, he2, hc⟩
      · rw [if_neg he]
        simp only [List.mem_cons]
        constructor
        · rintro (hc | ⟨e2, he2, hc⟩)
          · exact Or.inl hc
          · exact Or.inr ⟨e2, Or.inr he2, hc⟩
        · rintro (hc | ⟨e2, he2 | he2, hc⟩)
          · exact Or.inl hc
          · subst he2
            exact absurd hc.1 he
          · exact Or.inr ⟨e2, he2, hc⟩
    · rw [ihw, applyService_water]
      by_cases he : e.2.2.1 = "water_tower"
      · rw [if_pos he]
        obtain ⟨hval, _⟩ := @covB_paintBool _ _ e.1 e.2.1
          (entryRange "water_tower" e.2.2.2) _ _ hsh.2.2.2.2.2 hx hy
        rw [hval]
        simp only [Bool.or_eq_true, decide_eq_true_eq, List.mem_cons]
        constructor
        · rintro ((hc | hc) | ⟨e2, he2, hc⟩)
          · exact Or.inl hc
          · exact Or.inr ⟨e, Or.inl rfl, he, hc.1, hc.2⟩
          · exact Or.inr ⟨e2, Or.inr he2, hc⟩
        · rintro (hc | ⟨e2, he2 | he2, hc⟩)
          · exact Or.inl (Or.inl hc)
          · subst he2
            exact Or.inl (Or.inr ⟨hc.2.1, hc.2.2⟩)
          · exact Or.inr ⟨e2, he2, hc⟩
      · rw [if_neg he]
        simp only [List.mem_cons]
        constructor
        · rintro (hc | ⟨e2, he2, hc⟩)
          · exact Or.inl hc
          · exact Or.inr ⟨e2, Or.inr he2, hc⟩
        · rintro (hc | ⟨e2, he2 | he2, hc⟩)
          · exact Or.inl hc
          · subst he2
            exact absurd hc.1 he
          · exact Or.inr ⟨e2, he2, hc⟩

/-- Membership in the collected service-building list. -/
theorem mem_collectServiceBuildings {grid : Grid} {size : ℕ}
    {e : ℤ × ℤ × String × ℚ} :
    e ∈ collectServiceBuildings grid size ↔
      ∃ t : Tile, zget2 grid e.1 e.2.1 = some t ∧
        0 ≤ e.1 ∧ e.1 < (size : ℤ) ∧ 0 ≤ e.2.1 ∧ e.2.1 < (size : ℤ) ∧
        t.building.type ∈ SERVICE_BUILDING_TYPES ∧
        ¬t.building.constructionProgress < 100 ∧ ¬t.building.abandoned ∧
        e.2.2.1 = t.building.type ∧ e.2.2.2 = t.building.level := by
  unfold collectServiceBuildings
  simp only [List.mem_flatMap, List.mem_filterMap, mem_intRange]
  constructor
  · rintro ⟨yy, hyy, xx, hxx, hmatch⟩
    rcases hz : zget2 grid xx yy with _ | t
    · rw [hz] at hmatch
      cases hmatch
    · rw [hz] at hmatch
      dsimp only at hmatch
      by_cases h1 : t.building.type ∈ SERVICE_BUILDING_TYPES
      · rw [if_pos h1] at hmatch
        by_cases h2 : t.building.constructionProgress < 100
        · rw [if_pos h2] at hmatch
          cases hmatch
        · rw [if_neg h2] at hmatch
          by_cases h3 : t.building.abandoned
          · rw [if_pos h3] at hmatch
            cases hmatch
          · rw [if_neg h3] at hmatch
            cases hmatch
            exact ⟨t, hz, hxx.1, (by omega : xx < (size : ℤ)), hyy.1,
              (by omega : yy < (size : ℤ)), h1, h2, h3, rfl, rfl⟩
      · rw [if_neg h1] at hmatch
        cases hmatch
  · rintro ⟨t, hz, hx0, hxn, hy0, hyn, h1, h2, h3, ht, hl⟩
    refine ⟨e.2.1, by omega, e.1, by omega, ?_⟩
    rw [hz]
    dsimp only
    rw [if_pos h1, if_neg h2, if_neg h3]
    obtain ⟨e1, e2, e3, e4⟩ := e
    dsimp only at *
    rw [ht, hl]

/-- An all-`false` coverage plane reads `false` everywhere. -/
theorem covB_replicate_false {n : ℕ} {x y : ℤ} :
    covB (List.replicate n (List.replicate n false)) x y = false := by
  unfold covB zget2 zget
  by_cases hy : 0 ≤ y
  · rw [if_pos hy]
    rcases h : (List.replicate n (List.replicate n false))[y.toNat]? with _ | row
    · rfl
    · have hrow : row = List.replicate n false :=
        List.eq_of_mem_replicate (List.getElem?_mem h)
      subst hrow
      by_cases hx : 0 ≤ x
      · simp only [Option.bind_some, if_pos hx]
        rcases h2 : (List.replicate n (false : Bool))[x.toNat]? with _ | b
        · show ((List.replicate n (false : Bool))[x.toNat]?).getD false = false
          rw [h2]
          rfl
        · have : b = false := List.eq_of_mem_replicate (List.getElem?_mem h2)
          subst this
          show ((List.replicate n (false : Bool))[x.toNat]?).getD false = false
          rw [h2]
          rfl
      · simp only [Option.bind_some, if_neg hx]
        rfl
  · rw [if_neg hy]
    rfl

/-- The empty coverage record has square shape. -/
theorem covShape_create {n : ℕ} : CovShape (createServiceCoverage n) n := by
  unfold createServiceCoverage CovShape Shape2
  refine ⟨⟨?_, ?_⟩, ⟨?_, ?_⟩, ⟨?_, ?_⟩, ⟨?_, ?_⟩, ⟨?_, ?_⟩, ⟨?_, ?_⟩⟩ <;>
    first
      | exact List.length_replicate _ _
      | · intro r hr
          rw [List.eq_of_mem_replicate hr]
          exact List.length_replicate _ _

/-- `calculateServiceCoverage` makes the boolean power and water planes
exactly the union of the floored-radius discs of the collected plants and
towers. -/
theorem covB_calculateServiceCoverage {sq : ℕ → ℚ} {grid : Grid} {size : ℕ}
    {x y : ℤ} (hx : 0 ≤ x ∧ x < (size : ℤ)) (hy : 0 ≤ y ∧ y < (size : ℤ)) :
    (covB (calculateServiceCoverage sq grid size).power x y = true ↔
      ∃ e ∈ collectServiceBuildings grid size, entryCovers "power_plant" e x y) ∧
    (covB (calculateServiceCoverage sq grid size).water x y = true ↔
      ∃ e ∈ collectServiceBuildings grid size, entryCovers "water_tower" e x y) := by
  unfold calculateServiceCoverage
  obtain ⟨hp, hw⟩ := @covB_foldApply sq _ (collectServiceBuildings grid size)
    (createServiceCoverage size) covShape_create _ _ hx hy
  have hcp : covB (createServiceCoverage size).power x y = false := covB_replicate_false
  have hcw : covB (createServiceCoverage size).water x y = false := covB_replicate_false
  rw [hcp] at hp
  rw [hcw] at hw
  simp only [Bool.false_eq_true, false_or] at hp hw
  exact ⟨hp, hw⟩

/-- `intRange` enumerates without repetition. -/
theorem intRange_nodup {l u : ℤ} : (intRange l u).Nodup := by
  unfold intRange
  refine List.Nodup.map ?_ (List.nodup_range _)
  intro a b h
  simp only [Int.ofNat_eq_coe] at h
  omega

/-- Generic out-of-bounds read of a square 2-dimensional array. -/
theorem shape2_zget2_oob {m : List (List α)} {n : ℕ} (h : Shape2 m n)
    {x y : ℤ} (hoob : x < 0 ∨ y < 0 ∨ (n : ℤ) ≤ x ∨ (n : ℤ) ≤ y) :
    zget2 m x y = none := by
  obtain ⟨hlen, hrows⟩ := h
  unfold zget2 zget
  rcases Decidable.em (0 ≤ y) with hy | hy
  · rw [if_pos hy]
    rcases hg : m[y.toNat]? with _ | row
    · simp
    · have hyn : y < (n : ℤ) := by
        have := (List.getElem?_eq_some_iff.1 hg).1
        omega
      have hrl : row.length = n := hrows row (List.getElem?_mem hg)
      simp only [Option.some_bind]
      rcases Decidable.em (0 ≤ x) with hx | hx
      · rw [if_pos hx]
        rw [List.getElem?_eq_none (by omega)]
      · rw [if_neg hx]
  · rw [if_neg hy]
    simp

/-- Out-of-bounds quality coverage reads 0. -/
theorem covQ_oob {m : List (List ℚ)} {n : ℕ} (h : Shape2 m n)
    {x y : ℤ} (hoob : x < 0 ∨ y < 0 ∨ (n : ℤ) ≤ x ∨ (n : ℤ) ≤ y) :
    covQ m x y = 0 := by
  unfold covQ
  rw [shape2_zget2_oob h hoob]
  rfl

/-- Out-of-bounds boolean coverage reads `false`. -/
theorem covB_oob {m : List (List Bool)} {n : ℕ} (h : Shape2 m n)
    {x y : ℤ} (hoob : x < 0 ∨ y < 0 ∨ (n : ℤ) ≤ x ∨ (n : ℤ) ≤ y) :
    covB m x y = false := by
  unfold covB
  rw [shape2_zget2_oob h hoob]
  rfl

/-- Every configured service base range is positive. -/
theorem serviceRange_pos {t : String} {r : ℚ} (h : serviceRange t = some r) :
    0 < r := by
  unfold serviceRange at h
  split at h <;>
    first
      | (cases h; norm_num)
      | (split at h <;>
          first
            | (cases h; norm_num)
            | (split at h <;>
                first
                  | (cases h; norm_num)
                  | (split at h <;>
                      first
                        | (cases h; norm_num)
                        | (split at h <;>
                            first
                              | (cases h; norm_num)
                              | (split at h <;>
                                  first
                                    | (cases h; norm_num)
                                    | (split at h <;> cases h
                                       norm_num))))))

/-- `entryRange` in terms of a known base range. -/
theorem entryRange_eq {t : String} {r : ℚ} (h : serviceRange t = some r)
    (l : ℚ) :
    entryRange t l = ⌊r * (1 + (l - 1) * SERVICE_RANGE_INCREASE_PER_LEVEL)⌋ := by
  unfold entryRange
  rw [h]
  rfl

/-- The floored effective range grows with the level. -/
theorem entryRange_mono {t : String} {l l' : ℚ} (h : l ≤ l') :
    entryRange t l ≤ entryRange t l' := by
  unfold entryRange
  apply Int.floor_le_floor
  have hb : 0 ≤ (serviceRange t).getD 0 := by
    rcases hs : serviceRange t with _ | r
    · norm_num
    · simpa using le_of_lt (serviceRange_pos hs)
  apply mul_le_mul_of_nonneg_left ?_ hb
  unfold SERVICE_RANGE_INCREASE_PER_LEVEL
  linarith

/-- One row of `paintQ`: folding the clipped x-interval writes each cell of
row `ny` at most once, adding the falloff contribution capped at 100. -/
theorem covQ_paintQ_inner {sq : ℕ → ℚ} {size : ℕ} {x y range ny : ℤ}
    (hny : 0 ≤ ny ∧ ny < (size : ℤ)) (xs : List ℤ) :
    ∀ (m : List (List ℚ)), Shape2 m size → xs.Nodup →
      (∀ nx ∈ xs, 0 ≤ nx ∧ nx < (size : ℤ)) →
      (∀ px py : ℤ,
        covQ (xs.foldl (fun m2 nx =>
          if (nx - x) * (nx - x) + (ny - y) * (ny - y) ≤ range * range then
            zset2 m2 nx ny (min 100 (covQ m2 nx ny +
              max 0 ((1 - sq ((nx - x) * (nx - x) + (ny - y) * (ny - y)).toNat /
                (range : ℚ)) * 100)))
          else m2) m) px py =
        if px ∈ xs ∧ py = ny ∧
            (px - x) * (px - x) + (ny - y) * (ny - y) ≤ range * range then
          min 100 (covQ m px py +
            max 0 ((1 - sq ((px - x) * (px - x) + (ny - y) * (ny - y)).toNat /
              (range : ℚ)) * 100))
        else covQ m px py) ∧
      Shape2 (xs.foldl (fun m2 nx =>
          if (nx - x) * (nx - x) + (ny - y) * (ny - y) ≤ range * range then
            zset2 m2 nx ny (min 100 (covQ m2 nx ny +
              max 0 ((1 - sq ((nx - x) * (nx - x) + (ny - y) * (ny - y)).toNat /
                (range : ℚ)) * 100)))
          else m2) m) size := by
  induction xs with
  | nil =>
    intro m hsh _ _
    refine ⟨?_, hsh⟩
    intro px py
    simp only [List.foldl_nil]
    rw [if_neg (by simp)]
  | cons nx rest ih =>
    intro m hsh hnd hxs
    have hnx := hxs nx (List.mem_cons_self nx rest)
    have hrest : ∀ a ∈ rest, 0 ≤ a ∧ a < (size : ℤ) :=
      fun a ha => hxs a (List.mem_cons_of_mem nx ha)
    have hndr : rest.Nodup := hnd.of_cons
    have hnotmem : nx ∉ rest := (List.nodup_cons.1 hnd).1
    simp only [List.foldl_cons]
    have hsh1 : Shape2 (if (nx - x) * (nx - x) + (ny - y) * (ny - y) ≤ range * range then
        zset2 m nx ny (min 100 (covQ m nx ny +
          max 0 ((1 - sq ((nx - x) * (nx - x) + (ny - y) * (ny - y)).toNat /
            (range : ℚ)) * 100)))
        else m) size := by
      split
      · exact shape2_zset2 hsh
      · exact hsh
    obtain ⟨ihv, ihsh⟩ := ih _ hsh1 hndr hrest
    refine ⟨?_, ihsh⟩
    intro px py
    rw [ihv px py]
    have hstep : covQ (if (nx - x) * (nx - x) + (ny - y) * (ny - y) ≤ range * range then
        zset2 m nx ny (min 100 (covQ m nx ny +
          max 0 ((1 - sq ((nx - x) * (nx - x) + (ny - y) * (ny - y)).toNat /
            (range : ℚ)) * 100)))
        else m) px py =
      if px = nx ∧ py = ny ∧
          (nx - x) * (nx - x) + (ny - y) * (ny - y) ≤ range * range then
        min 100 (covQ m nx ny +
          max 0 ((1 - sq ((nx - x) * (nx - x) + (ny - y) * (ny - y)).toNat /
            (range : ℚ)) * 100))
      else covQ m px py := by
      split
      next hok =>
        rcases Decidable.em (px = nx ∧ py = ny) with ⟨rfl, rfl⟩ | hne
        · rw [if_pos ⟨rfl, rfl, hok⟩]
          unfold covQ
          rw [zget2_zset2_self (zget2_isSome_of_shape hsh hnx.1 hnx.2 hny.1 hny.2)]
          rfl
        · rw [if_neg (by tauto)]
          unfold covQ
          rw [zget2_zset2_other (by tauto)]
      next hok =>
        rw [if_neg (by tauto)]
    rw [hstep]
    by_cases h1 : px ∈ rest ∧ py = ny ∧
        (px - x) * (px - x) + (ny - y) * (ny - y) ≤ range * range
    · rw [if_pos h1]
      have hpxnx : px ≠ nx := fun h => hnotmem (h ▸ h1.1)
      rw [if_neg (by tauto)]
      rw [if_pos ⟨List.mem_cons_of_mem nx h1.1, h1.2⟩]
    · rw [if_neg h1]
      by_cases h2 : px = nx ∧ py = ny ∧
          (nx - x) * (nx - x) + (ny - y) * (ny - y) ≤ range * range
      · obtain ⟨rfl, rfl, hok⟩ := h2
        rw [if_pos ⟨rfl, rfl, hok⟩]
        rw [if_pos ⟨List.mem_cons_self _ _, rfl, hok⟩]
      · rw [if_neg h2]
        have hnotc : ¬(px ∈ nx :: rest ∧ py = ny ∧
            (px - x) * (px - x) + (ny - y) * (ny - y) ≤ range * range) := by
          rintro ⟨hmem, rfl, hok⟩
          rcases List.mem_cons.1 hmem with rfl | hmem2
          · exact h2 ⟨rfl, rfl, hok⟩
          · exact h1 ⟨hmem2, rfl, hok⟩
        rw [if_neg hnotc]

/-- Pointwise value of `paintQ`: inside the disc the cell gains the
falloff contribution capped at 100; elsewhere it is untouched. -/
theorem covQ_paintQ {sq : ℕ → ℚ} {size : ℕ} {x y range : ℤ}
    {m : List (List ℚ)} (hsh : Shape2 m size)
    {px py : ℤ} (hpx : 0 ≤ px ∧ px < (size : ℤ)) (hpy : 0 ≤ py ∧ py < (size : ℤ)) :
    covQ (paintQ sq size x y range m) px py =
      if 0 ≤ range ∧
          (px - x) * (px - x) + (py - y) * (py - y) ≤ range * range then
        min 100 (covQ m px py +
          max 0 ((1 - sq ((px - x) * (px - x) + (py - y) * (py - y)).toNat /
            (range : ℚ)) * 100))
      else covQ m px py := by
  unfold paintQ
  have main : ∀ (ys : List ℤ), ∀ (m0 : List (List ℚ)), Shape2 m0 size → ys.Nodup →
      (∀ ny ∈ ys, 0 ≤ ny ∧ ny < (size : ℤ)) →
      covQ (ys.foldl (fun m1 ny =>
        (intRange (max 0 (x - range)) (min ((size : ℤ) - 1) (x + range))).foldl
          (fun m2 nx =>
            if (nx - x) * (nx - x) + (ny - y) * (ny - y) ≤ range * range then
              zset2 m2 nx ny (min 100 (covQ m2 nx ny +
                max 0 ((1 - sq ((nx - x) * (nx - x) + (ny - y) * (ny - y)).toNat /
                  (range : ℚ)) * 100)))
            else m2) m1) m0) px py =
        if py ∈ ys ∧
            px ∈ intRange (max 0 (x - range)) (min ((size : ℤ) - 1) (x + range)) ∧
            (px - x) * (px - x) + (py - y) * (py - y) ≤ range * range then
          min 100 (covQ m0 px py +
            max 0 ((1 - sq ((px - x) * (px - x) + (py - y) * (py - y)).toNat /
              (range : ℚ)) * 100))
        else covQ m0 px py := by
    intro ys
    induction ys with
    | nil =>
      intro m0 h0 _ _
      simp only [List.foldl_nil]
      rw [if_neg (by simp)]
    | cons ny rest ih =>
      intro m0 h0 hnd hys
      simp only [List.foldl_cons]
      have hny := hys ny (List.mem_cons_self ny rest)
      have hrest : ∀ a ∈ rest, 0 ≤ a ∧ a < (size : ℤ) :=
        fun a ha => hys a (List.mem_cons_of_mem ny ha)
      have hndr : rest.Nodup := hnd.of_cons
      have hnymem : ny ∉ rest := (List.nodup_cons.1 hnd).1
      have hxsb : ∀ nx ∈ intRange (max 0 (x - range)) (min ((size : ℤ) - 1) (x + range)),
          0 ≤ nx ∧ nx < (size : ℤ) := by
        intro nx hnx
        rw [mem_intRange] at hnx
        omega
      obtain ⟨innerv, innersh⟩ := covQ_paintQ_inner hny
        (intRange (max 0 (x - range)) (min ((size : ℤ) - 1) (x + range)))
        m0 h0 intRange_nodup hxsb
      rw [ih _ innersh hndr hrest]
      rw [innerv px py]
      by_cases h1 : py ∈ rest ∧
          px ∈ intRange (max 0 (x - range)) (min ((size : ℤ) - 1) (x + range)) ∧
          (px - x) * (px - x) + (py - y) * (py - y) ≤ range * range
      · rw [if_pos h1]
        have hpyny : py ≠ ny := fun h => hnymem (h ▸ h1.1)
        rw [if_neg (by tauto)]
        rw [if_pos ⟨List.mem_cons_of_mem ny h1.1, h1.2⟩]
      · rw [if_neg h1]
        by_cases h2 : py = ny ∧
            px ∈ intRange (max 0 (x - range)) (min ((size : ℤ) - 1) (x + range)) ∧
            (px - x) * (px - x) + (ny - y) * (ny - y) ≤ range * range
        · obtain ⟨rfl, hmem, hok⟩ := h2
          rw [if_pos ⟨hmem, rfl, hok⟩]
          rw [if_pos ⟨List.mem_cons_self _ _, hmem, hok⟩]
        · have hnotinner : ¬(px ∈ intRange (max 0 (x - range))
              (min ((size : ℤ) - 1) (x + range)) ∧ py = ny ∧
              (px - x) * (px - x) + (ny - y) * (ny - y) ≤ range * range) := by
            rintro ⟨hmem, rfl, hok⟩
            exact h2 ⟨rfl, hmem, hok⟩
          rw [if_neg hnotinner]
          have hnotc : ¬(py ∈ ny :: rest ∧
              px ∈ intRange (max 0 (x - range)) (min ((size : ℤ) - 1) (x + range)) ∧
              (px - x) * (px - x) + (py - y) * (py - y) ≤ range * range) := by
            rintro ⟨hmem, hmem2, hok⟩
            rcases List.mem_cons.1 hmem with rfl | hmem3
            · exact h2 ⟨rfl, hmem2, hok⟩
            · exact h1 ⟨hmem3, hmem2, hok⟩
          rw [if_neg hnotc]
  rw [main (intRange (max 0 (y - range)) (min ((size : ℤ) - 1) (y + range))) m hsh
    intRange_nodup (by intro ny hny; rw [mem_intRange] at hny; omega)]
  have hiff : (py ∈ intRange (max 0 (y - range)) (min ((size : ℤ) - 1) (y + range)) ∧
      px ∈ intRange (max 0 (x - range)) (min ((size : ℤ) - 1) (x + range)) ∧
      (px - x) * (px - x) + (py - y) * (py - y) ≤ range * range) ↔
      (0 ≤ range ∧
        (px - x) * (px - x) + (py - y) * (py - y) ≤ range * range) := by
    simp only [mem_intRange]
    constructor
    · rintro ⟨h1, h2, h3⟩
      refine ⟨?_, h3⟩
      omega
    · rintro ⟨h0, h3⟩
      have hax2 : -range ≤ px - x ∧ px - x ≤ range := by
        constructor <;>
          nlinarith [sq_nonneg (px - x + range), sq_nonneg (px - x - range),
            sq_nonneg (py - y)]
      have hay2 : -range ≤ py - y ∧ py - y ≤ range := by
        constructor <;>
          nlinarith [sq_nonneg (py - y + range), sq_nonneg (py - y - range),
            sq_nonneg (px - x)]
      refine ⟨⟨?_, ?_⟩, ⟨?_, ?_⟩, h3⟩ <;> omega
  exact if_congr hiff rfl rfl

/-- `paintQ` keeps quality values at most 100. -/
theorem covQ_paintQ_le_100 {sq : ℕ → ℚ} {size : ℕ} {x y range : ℤ}
    {m : List (List ℚ)} (hsh : Shape2 m size)
    (hbd : ∀ a b : ℤ, covQ m a b ≤ 100) :
    ∀ a b : ℤ, covQ (paintQ sq size x y range m) a b ≤ 100 := by
  intro a b
  by_cases hab : 0 ≤ a ∧ a < (size : ℤ) ∧ 0 ≤ b ∧ b < (size : ℤ)
  · rw [covQ_paintQ hsh ⟨hab.1, hab.2.1⟩ ⟨hab.2.2.1, hab.2.2.2⟩]
    split
    · exact min_le_left _ _
    · exact hbd a b
  · rw [covQ_oob (shape2_paintQ hsh) (by omega)]
    norm_num

/-- `paintQ` is pointwise monotone in the input plane. -/
theorem covQ_paintQ_mono_m {sq : ℕ → ℚ} {size : ℕ} {x y range : ℤ}
    {m m' : List (List ℚ)} (hsh : Shape2 m size) (hsh' : Shape2 m' size)
    (hle : ∀ a b : ℤ, covQ m a b ≤ covQ m' a b) :
    ∀ a b : ℤ, covQ (paintQ sq size x y range m) a b ≤
      covQ (paintQ sq size x y range m') a b := by
  intro a b
  by_cases hab : 0 ≤ a ∧ a < (size : ℤ) ∧ 0 ≤ b ∧ b < (size : ℤ)
  · rw [covQ_paintQ hsh ⟨hab.1, hab.2.1⟩ ⟨hab.2.2.1, hab.2.2.2⟩,
      covQ_paintQ hsh' ⟨hab.1, hab.2.1⟩ ⟨hab.2.2.1, hab.2.2.2⟩]
    split
    · exact min_le_min le_rfl (add_le_add_right (hle a b) _)
    · exact hle a b
  · rw [covQ_oob (shape2_paintQ hsh) (by omega),
      covQ_oob (shape2_paintQ hsh') (by omega)]

/-- `paintQ` is pointwise monotone in the radius. -/
theorem covQ_paintQ_mono_range {sq : ℕ → ℚ} (sqs : SqSpec sq) {size : ℕ}
    {x y r r' : ℤ} (hr : r ≤ r') {m : List (List ℚ)} (hsh : Shape2 m size)
    (hbd : ∀ a b : ℤ, covQ m a b ≤ 100) :
    ∀ a b : ℤ, covQ (paintQ sq size x y r m) a b ≤
      covQ (paintQ sq size x y r' m) a b := by
  intro a b
  by_cases hab : 0 ≤ a ∧ a < (size : ℤ) ∧ 0 ≤ b ∧ b < (size : ℤ)
  · rw [covQ_paintQ hsh ⟨hab.1, hab.2.1⟩ ⟨hab.2.2.1, hab.2.2.2⟩,
      covQ_paintQ hsh ⟨hab.1, hab.2.1⟩ ⟨hab.2.2.1, hab.2.2.2⟩]
    by_cases hc : 0 ≤ r ∧ (a - x) * (a - x) + (b - y) * (b - y) ≤ r * r
    · have hrr : r * r ≤ r' * r' := mul_le_mul hr hr hc.1 (le_trans hc.1 hr)
      rw [if_pos hc, if_pos ⟨by omega, by linarith [hc.2]⟩]
      refine min_le_min le_rfl (add_le_add_left ?_ _)
      refine max_le_max le_rfl ?_
      refine mul_le_mul_of_nonneg_right ?_ (by norm_num)
      rcases eq_or_lt_of_le hc.1 with hz | hpos
      · have hd : (a - x) * (a - x) + (b - y) * (b - y) = 0 := by nlinarith [hc.2]
        rw [hd]
        simp [sqs.zero]
      · have hr'pos : (0 : ℤ) < r' := lt_of_lt_of_le hpos hr
        have hrq : (0 : ℚ) < (r : ℚ) := by exact_mod_cast hpos
        have hr'q : (0 : ℚ) < (r' : ℚ) := by exact_mod_cast hr'pos
        have hrr' : (r : ℚ) ≤ (r' : ℚ) := by exact_mod_cast hr
        have hdiv : sq ((a - x) * (a - x) + (b - y) * (b - y)).toNat / (r' : ℚ) ≤
            sq ((a - x) * (a - x) + (b - y) * (b - y)).toNat / (r : ℚ) := by
          apply div_le_div_of_nonneg_left (sqs.nonneg _) hrq hrr'
        linarith
    · rw [if_neg hc]
      by_cases hc' : 0 ≤ r' ∧ (a - x) * (a - x) + (b - y) * (b - y) ≤ r' * r'
      · rw [if_pos hc']
        refine le_min (hbd a b) ?_
        have := le_max_left (0 : ℚ)
          ((1 - sq ((a - x) * (a - x) + (b - y) * (b - y)).toNat / (r' : ℚ)) * 100)
        linarith
      · rw [if_neg hc']
  · rw [covQ_oob (shape2_paintQ hsh) (by omega),
      covQ_oob (shape2_paintQ hsh) (by omega)]

/-- `paintBool` is pointwise monotone in the input plane. -/
theorem covB_paintBool_mono_m {size : ℕ} {x y range : ℤ}
    {m m' : List (List Bool)} (hsh : Shape2 m size) (hsh' : Shape2 m' size)
    (hle : ∀ a b : ℤ, covB m a b = true → covB m' a b = true) :
    ∀ a b : ℤ, covB (paintBool size x y range m) a b = true →
      covB (paintBool size x y range m') a b = true := by
  intro a b
  by_cases hab : 0 ≤ a ∧ a < (size : ℤ) ∧ 0 ≤ b ∧ b < (size : ℤ)
  · rw [(covB_paintBool hsh ⟨hab.1, hab.2.1⟩ ⟨hab.2.2.1, hab.2.2.2⟩).1,
      (covB_paintBool hsh' ⟨hab.1, hab.2.1⟩ ⟨hab.2.2.1, hab.2.2.2⟩).1]
    simp only [Bool.or_eq_true]
    rintro (h | h)
    · exact Or.inl (hle a b h)
    · exact Or.inr h
  · intro h
    rw [covB_oob (shape2_paintBool hsh) (by omega)] at h
    cases h

/-- `paintBool` is pointwise monotone in the radius. -/
theorem covB_paintBool_mono_range {size : ℕ} {x y r r' : ℤ} (hr : r ≤ r')
    {m : List (List Bool)} (hsh : Shape2 m size) :
    ∀ a b : ℤ, covB (paintBool size x y r m) a b = true →
      covB (paintBool size x y r' m) a b = true := by
  intro a b
  by_cases hab : 0 ≤ a ∧ a < (size : ℤ) ∧ 0 ≤ b ∧ b < (size : ℤ)
  · rw [(covB_paintBool hsh ⟨hab.1, hab.2.1⟩ ⟨hab.2.2.1, hab.2.2.2⟩).1,
      (covB_paintBool hsh ⟨hab.1, hab.2.1⟩ ⟨hab.2.2.1, hab.2.2.2⟩).1]
    simp only [Bool.or_eq_true, decide_eq_true_eq]
    rintro (h | ⟨h0, hd⟩)
    · exact Or.inl h
    · have hrr : r * r ≤ r' * r' := mul_le_mul hr hr h0 (le_trans h0 hr)
      exact Or.inr ⟨by omega, by linarith⟩
  · intro h
    rw [covB_oob (shape2_paintBool hsh) (by omega)] at h
    cases h

/-- `SvLE` is reflexive. -/
theorem svLE_refl (sv : ServiceCoverage) : SvLE sv sv :=
  fun _ _ => ⟨le_rfl, le_rfl, le_rfl, le_rfl, id, id⟩

/-- `SvLE` is transitive. -/
theorem svLE_trans {a b c : ServiceCoverage} (h1 : SvLE a b) (h2 : SvLE b c) :
    SvLE a c := by
  intro x y
  obtain ⟨p1, f1, he1, e1, w1, q1⟩ := h1 x y
  obtain ⟨p2, f2, he2, e2, w2, q2⟩ := h2 x y
  exact ⟨le_trans p1 p2, le_trans f1 f2, le_trans he1 he2, le_trans e1 e2,
    fun h => w2 (w1 h), fun h => q2 (q1 h)⟩

/-- An all-zero quality plane reads 0 everywhere. -/
theorem covQ_replicate_zero {n : ℕ} {x y : ℤ} :
    covQ (List.replicate n (List.replicate n (0 : ℚ))) x y = 0 := by
  unfold covQ zget2 zget
  by_cases hy : 0 ≤ y
  · rw [if_pos hy]
    rcases h : (List.replicate n (List.replicate n (0 : ℚ)))[y.toNat]? with _ | row
    · rfl
    · have hrow : row = List.replicate n 0 :=
        List.eq_of_mem_replicate (List.getElem?_mem h)
      subst hrow
      by_cases hx : 0 ≤ x
      · simp only [Option.bind_some, if_pos hx]
        rcases h2 : (List.replicate n (0 : ℚ))[x.toNat]? with _ | b
        · show ((List.replicate n (0 : ℚ))[x.toNat]?).getD 0 = 0
          rw [h2]
          rfl
        · have : b = 0 := List.eq_of_mem_replicate (List.getElem?_mem h2)
          subst this
          show ((List.replicate n (0 : ℚ))[x.toNat]?).getD 0 = 0
          rw [h2]
          rfl
      · simp only [Option.bind_some, if_neg hx]
        rfl
  · rw [if_neg hy]
    rfl

/-- The empty coverage record satisfies the painting invariant. -/
theorem svOK_create {n : ℕ} : SvOK (createServiceCoverage n) n := by
  refine ⟨covShape_create, ?_⟩
  intro a b
  refine ⟨?_, ?_, ?_, ?_⟩ <;>
    · show covQ (List.replicate n (List.replicate n (0 : ℚ))) a b ≤ 100
      rw [covQ_replicate_zero]
      norm_num

/-- One painting step preserves the invariant. -/
theorem svOK_applyService {sq : ℕ → ℚ} {size : ℕ} {sv : ServiceCoverage}
    (h : SvOK sv size) (e : ℤ × ℤ × String × ℚ) :
    SvOK (applyServiceBuilding sq size sv e) size := by
  obtain ⟨hsh, hbd⟩ := h
  obtain ⟨h1, h2, h3, h4, h5, h6⟩ := hsh
  refine ⟨covShape_applyService ⟨h1, h2, h3, h4, h5, h6⟩, ?_⟩
  intro a b
  unfold applyServiceBuilding
  dsimp only
  split
  · exact hbd a b
  · split
    · exact hbd a b
    · split
      · exact hbd a b
      · split
        · exact ⟨covQ_paintQ_le_100 h1 (fun a b => (hbd a b).1) a b,
            (hbd a b).2.1, (hbd a b).2.2.1, (hbd a b).2.2.2⟩
        · exact ⟨(hbd a b).1, covQ_paintQ_le_100 h2 (fun a b => (hbd a b).2.1) a b,
            (hbd a b).2.2.1, (hbd a b).2.2.2⟩
        · exact ⟨(hbd a b).1, (hbd a b).2.1,
            covQ_paintQ_le_100 h3 (fun a b => (hbd a b).2.2.1) a b, (hbd a b).2.2.2⟩
        · exact ⟨(hbd a b).1, (hbd a b).2.1, (hbd a b).2.2.1,
            covQ_paintQ_le_100 h4 (fun a b => (hbd a b).2.2.2) a b⟩
        · exact hbd a b

/-- One painting step is monotone in the coverage record. -/
theorem svLE_applyService_mono {sq : ℕ → ℚ} {size : ℕ} {sv sv' : ServiceCoverage}
    (hok : SvOK sv size) (hok' : SvOK sv' size) (hle : SvLE sv sv')
    (e : ℤ × ℤ × String × ℚ) :
    SvLE (applyServiceBuilding sq size sv e) (applyServiceBuilding sq size sv' e) := by
  obtain ⟨⟨s1, s2, s3, s4, s5, s6⟩, _⟩ := hok
  obtain ⟨⟨t1, t2, t3, t4, t5, t6⟩, _⟩ := hok'
  intro a b
  unfold applyServiceBuilding
  dsimp only
  split
  · exact hle a b
  · split
    · exact ⟨(hle a b).1, (hle a b).2.1, (hle a b).2.2.1, (hle a b).2.2.2.1,
        covB_paintBool_mono_m s5 t5 (fun a b => (hle a b).2.2.2.2.1) a b,
        (hle a b).2.2.2.2.2⟩
    · split
      · exact ⟨(hle a b).1, (hle a b).2.1, (hle a b).2.2.1, (hle a b).2.2.2.1,
          (hle a b).2.2.2.2.1,
          covB_paintBool_mono_m s6 t6 (fun a b => (hle a b).2.2.2.2.2) a b⟩
      · split
        · exact ⟨covQ_paintQ_mono_m s1 t1 (fun a b => (hle a b).1) a b,
            (hle a b).2.1, (hle a b).2.2.1, (hle a b).2.2.2.1,
            (hle a b).2.2.2.2.1, (hle a b).2.2.2.2.2⟩
        · exact ⟨(hle a b).1, covQ_paintQ_mono_m s2 t2 (fun a b => (hle a b).2.1) a b,
            (hle a b).2.2.1, (hle a b).2.2.2.1,
            (hle a b).2.2.2.2.1, (hle a b).2.2.2.2.2⟩
        · exact ⟨(hle a b).1, (hle a b).2.1,
            covQ_paintQ_mono_m s3 t3 (fun a b => (hle a b).2.2.1) a b,
            (hle a b).2.2.2.1, (hle a b).2.2.2.2.1, (hle a b).2.2.2.2.2⟩
        · exact ⟨(hle a b).1, (hle a b).2.1, (hle a b).2.2.1,
            covQ_paintQ_mono_m s4 t4 (fun a b => (hle a b).2.2.2.1) a b,
            (hle a b).2.2.2.2.1, (hle a b).2.2.2.2.2⟩
        · exact hle a b

/-- One painting step is monotone in the entry level. -/
theorem svLE_applyService_level {sq : ℕ → ℚ} (sqs : SqSpec sq) {size : ℕ}
    {sv : ServiceCoverage} (hok : SvOK sv size)
    (ex ey : ℤ) (t : String) (l l' : ℚ) (hl : l ≤ l') :
    SvLE (applyServiceBuilding sq size sv (ex, ey, t, l))
      (applyServiceBuilding sq size sv (ex, ey, t, l')) := by
  obtain ⟨⟨s1, s2, s3, s4, s5, s6⟩, hbd⟩ := hok
  intro a b
  unfold applyServiceBuilding
  dsimp only
  split
  · exact ⟨le_rfl, le_rfl, le_rfl, le_rfl, id, id⟩
  next baseRange heq =>
    have hbpos : (0 : ℚ) < baseRange := serviceRange_pos heq
    have hR : ⌊baseRange * (1 + (l - 1) * SERVICE_RANGE_INCREASE_PER_LEVEL)⌋ ≤
        ⌊baseRange * (1 + (l' - 1) * SERVICE_RANGE_INCREASE_PER_LEVEL)⌋ := by
      apply Int.floor_le_floor
      apply mul_le_mul_of_nonneg_left ?_ (le_of_lt hbpos)
      unfold SERVICE_RANGE_INCREASE_PER_LEVEL
      linarith
    split
    · exact ⟨le_rfl, le_rfl, le_rfl, le_rfl,
        covB_paintBool_mono_range hR s5 a b, id⟩
    · split
      · exact ⟨le_rfl, le_rfl, le_rfl, le_rfl, id,
          covB_paintBool_mono_range hR s6 a b⟩
      · split
        · exact ⟨covQ_paintQ_mono_range sqs hR s1 (fun a b => (hbd a b).1) a b,
            le_rfl, le_rfl, le_rfl, id, id⟩
        · exact ⟨le_rfl,
            covQ_paintQ_mono_range sqs hR s2 (fun a b => (hbd a b).2.1) a b,
            le_rfl, le_rfl, id, id⟩
        · exact ⟨le_rfl, le_rfl,
            covQ_paintQ_mono_range sqs hR s3 (fun a b => (hbd a b).2.2.1) a b,
            le_rfl, id, id⟩
        · exact ⟨le_rfl, le_rfl, le_rfl,
            covQ_paintQ_mono_range sqs hR s4 (fun a b => (hbd a b).2.2.2) a b,
            id, id⟩
        · exact ⟨le_rfl, le_rfl, le_rfl, le_rfl, id, id⟩

/-- One painting step is monotone along `EntryLE`. -/
theorem svLE_applyService_entry {sq : ℕ → ℚ} (sqs : SqSpec sq) {size : ℕ}
    {sv : ServiceCoverage} (hok : SvOK sv size)
    {e e' : ℤ × ℤ × String × ℚ} (he : EntryLE e e') :
    SvLE (applyServiceBuilding sq size sv e) (applyServiceBuilding sq size sv e') := by
  obtain ⟨hle, heq⟩ := he
  rw [heq]
  obtain ⟨e1, e2, e3, e4⟩ := e
  exact svLE_applyService_level sqs hok e1 e2 e3 e4 e'.2.2.2 hle
/-- Folding painting steps preserves the invariant. -/
theorem svOK_fold {sq : ℕ → ℚ} {size : ℕ} (L : List (ℤ × ℤ × String × ℚ))
    {sv : ServiceCoverage} (h : SvOK sv size) :
    SvOK (L.foldl (applyServiceBuilding sq size) sv) size := by
  induction L generalizing sv with
  | nil => exact h
  | cons e rest ih => exact ih (svOK_applyService h e)

/-- Folding the same entries is monotone in the starting record. -/
theorem svLE_fold_mono {sq : ℕ → ℚ} {size : ℕ} (L : List (ℤ × ℤ × String × ℚ))
    {sv sv' : ServiceCoverage} (hok : SvOK sv size) (hok' : SvOK sv' size)
    (hle : SvLE sv sv') :
    SvLE (L.foldl (applyServiceBuilding sq size) sv)
      (L.foldl (applyServiceBuilding sq size) sv') := by
  induction L generalizing sv sv' with
  | nil => exact hle
  | cons e rest ih =>
    exact ih (svOK_applyService hok e) (svOK_applyService hok' e)
      (svLE_applyService_mono hok hok' hle e)

/-- Folding entrywise-raised entries is monotone. -/
theorem svLE_fold_rel {sq : ℕ → ℚ} (sqs : SqSpec sq) {size : ℕ}
    {L L' : List (ℤ × ℤ × String × ℚ)} (h : List.Forall₂ EntryLE L L') :
    ∀ sv : ServiceCoverage, SvOK sv size →
      SvLE (L.foldl (applyServiceBuilding sq size) sv)
        (L'.foldl (applyServiceBuilding sq size) sv) := by
  induction h with
  | nil =>
    intro sv _
    exact svLE_refl _
  | cons he hrest ih =>
    intro sv hok
    simp only [List.foldl_cons]
    refine svLE_trans (ih _ (svOK_applyService hok _)) ?_
    exact svLE_fold_mono _ (svOK_applyService hok _) (svOK_applyService hok _)
      (svLE_applyService_entry sqs hok he)

/-- `Forall₂` through `filterMap` over a shared index list. -/
theorem forall2_filterMap {R : β → γ → Prop} {l : List α}
    {f : α → Option β} {g : α → Option γ}
    (h : ∀ a ∈ l, optionRel R (f a) (g a)) :
    List.Forall₂ R (l.filterMap f) (l.filterMap g) := by
  induction l with
  | nil => constructor
  | cons a rest ih =>
    have ha := h a (List.mem_cons_self a rest)
    have ih2 := ih (fun b hb => h b (List.mem_cons_of_mem a hb))
    rw [List.filterMap_cons, List.filterMap_cons]
    rcases hfa : f a with _ | b <;> rcases hga : g a with _ | c <;>
      rw [hfa, hga] at ha
    · exact ih2
    · exact ha.elim
    · exact ha.elim
    · exact List.Forall₂.cons ha ih2

/-- `Forall₂` respects appending. -/
theorem forall2_append {R : α → β → Prop} {l₁ u₁ : List α} {l₂ u₂ : List β}
    (h1 : List.Forall₂ R l₁ l₂) (h2 : List.Forall₂ R u₁ u₂) :
    List.Forall₂ R (l₁ ++ u₁) (l₂ ++ u₂) := by
  induction h1 with
  | nil => exact h2
  | cons ha _ ih => exact List.Forall₂.cons ha ih

/-- `Forall₂` through `flatMap` over a shared index list. -/
theorem forall2_flatMap {R : β → γ → Prop} {l : List α}
    {f : α → List β} {g : α → List γ}
    (h : ∀ a ∈ l, List.Forall₂ R (f a) (g a)) :
    List.Forall₂ R (l.flatMap f) (l.flatMap g) := by
  induction l with
  | nil => constructor
  | cons a rest ih =>
    rw [List.flatMap_cons, List.flatMap_cons]
    exact forall2_append (h a (List.mem_cons_self a rest))
      (ih (fun b hb => h b (List.mem_cons_of_mem a hb)))

/-- `Forall₂` lists have related optional elements. -/
theorem forall2_get_opt {R : α → β → Prop} {l : List α} {l' : List β}
    (h : List.Forall₂ R l l') (i : ℕ) :
    optionRel R l[i]? l'[i]? := by
  induction h generalizing i with
  | nil => trivial
  | cons ha hrest ih =>
    cases i with
    | zero =>
      rw [List.getElem?_cons_zero, List.getElem?_cons_zero]
      exact ha
    | succ n =>
      rw [List.getElem?_cons_succ, List.getElem?_cons_succ]
      exact ih n

/-- Level-raised grids have related tiles everywhere. -/
theorem zget2_levelLE {grid grid' : Grid} (h : GridLevelLE grid grid')
    (x y : ℤ) :
    optionRel TileLevelLE (zget2 grid x y) (zget2 grid' x y) := by
  unfold zget2 zget
  by_cases hy : 0 ≤ y
  · rw [if_pos hy, if_pos hy]
    have hrow := forall2_get_opt h y.toNat
    rcases hr : grid[y.toNat]? with _ | row <;> rcases hr' : grid'[y.toNat]? with _ | row' <;>
      rw [hr, hr'] at hrow
    · trivial
    · exact hrow.elim
    · exact hrow.elim
    · show optionRel TileLevelLE (if 0 ≤ x then row[x.toNat]? else none)
        (if 0 ≤ x then row'[x.toNat]? else none)
      by_cases hx : 0 ≤ x
      · rw [if_pos hx, if_pos hx]
        exact forall2_get_opt hrow x.toNat
      · rw [if_neg hx, if_neg hx]
        trivial
  · rw [if_neg hy, if_neg hy]
    trivial

/-- Level-raised grids collect entrywise-raised service records. -/
theorem collect_levelLE {grid grid' : Grid} {size : ℕ}
    (h : GridLevelLE grid grid') :
    List.Forall₂ EntryLE (collectServiceBuildings grid size)
      (collectServiceBuildings grid' size) := by
  unfold collectServiceBuildings
  apply forall2_flatMap
  intro yy _
  apply forall2_filterMap
  intro xx _
  have hz := zget2_levelLE h xx yy
  rcases h1 : zget2 grid xx yy with _ | tl <;> rcases h2 : zget2 grid' xx yy with _ | tl' <;>
    rw [h1, h2] at hz
  · trivial
  · exact hz.elim
  · exact hz.elim
  · obtain ⟨hlev, heq⟩ := hz
    have htype : tl'.building.type = tl.building.type := by rw [heq]; rfl
    have hprog : tl'.building.constructionProgress =
        tl.building.constructionProgress := by rw [heq]; rfl
    have hab : tl'.building.abandoned = tl.building.abandoned := by rw [heq]; rfl
    dsimp only
    rw [htype, hprog, hab]
    split
    · split
      · trivial
      · split
        · trivial
        · exact ⟨hlev, rfl⟩
    · trivial

/-- `Forall₂` between two maps over a shared index list. -/
theorem forall2_map_map {l : List α} {f : α → β} {g : α → γ} {R : β → γ → Prop}
    (h : ∀ a ∈ l, R (f a) (g a)) : List.Forall₂ R (l.map f) (l.map g) := by
  induction l with
  | nil => constructor
  | cons a rest ih =>
    exact List.Forall₂.cons (h a (List.mem_cons_self a rest))
      (ih (fun b hb => h b (List.mem_cons_of_mem a hb)))

/-- Pointwise level-raised tile functions tabulate to level-raised grids. -/
theorem gridLevelLE_mkGrid {m : ℕ} {F G : ℤ → ℤ → Tile}
    (h : ∀ x y : ℤ, TileLevelLE (F x y) (G x y)) :
    GridLevelLE (mkGrid m F) (mkGrid m G) := by
  unfold GridLevelLE mkGrid
  apply forall2_map_map
  intro yy _
  apply forall2_map_map
  intro xx _
  exact h xx yy

/-- Pointwise effect of folding an idempotent in-place tile update over a
list of positions. -/
theorem zget2_foldl_vmod (F : Tile → Tile) (hF : ∀ t, F (F t) = F t)
    (L : List (ℤ × ℤ)) :
    ∀ (g : Grid) (a b : ℤ),
      zget2 (L.foldl (fun g p => vmod plainView g p.1 p.2 F) g) a b =
        if (a, b) ∈ L then (zget2 g a b).map F else zget2 g a b := by
  induction L with
  | nil =>
    intro g a b
    rw [if_neg (by simp)]
    rfl
  | cons p rest ih =>
    intro g a b
    simp only [List.foldl_cons]
    rw [ih]
    have hstep : zget2 (vmod plainView g p.1 p.2 F) a b =
        if a = p.1 ∧ b = p.2 then (zget2 g a b).map F else zget2 g a b := by
      unfold vmod plainView
      dsimp only
      rcases hz : zget2 g p.1 p.2 with _ | t
      · by_cases hp : a = p.1 ∧ b = p.2
        · rw [if_pos hp, hp.1, hp.2, hz]
          rfl
        · rw [if_neg hp]
      · by_cases hp : a = p.1 ∧ b = p.2
        · rw [if_pos hp, hp.1, hp.2, zget2_zset2_self (by rw [hz]; rfl), hz]
          rfl
        · rw [if_neg hp, zget2_zset2_other (by tauto)]
    rw [hstep]
    by_cases h1 : (a, b) ∈ rest
    · rw [if_pos h1, if_pos (List.mem_cons_of_mem p h1)]
      rcases Decidable.em (a = p.1 ∧ b = p.2) with hp | hp
      · rw [if_pos hp]
        rcases hz : zget2 g a b with _ | t
        · rfl
        · simp only [Option.map_some']
          rw [hF]
      · rw [if_neg hp]
    · rw [if_neg h1]
      rcases Decidable.em (a = p.1 ∧ b = p.2) with hp | hp
      · rw [if_pos hp, if_pos (by
          rcases hp with ⟨rfl, rfl⟩
          exact List.mem_cons_self _ _)]
      · rw [if_neg hp, if_neg (by
          intro hmem
          rcases List.mem_cons.1 hmem with heq | hmem2
          · rw [Prod.mk.injEq] at heq
            exact hp heq
          · exact h1 hmem2)]

/-- Membership in a `bridgeWalk` run: exactly the positions a constant
number of steps out, all intermediate tiles being same-orientation
bridges. -/
theorem mem_bridgeWalk {grid : Grid} {size : ℕ} {o : String} {dx dy : ℤ}
    (hwf : WFGrid grid size) :
    ∀ (f : ℕ) (sx sy a b : ℤ),
      ((a, b) ∈ bridgeWalk grid size o dx dy f sx sy ↔
        ∃ k : ℕ, k < f ∧ a = sx + (k : ℤ) * dx ∧ b = sy + (k : ℤ) * dy ∧
          ∀ j : ℕ, j ≤ k →
            isBridgeO grid o (sx + (j : ℤ) * dx) (sy + (j : ℤ) * dy) = true) := by
  intro f
  induction f with
  | zero =>
    intro sx sy a b
    constructor
    · intro h
      cases h
    · rintro ⟨k, hk, _⟩
      omega
  | succ f ih =>
    intro sx sy a b
    by_cases hB : isBridgeO grid o sx sy = true
    · have hsome : ∃ t, zget2 grid sx sy = some t ∧
          (t.building.type = "bridge" ∧ t.building.bridgeOrientation = some o) := by
        unfold isBridgeO at hB
        rcases hz : zget2 grid sx sy with _ | t
        · rw [hz] at hB
          cases hB
        · rw [hz] at hB
          simp only [Option.map_some', Option.getD_some, decide_eq_true_eq] at hB
          exact ⟨t, rfl, hB⟩
      obtain ⟨t, hzt, hcond⟩ := hsome
      have hin : 0 ≤ sx ∧ sx < (size : ℤ) ∧ 0 ≤ sy ∧ sy < (size : ℤ) := by
        by_contra hoob
        rw [zget2_eq_none_of_oob hwf (by omega)] at hzt
        cases hzt
      have hstep : bridgeWalk grid size o dx dy (f + 1) sx sy =
          (sx, sy) :: bridgeWalk grid size o dx dy f (sx + dx) (sy + dy) := by
        rw [bridgeWalk]
        rw [if_pos hin, hzt]
        dsimp only
        rw [if_pos hcond]
      rw [hstep, List.mem_cons, ih]
      constructor
      · rintro (heq | ⟨k, hk, ha, hb, hall⟩)
        · rw [Prod.mk.injEq] at heq
          refine ⟨0, Nat.succ_pos f, by simp [heq.1], by simp [heq.2], ?_⟩
          intro j hj
          interval_cases j
          simpa using hB
        · refine ⟨k + 1, by omega, ?_, ?_, ?_⟩
          · rw [ha]
            push_cast
            ring
          · rw [hb]
            push_cast
            ring
          · intro j hj
            cases j with
            | zero => simpa using hB
            | succ j2 =>
              have hchain := hall j2 (by omega)
              have hex : sx + ((j2 : ℤ) + 1) * dx = sx + dx + (j2 : ℤ) * dx := by ring
              have hey : sy + ((j2 : ℤ) + 1) * dy = sy + dy + (j2 : ℤ) * dy := by ring
              push_cast
              rw [hex, hey]
              exact hchain
      · rintro ⟨k, hk, ha, hb, hall⟩
        cases k with
        | zero =>
          left
          rw [Prod.mk.injEq]
          constructor
          · rw [ha]
            push_cast
            ring
          · rw [hb]
            push_cast
            ring
        | succ k2 =>
          right
          refine ⟨k2, by omega, ?_, ?_, ?_⟩
          · rw [ha]
            push_cast
            ring
          · rw [hb]
            push_cast
            ring
          · intro j hj
            have hchain := hall (j + 1) (by omega)
            have hex : sx + ((j : ℤ) + 1) * dx = sx + dx + (j : ℤ) * dx := by ring
            have hey : sy + ((j : ℤ) + 1) * dy = sy + dy + (j : ℤ) * dy := by ring
            push_cast at hchain
            rw [hex, hey] at hchain
            exact hchain
    · have hstep : bridgeWalk grid size o dx dy (f + 1) sx sy = [] := by
        rw [bridgeWalk]
        by_cases hin : 0 ≤ sx ∧ sx < (size : ℤ) ∧ 0 ≤ sy ∧ sy < (size : ℤ)
        · rw [if_pos hin]
          rcases hz : zget2 grid sx sy with _ | t
          · rfl
          · dsimp only
            rw [if_neg ?_]
            intro hcond
            apply hB
            unfold isBridgeO
            rw [hz]
            simp only [Option.map_some', Option.getD_some, decide_eq_true_eq]
            exact hcond
        · rw [if_neg hin]
      rw [hstep]
      constructor
      · intro h
        cases h
      · rintro ⟨k, hk, ha, hb, hall⟩
        have h0 := hall 0 (Nat.zero_le k)
        simp only [Nat.cast_zero, zero_mul, add_zero] at h0
        exact absurd h0 hB

/-- A same-orientation bridge tile is in bounds. -/
theorem isBridgeO_bounds {grid : Grid} {size : ℕ} {o : String} {u v : ℤ}
    (hwf : WFGrid grid size) (h : isBridgeO grid o u v = true) :
    0 ≤ u ∧ u < (size : ℤ) ∧ 0 ≤ v ∧ v < (size : ℤ) := by
  by_contra hoob
  unfold isBridgeO at h
  rw [zget2_eq_none_of_oob hwf (by omega)] at h
  cases h

/-- The two directed walks along the x-axis together reach exactly the
interval of contiguous same-orientation bridge tiles. -/
theorem run1d_x {grid : Grid} {size : ℕ} {o : String} (hwf : WFGrid grid size)
    {x y : ℤ} (hB : isBridgeO grid o x y = true) (a : ℤ) :
    (a = x ∨
      (∃ k : ℕ, k < size + 1 ∧ a = x + 1 + (k : ℤ) ∧
        ∀ j : ℕ, j ≤ k → isBridgeO grid o (x + 1 + (j : ℤ)) y = true) ∨
      (∃ k : ℕ, k < size + 1 ∧ a = x - 1 - (k : ℤ) ∧
        ∀ j : ℕ, j ≤ k → isBridgeO grid o (x - 1 - (j : ℤ)) y = true)) ↔
    (∀ u : ℤ, min x a ≤ u → u ≤ max x a → isBridgeO grid o u y = true) := by
  constructor
  · rintro (heq | ⟨k, hk, ha, hall⟩ | ⟨k, hk, ha, hall⟩) <;> intro u h1 h2
    · subst heq
      have hux : u = a := by omega
      rw [hux]
      exact hB
    · rcases Decidable.em (u = x) with rfl | hne
      · exact hB
      · have hge : x + 1 ≤ u := by omega
        have hj : (u - x - 1).toNat ≤ k := by omega
        have := hall (u - x - 1).toNat hj
        have hux : x + 1 + ((u - x - 1).toNat : ℤ) = u := by omega
        rwa [hux] at this
    · rcases Decidable.em (u = x) with rfl | hne
      · exact hB
      · have hle : u ≤ x - 1 := by omega
        have hj : (x - 1 - u).toNat ≤ k := by omega
        have := hall (x - 1 - u).toNat hj
        have hux : x - 1 - ((x - 1 - u).toNat : ℤ) = u := by omega
        rwa [hux] at this
  · intro hall
    rcases lt_trichotomy a x with hlt | heq | hgt
    · right
      right
      have hBa := hall a (by omega) (by omega)
      have hab := isBridgeO_bounds hwf hBa
      have hxb := isBridgeO_bounds hwf hB
      refine ⟨(x - 1 - a).toNat, by omega, by omega, ?_⟩
      intro j hj
      exact hall (x - 1 - (j : ℤ)) (by omega) (by omega)
    · exact Or.inl heq
    · right
      left
      have hBa := hall a (by omega) (by omega)
      have hab := isBridgeO_bounds hwf hBa
      have hxb := isBridgeO_bounds hwf hB
      refine ⟨(a - x - 1).toNat, by omega, by omega, ?_⟩
      intro j hj
      exact hall (x + 1 + (j : ℤ)) (by omega) (by omega)

/-- The two directed walks along the y-axis together reach exactly the
interval of contiguous same-orientation bridge tiles. -/
theorem run1d_y {grid : Grid} {size : ℕ} {o : String} (hwf : WFGrid grid size)
    {x y : ℤ} (hB : isBridgeO grid o x y = true) (b : ℤ) :
    (b = y ∨
      (∃ k : ℕ, k < size + 1 ∧ b = y + 1 + (k : ℤ) ∧
        ∀ j : ℕ, j ≤ k → isBridgeO grid o x (y + 1 + (j : ℤ)) = true) ∨
      (∃ k : ℕ, k < size + 1 ∧ b = y - 1 - (k : ℤ) ∧
        ∀ j : ℕ, j ≤ k → isBridgeO grid o x (y - 1 - (j : ℤ)) = true)) ↔
    (∀ v : ℤ, min y b ≤ v → v ≤ max y b → isBridgeO grid o x v = true) := by
  constructor
  · rintro (heq | ⟨k, hk, hb, hall⟩ | ⟨k, hk, hb, hall⟩) <;> intro v h1 h2
    · subst heq
      have hvy : v = b := by omega
      rw [hvy]
      exact hB
    · rcases Decidable.em (v = y) with rfl | hne
      · exact hB
      · have hge : y + 1 ≤ v := by omega
        have hj : (v - y - 1).toNat ≤ k := by omega
        have := hall (v - y - 1).toNat hj
        have hvy : y + 1 + ((v - y - 1).toNat : ℤ) = v := by omega
        rwa [hvy] at this
    · rcases Decidable.em (v = y) with rfl | hne
      · exact hB
      · have hle : v ≤ y - 1 := by omega
        have hj : (y - 1 - v).toNat ≤ k := by omega
        have := hall (y - 1 - v).toNat hj
        have hvy : y - 1 - ((y - 1 - v).toNat : ℤ) = v := by omega
        rwa [hvy] at this
  · intro hall
    rcases lt_trichotomy b y with hlt | heq | hgt
    · right
      right
      have hBb := hall b (by omega) (by omega)
      have hbb := isBridgeO_bounds hwf hBb
      have hyb := isBridgeO_bounds hwf hB
      refine ⟨(y - 1 - b).toNat, by omega, by omega, ?_⟩
      intro j hj
      exact hall (y - 1 - (j : ℤ)) (by omega) (by omega)
    · exact Or.inl heq
    · right
      left
      have hBb := hall b (by omega) (by omega)
      have hbb := isBridgeO_bounds hwf hBb
      have hyb := isBridgeO_bounds hwf hB
      refine ⟨(b - y - 1).toNat, by omega, by omega, ?_⟩
      intro j hj
      exact hall (y + 1 + (j : ℤ)) (by omega) (by omega)

/-- Membership in `findConnectedBridgeTiles`: exactly the maximal
contiguous same-orientation bridge run through the clicked tile. -/
theorem mem_findConnectedBridgeTiles {grid : Grid} {size : ℕ} {x y : ℤ}
    {tile : Tile} {o : String} (hwf : WFGrid grid size)
    (hz : zget2 grid x y = some tile)
    (htype : tile.building.type = "bridge")
    (horient : tile.building.bridgeOrientation = some o) (a b : ℤ) :
    ((a, b) ∈ findConnectedBridgeTiles grid size x y ↔
      inBridgeRun grid o x y a b = true) := by
  have hBxy : isBridgeO grid o x y = true := by
    unfold isBridgeO
    rw [hz]
    simp [htype, horient]
  unfold findConnectedBridgeTiles
  rw [hz]
  dsimp only
  rw [if_neg (by simp [htype])]
  rw [horient]
  simp only [Option.getD_some]
  unfold inBridgeRun
  by_cases ho : o = "ns"
  · have hdx : (if o = "ns" then (1 : ℤ) else 0) = 1 := if_pos ho
    have hdy : (if o = "ns" then (0 : ℤ) else 1) = 0 := if_pos ho
    rw [hdx, hdy, if_pos ho]
    simp only [List.mem_cons, List.mem_append, Prod.mk.injEq, add_zero, sub_zero,
      neg_zero, neg_neg]
    rw [mem_bridgeWalk hwf, mem_bridgeWalk hwf]
    simp only [mul_one, mul_zero, add_zero, mul_neg_one, Bool.and_eq_true,
      decide_eq_true_eq, List.all_eq_true, mem_intRange, ← sub_eq_add_neg]
    constructor
    · rintro ((⟨ha, hb⟩ | ⟨k, hk, ha, hb, hall⟩) | ⟨k, hk, ha, hb, hall⟩) <;> subst hb
      · exact ⟨rfl, fun u hu => (run1d_x hwf hBxy a).mp (Or.inl ha) u hu.1 hu.2⟩
      · exact ⟨rfl, fun u hu =>
          (run1d_x hwf hBxy a).mp (Or.inr (Or.inl ⟨k, hk, ha, hall⟩)) u hu.1 hu.2⟩
      · exact ⟨rfl, fun u hu =>
          (run1d_x hwf hBxy a).mp (Or.inr (Or.inr ⟨k, hk, ha, hall⟩)) u hu.1 hu.2⟩
    · rintro ⟨hb, hall⟩
      subst hb
      have hrun := (run1d_x hwf hBxy a).mpr (fun u h1 h2 => hall u ⟨h1, h2⟩)
      rcases hrun with heq | ⟨k, hk, ha, hj⟩ | ⟨k, hk, ha, hj⟩
      · exact Or.inl (Or.inl ⟨heq, rfl⟩)
      · exact Or.inl (Or.inr ⟨k, hk, ha, rfl, hj⟩)
      · exact Or.inr ⟨k, hk, ha, rfl, hj⟩
  · have hdx : (if o = "ns" then (1 : ℤ) else 0) = 0 := if_neg ho
    have hdy : (if o = "ns" then (0 : ℤ) else 1) = 1 := if_neg ho
    rw [hdx, hdy, if_neg ho]
    simp only [List.mem_cons, List.mem_append, Prod.mk.injEq, add_zero, sub_zero,
      neg_zero, neg_neg]
    rw [mem_bridgeWalk hwf, mem_bridgeWalk hwf]
    simp only [mul_one, mul_zero, add_zero, mul_neg_one, Bool.and_eq_true,
      decide_eq_true_eq, List.all_eq_true, mem_intRange, ← sub_eq_add_neg]
    constructor
    · rintro ((⟨ha, hb⟩ | ⟨k, hk, ha, hb, hall⟩) | ⟨k, hk, ha, hb, hall⟩) <;> subst ha
      · exact ⟨rfl, fun v hv => (run1d_y hwf hBxy b).mp (Or.inl hb) v hv.1 hv.2⟩
      · exact ⟨rfl, fun v hv =>
          (run1d_y hwf hBxy b).mp (Or.inr (Or.inl ⟨k, hk, hb, hall⟩)) v hv.1 hv.2⟩
      · exact ⟨rfl, fun v hv =>
          (run1d_y hwf hBxy b).mp (Or.inr (Or.inr ⟨k, hk, hb, hall⟩)) v hv.1 hv.2⟩
    · rintro ⟨ha, hall⟩
      subst ha
      have hrun := (run1d_y hwf hBxy b).mpr (fun v h1 h2 => hall v ⟨h1, h2⟩)
      rcases hrun with heq | ⟨k, hk, hb, hj⟩ | ⟨k, hk, hb, hj⟩
      · exact Or.inl (Or.inl ⟨rfl, heq⟩)
      · exact Or.inl (Or.inr ⟨k, hk, rfl, hb, hj⟩)
      · exact Or.inr ⟨k, hk, rfl, hb, hj⟩

/-- Reading back a written cell of the aliased tick grid. -/
theorem aliasRead_aliasWrite_self {s : PassState} {x y : ℤ} {t : Tile}
    (hr : aliasRead s x y = some t) (u : Tile) :
    aliasRead (aliasWrite s x y u) x y = some u := by
  unfold aliasRead aliasWrite at *
  rcases hc : zget s.cow y with _ | oc
  · rw [hc] at hr
    cases hr
  · rcases oc with _ | row
    · rw [hc] at hr
      dsimp only at hr
      dsimp only
      rw [hc]
      exact zget2_zset2_self (by rw [hr]; rfl)
    · rw [hc] at hr
      dsimp only at hr
      dsimp only
      rw [zget_zset_self (by rw [hc]; rfl)]
      exact zget_zset_self (by rw [hr]; rfl)

/-- Writes to the aliased tick grid do not change other cells. -/
theorem aliasRead_aliasWrite_other {s : PassState} {x y : ℤ} {u : Tile}
    {a b : ℤ} (hne : a ≠ x ∨ b ≠ y) :
    aliasRead (aliasWrite s x y u) a b = aliasRead s a b := by
  unfold aliasRead aliasWrite
  rcases hc : zget s.cow y with _ | oc
  · rfl
  · rcases oc with _ | row
    · dsimp only
      rcases hcb : zget s.cow b with _ | ocb
      · rfl
      · rcases ocb with _ | rowb
        · exact zget2_zset2_other hne
        · rfl
    · dsimp only
      by_cases hb : b = y
      · subst hb
        rw [zget_zset_self (by rw [hc]; rfl), hc]
        rcases hne with hne | hne
        · exact zget_zset_other hne
        · exact absurd rfl hne
      · rw [zget_zset_other hb]

/-- Pointwise effect of one in-place tile update on the aliased grid. -/
theorem aliasRead_vmod (s : PassState) (x y : ℤ) (F : Tile → Tile) (a b : ℤ) :
    aliasRead (vmod aliasView s x y F) a b =
      if a = x ∧ b = y then (aliasRead s x y).map F else aliasRead s a b := by
  unfold vmod aliasView
  dsimp only
  rcases hr : aliasRead s x y with _ | t
  · by_cases hp : a = x ∧ b = y
    · rw [if_pos hp, hp.1, hp.2, hr]
      rfl
    · rw [if_neg hp]
  · by_cases hp : a = x ∧ b = y
    · rw [if_pos hp, hp.1, hp.2]
      exact aliasRead_aliasWrite_self hr (F t)
    · rw [if_neg hp]
      exact aliasRead_aliasWrite_other (by tauto)

/-- Copying a row on first modification does not change any read. -/
theorem aliasRead_ensureRow (s : PassState) (y a b : ℤ) :
    aliasRead (ensureRow s y) a b = aliasRead s a b := by
  unfold ensureRow
  rcases hc : zget s.cow y with _ | oc
  · rfl
  · rcases oc with _ | row
    · rcases hrow : zget s.inp y with _ | row
      · rfl
      · unfold aliasRead
        dsimp only
        by_cases hb : b = y
        · subst hb
          rw [zget_zset_self (by rw [hc]; rfl), hc]
          unfold zget2
          rw [hrow]
          rfl
        · rw [zget_zset_other hb]
    · rfl

/-- `StepRel` is reflexive. -/
theorem stepRel_refl {PB : Building → Building → Prop} (hP : TickPredB PB)
    (s : PassState) : StepRel PB s s :=
  fun _ _ t' h => ⟨t', h, hP.refl _⟩

/-- `StepRel` is transitive. -/
theorem stepRel_trans {PB : Building → Building → Prop} (hP : TickPredB PB)
    {s1 s2 s3 : PassState} (h1 : StepRel PB s1 s2) (h2 : StepRel PB s2 s3) :
    StepRel PB s1 s3 := by
  intro a b t' h
  obtain ⟨u, hu, pu⟩ := h2 a b t' h
  obtain ⟨t, ht, pt⟩ := h1 a b u hu
  exact ⟨t, ht, hP.trans pt pu⟩

/-- A single related write is a `StepRel` step. -/
theorem stepRel_vmod {PB : Building → Building → Prop} (hP : TickPredB PB)
    {s : PassState} {x y : ℤ} {F : Tile → Tile}
    (hF : ∀ t, aliasRead s x y = some t → PB t.building (F t).building) :
    StepRel PB s (vmod aliasView s x y F) := by
  intro a b t' h
  rw [aliasRead_vmod] at h
  split at h
  next hp =>
    rcases hr : aliasRead s x y with _ | t
    · rw [hr] at h
      cases h
    · rw [hr] at h
      simp only [Option.map_some'] at h
      cases h
      exact ⟨t, by rw [hp.1, hp.2]; exact hr, hF t hr⟩
  next hp => exact ⟨t', h, hP.refl _⟩

/-- Copy-on-write row copies are `StepRel` steps. -/
theorem stepRel_ensureRow {PB : Building → Building → Prop} (hP : TickPredB PB)
    (s : PassState) (y : ℤ) : StepRel PB s (ensureRow s y) := by
  intro a b t' h
  rw [aliasRead_ensureRow] at h
  exact ⟨t', h, hP.refl _⟩

/-- Folding `StepRel` steps is a `StepRel` step. -/
theorem stepRel_foldl {PB : Building → Building → Prop} (hP : TickPredB PB)
    (l : List ι) (φ : PassState → ι → PassState)
    (hstep : ∀ s i, StepRel PB s (φ s i)) :
    ∀ s, StepRel PB s (l.foldl φ s) := by
  induction l with
  | nil => intro s; exact stepRel_refl hP s
  | cons i rest ih =>
    intro s
    exact stepRel_trans hP (hstep s i) (ih (φ s i))

/-- Fresh buildings have capped construction progress. -/
theorem createBuilding_progress_le (ty : String) :
    (createBuilding ty).constructionProgress ≤ 100 := by
  unfold createBuilding
  dsimp only
  split <;> norm_num

/-- Folding `StepRel` steps over a state-and-counter pair. -/
theorem stepRel_foldl2 {PB : Building → Building → Prop} (hP : TickPredB PB)
    (l : List ι) (φ : (PassState × ℕ) → ι → (PassState × ℕ))
    (hstep : ∀ sk i, StepRel PB sk.1 (φ sk i).1) :
    ∀ sk, StepRel PB sk.1 (l.foldl φ sk).1 := by
  induction l with
  | nil => intro sk; exact stepRel_refl hP _
  | cons i rest ih =>
    intro sk
    exact stepRel_trans hP (hstep sk i) (ih (φ sk i))

/-- The construction step only performs capped progress updates. -/
theorem stepRel_tickConstruction {PB : Building → Building → Prop}
    (hP : TickPredB PB) (sq : ℕ → ℚ) (draws : ℕ → ℚ) (x y : ℤ)
    (sk : PassState × ℕ) :
    StepRel PB sk.1 (tickConstruction sq draws x y sk).1 := by
  unfold tickConstruction
  rcases h : aliasRead sk.1 x y with _ | tile
  · exact stepRel_refl hP _
  · dsimp only
    split
    · split
      · exact stepRel_vmod hP (fun t ht => hP.capped rfl rfl (min_le_left _ _))
      · exact stepRel_refl hP _
    · exact stepRel_refl hP _

/-- The orphan-reversion step only writes fresh grass. -/
theorem stepRel_tickOrphan {PB : Building → Building → Prop}
    (hP : TickPredB PB) (x y : ℤ) (size : ℕ) (newPowered newWatered : Bool)
    (s : PassState) :
    StepRel PB s (tickOrphan x y size newPowered newWatered s) := by
  unfold tickOrphan
  rcases h : aliasRead s x y with _ | tile
  · exact stepRel_refl hP _
  · dsimp only
    split
    · split
      · exact stepRel_refl hP _
      · exact stepRel_vmod hP (fun t ht =>
          hP.fresh rfl (createBuilding_progress_le "grass"))
    · exact stepRel_refl hP _

/-- The pollution step never touches buildings. -/
theorem stepRel_tickPollution {PB : Building → Building → Prop}
    (hP : TickPredB PB) (T : Tables) (x y : ℤ) (s : PassState) :
    StepRel PB s (tickPollution T x y s) := by
  unfold tickPollution
  rcases h : aliasRead s x y with _ | tile
  · exact stepRel_refl hP _
  · dsimp only
    split
    · exact stepRel_refl hP _
    · split
      · split
        · exact stepRel_vmod hP (fun t ht => hP.refl _)
        · exact stepRel_vmod hP (fun t ht => by
            split
            · split
              · exact hP.refl _
              · exact hP.refl _
            · exact hP.refl _)
      · exact stepRel_refl hP _

/-- The water-tower scrub never touches buildings. -/
theorem stepRel_tickScrub {PB : Building → Building → Prop}
    (hP : TickPredB PB) (x y : ℤ) (s : PassState) :
    StepRel PB s (tickScrub x y s) := by
  unfold tickScrub
  rcases h : aliasRead s x y with _ | tile
  · exact stepRel_refl hP _
  · dsimp only
    split
    · have h1 : StepRel PB s
          (vmod aliasView s x y (fun t => { t with pollution := 0 })) :=
        stepRel_vmod hP (fun t ht => hP.refl _)
      refine stepRel_trans hP h1 ?_
      refine stepRel_foldl hP _ _ ?_ _
      intro sa o
      exact stepRel_vmod hP (fun t ht => hP.refl _)
    · exact stepRel_refl hP _

/-- The pollution-spread step never touches buildings. -/
theorem stepRel_tickSpread {PB : Building → Building → Prop}
    (hP : TickPredB PB) (draws : ℕ → ℚ) (size : ℕ) (x y : ℤ)
    (sk : PassState × ℕ) :
    StepRel PB sk.1 (tickSpread draws size x y sk).1 := by
  unfold tickSpread
  rcases h : aliasRead sk.1 x y with _ | tile
  · exact stepRel_refl hP _
  · dsimp only
    split
    · refine stepRel_foldl2 hP _ _ ?_ sk
      intro acc o
      dsimp only
      split
      · refine stepRel_trans hP (stepRel_ensureRow hP acc.1 (y + o.2)) ?_
        rcases h2 : aliasRead (ensureRow acc.1 (y + o.2)) (x + o.1) (y + o.2)
          with _ | neighbor
        · exact stepRel_refl hP _
        · dsimp only
          split
          · exact stepRel_vmod hP (fun t ht => hP.keep rfl rfl rfl)
          · split
            · exact stepRel_vmod hP (fun t ht => by
                split
                · exact hP.keep rfl rfl rfl
                · exact hP.keep rfl rfl rfl)
            · exact stepRel_refl hP _
      · exact stepRel_refl hP _
    · exact stepRel_refl hP _

/-- The decay step never touches buildings. -/
theorem stepRel_tickDecay {PB : Building → Building → Prop}
    (hP : TickPredB PB) (x y : ℤ) (s : PassState) :
    StepRel PB s (tickDecay x y s) := by
  unfold tickDecay
  exact stepRel_vmod hP (fun t ht => hP.refl _)

/-- The burning step extinguishes, advances fire progress, or burns down
to fresh grass. -/
theorem stepRel_tickFireBurn {PB : Building → Building → Prop}
    (hP : TickPredB PB) (draws : ℕ → ℚ) (services : ServiceCoverage)
    (dis : Bool) (x y : ℤ) (sk : PassState × ℕ) :
    StepRel PB sk.1 (tickFireBurn draws services dis x y sk).1 := by
  unfold tickFireBurn
  rcases h : aliasRead sk.1 x y with _ | tile
  · exact stepRel_refl hP _
  · dsimp only
    split
    · split
      · exact stepRel_vmod hP (fun t ht => hP.unfire rfl rfl rfl)
      · split
        · exact stepRel_vmod hP (fun t ht =>
            hP.fresh rfl (createBuilding_progress_le "grass"))
        · exact stepRel_vmod hP (fun t ht => hP.keep rfl rfl rfl)
    · exact stepRel_refl hP _

/-- The self-ignitable types are among the spread-immune types. -/
theorem selfImmune_subset_spreadImmune :
    ∀ ty ∈ FIRE_SELF_IMMUNE, ty ∈ FIRE_SPREAD_IMMUNE := by decide

/-- The spread-ignition step only ignites non-immune types. -/
theorem stepRel_tickFireCatch {PB : Building → Building → Prop}
    (hP : TickPredB PB) (draws : ℕ → ℚ) (services : ServiceCoverage)
    (dis : Bool) (size : ℕ) (x y : ℤ) (sk : PassState × ℕ) :
    StepRel PB sk.1 (tickFireCatch draws services dis size x y sk).1 := by
  unfold tickFireCatch
  rcases h : aliasRead sk.1 x y with _ | tile
  · exact stepRel_refl hP _
  · dsimp only
    split
    next hg =>
      split
      · split
        · refine stepRel_vmod hP ?_
          intro t ht
          rw [h] at ht
          cases ht
          refine hP.ignite rfl ?_ rfl
          intro hmem
          exact hg.2.2 (selfImmune_subset_spreadImmune _ hmem)
        · exact stepRel_refl hP _
      · exact stepRel_refl hP _
    next => exact stepRel_refl hP _

/-- The self-ignition step only ignites non-self-immune types. -/
theorem stepRel_tickFireSelf {PB : Building → Building → Prop}
    (hP : TickPredB PB) (draws : ℕ → ℚ) (dis : Bool) (x y : ℤ)
    (sk : PassState × ℕ) :
    StepRel PB sk.1 (tickFireSelf draws dis x y sk).1 := by
  unfold tickFireSelf
  rcases h : aliasRead sk.1 x y with _ | tile
  · exact stepRel_refl hP _
  · dsimp only
    split
    next hg =>
      split
      · refine stepRel_vmod hP ?_
        intro t ht
        rw [h] at ht
        cases ht
        exact hP.ignite rfl hg.2.2 rfl
      · exact stepRel_refl hP _
    next => exact stepRel_refl hP _

/-- Reading back the written cell after one in-place update. -/
theorem aliasRead_vmod_self {s : PassState} {x y : ℤ} {F : Tile → Tile}
    {t : Tile} (h : aliasRead s x y = some t) :
    aliasRead (vmod aliasView s x y F) x y = some (F t) := by
  rw [aliasRead_vmod, if_pos ⟨rfl, rfl⟩, h]
  rfl

/-- The footprint application only writes fresh buildings. -/
theorem stepRel_applyFootprint {PB : Building → Building → Prop}
    (hP : TickPredB PB) (T : Tables) (s : PassState) (ox oy : ℤ)
    (bt zn : String) (lvl : ℚ) (svs : Option ServiceCoverage) :
    StepRel PB s (applyBuildingFootprint T aliasView s ox oy bt zn lvl svs).1 := by
  unfold applyBuildingFootprint
  dsimp only
  refine stepRel_foldl hP _ _ ?_ s
  intro sa dy
  refine stepRel_foldl hP _ _ ?_ sa
  intro sb dx
  refine stepRel_vmod hP ?_
  intro t ht
  refine hP.fresh ?_ ?_
  · split
    · split <;> rfl
    · rfl
  · split
    · split
      · exact createBuilding_progress_le bt
      · exact createBuilding_progress_le bt
    · exact createBuilding_progress_le "empty"

/-- The evolve tail only refreshes utility, level and population fields,
and returns the building it leaves at the queried cell. -/
theorem stepRel_evolveFinish {PB : Building → Building → Prop}
    (hP : TickPredB PB) (T : Tables) (s : PassState) (ax ay x y : ℤ)
    (services : ServiceCoverage) (tl : ℚ) :
    StepRel PB s (evolveFinish T aliasView s ax ay x y services tl).1 ∧
    ∀ t1, aliasRead (evolveFinish T aliasView s ax ay x y services tl).1 x y =
        some t1 →
      PB t1.building (evolveFinish T aliasView s ax ay x y services tl).2 := by
  unfold evolveFinish vmodB
  dsimp only
  constructor
  · exact stepRel_vmod hP (fun t ht => hP.keep rfl rfl rfl)
  · intro t1 h1
    show PB t1.building
      (((aliasRead (vmod aliasView s ax ay _) x y).map (·.building)).getD
        (createBuilding "grass"))
    rw [h1]
    exact hP.refl _
/-- Composing a prefix step into an evolve specification. -/
theorem evolveSpec_comp {PB : Building → Building → Prop} (hP : TickPredB PB)
    {s0 s1 : PassState} {x y : ℤ} {r : PassState × ℕ × Building}
    (h01 : StepRel PB s0 s1) (hr : EvolveSpec PB s1 x y r) :
    EvolveSpec PB s0 x y r :=
  ⟨stepRel_trans hP h01 hr.1, hr.2⟩

/-- A constant building write, together with returning that building,
satisfies the evolve specification. -/
theorem evolveSpec_write {PB : Building → Building → Prop} (hP : TickPredB PB)
    (s : PassState) (x y : ℤ) (k : ℕ) (b' : Building)
    (hW : ∀ t, aliasRead s x y = some t → PB t.building b') :
    EvolveSpec PB s x y
      (vmod aliasView s x y (fun t => { t with building := b' }), k, b') := by
  constructor
  · exact stepRel_vmod hP hW
  · intro t1 h1
    rw [aliasRead_vmod, if_pos ⟨rfl, rfl⟩] at h1
    rcases h2 : aliasRead s x y with _ | t
    · rw [h2] at h1
      cases h1
    · rw [h2] at h1
      cases h1
      exact hP.refl _

/-- The abandoned-building block satisfies the evolve specification. -/
theorem stepRel_evolveAbandoned {PB : Building → Building → Prop}
    (hP : TickPredB PB) (draws : ℕ → ℚ) (services : ServiceCoverage)
    (s1 : PassState) (k0 : ℕ) (x y : ℤ) (btype : String) (b1 : Building)
    (zdv : ℚ)
    (hread : ∀ t, aliasRead s1 x y = some t → t.building = b1) :
    EvolveSpec PB s1 x y
      (evolveAbandoned aliasView draws services s1 k0 x y btype b1 zdv) := by
  unfold evolveAbandoned vmodB
  split
  · dsimp only
    split
    · unfold EvolveSpec
      refine ⟨?_, ?_⟩
      · split
        · refine stepRel_foldl hP _ _ ?_ _
          intro sa dy
          refine stepRel_foldl hP _ _ ?_ sa
          intro sb dx
          exact stepRel_vmod hP (fun t ht =>
            hP.fresh rfl (createBuilding_progress_le "grass"))
        · exact stepRel_refl hP _
      · intro t1 h1
        exact hP.fresh rfl (createBuilding_progress_le "grass")
    · exact evolveSpec_write hP s1 x y (k0 + 1) _ (fun t ht =>
        hP.keep (by rw [hread t ht]) (by rw [hread t ht]) (by rw [hread t ht]))
  · exact evolveSpec_write hP s1 x y k0 _ (fun t ht =>
      hP.keep (by rw [hread t ht]) (by rw [hread t ht]) (by rw [hread t ht]))

/-- The healthy tail satisfies the evolve specification. -/
theorem stepRel_evolveHealthyTail {PB : Building → Building → Prop}
    (hP : TickPredB PB) (T : Tables) (draws : ℕ → ℚ) (s1 : PassState)
    (k1 : ℕ) (x y : ℤ) (services : ServiceCoverage) (zone : String)
    (b1 : Building) (landValue : ℚ) (hasPower hasWater : Bool) (zdv : ℚ)
    (hread : ∀ t, aliasRead s1 x y = some t → t.building = b1) :
    EvolveSpec PB s1 x y
      (evolveHealthyTail T aliasView draws s1 k1 x y services zone b1
        landValue hasPower hasWater zdv) := by
  unfold evolveHealthyTail vmodB
  dsimp only
  have hs2 : StepRel PB s1
      (vmod aliasView s1 x y
        (fun t => { t with building := { b1 with age := b1.age + 1 } })) :=
    stepRel_vmod hP (fun t ht =>
      hP.keep (by rw [hread t ht]) (by rw [hread t ht]) (by rw [hread t ht]))
  split
  · split
    · split
      next o hfind =>
        unfold EvolveSpec
        refine ⟨?_, ?_⟩
        · refine stepRel_trans hP ?_
            ((stepRel_evolveFinish hP T _ o.1 o.2 x y services _).1)
          refine stepRel_trans hP ?_
            (stepRel_vmod hP (fun t ht => hP.keep rfl rfl rfl))
          exact stepRel_trans hP hs2
            (stepRel_applyFootprint hP T _ o.1 o.2 _ zone _ (some services))
        · intro t1 h1
          exact (stepRel_evolveFinish hP T _ o.1 o.2 x y services _).2 t1 h1
      next hfind =>
        unfold EvolveSpec
        refine ⟨?_, ?_⟩
        · refine stepRel_trans hP hs2 ?_
          refine stepRel_trans hP ?_
            ((stepRel_evolveFinish hP T _ x y x y services _).1)
          split
          · exact stepRel_vmod hP (fun t ht => hP.keep rfl rfl rfl)
          · exact stepRel_refl hP _
        · intro t1 h1
          exact (stepRel_evolveFinish hP T _ x y x y services _).2 t1 h1
    · unfold EvolveSpec
      refine ⟨?_, ?_⟩
      · refine stepRel_trans hP hs2 ?_
        exact (stepRel_evolveFinish hP T _ x y x y services _).1
      · intro t1 h1
        exact (stepRel_evolveFinish hP T _ x y x y services _).2 t1 h1
  · unfold EvolveSpec
    refine ⟨?_, ?_⟩
    · refine stepRel_trans hP hs2 ?_
      exact (stepRel_evolveFinish hP T _ x y x y services _).1
    · intro t1 h1
      exact (stepRel_evolveFinish hP T _ x y x y services _).2 t1 h1

/-- Every write of `evolveBuilding` satisfies the tick closure
conditions, and the building it returns is related to whatever it leaves
at the evolved cell. -/
theorem stepRel_evolveBuilding {PB : Building → Building → Prop}
    (hP : TickPredB PB) (T : Tables) (sq : ℕ → ℚ) (draws : ℕ → ℚ)
    (s0 : PassState) (k0 : ℕ) (x y : ℤ) (services : ServiceCoverage)
    (demand : ℚ × ℚ × ℚ) :
    EvolveSpec PB s0 x y
      (evolveBuilding T sq aliasView draws s0 k0 x y services demand) := by
  unfold evolveBuilding vmodB
  have hv : aliasView.read = aliasRead := rfl
  rw [hv]
  rcases h : aliasRead s0 x y with _ | tile
  · refine ⟨stepRel_refl hP _, ?_⟩
    intro t1 h1
    rw [h] at h1
    cases h1
  · dsimp only
    split
    · refine ⟨stepRel_refl hP _, ?_⟩
      intro t1 h1
      cases h.symm.trans h1
      exact hP.refl _
    · split
      · exact evolveSpec_write hP s0 x y k0 _ (fun t ht => by
          cases h.symm.trans ht
          exact hP.keep rfl rfl rfl)
      · have hs1 : StepRel PB s0
            (vmod aliasView s0 x y (fun t =>
              { t with building :=
                { tile.building with
                  powered := covB services.power x y
                  watered := covB services.water x y } })) :=
          stepRel_vmod hP (fun t ht => by
            cases h.symm.trans ht
            exact hP.keep rfl rfl rfl)
        have h1r : aliasRead
            (vmod aliasView s0 x y (fun t =>
              { t with building :=
                { tile.building with
                  powered := covB services.power x y
                  watered := covB services.water x y } })) x y =
            some { tile with building :=
              { tile.building with
                powered := covB services.power x y
                watered := covB services.water x y } } :=
          aliasRead_vmod_self h
        have hread : ∀ t, aliasRead
            (vmod aliasView s0 x y (fun u =>
              { u with building :=
                { tile.building with
                  powered := covB services.power x y
                  watered := covB services.water x y } })) x y = some t →
            t.building =
              { tile.building with
                powered := covB services.power x y
                watered := covB services.water x y } := by
          intro t ht
          cases h1r.symm.trans ht
          rfl
        split
        · refine ⟨hs1, ?_⟩
          intro t1 h1
          cases h1r.symm.trans h1
          exact hP.refl _
        · split
          · exact evolveSpec_comp hP hs1 (evolveSpec_write hP _ x y (k0 + 1) _
              (fun t ht => by
                rw [hread t ht]
                exact hP.capped rfl rfl (min_le_left _ _)))
          · split
            · exact evolveSpec_comp hP hs1
                (stepRel_evolveAbandoned hP draws services _ k0 x y _ _ _ hread)
            · split
              · split
                · exact evolveSpec_comp hP hs1
                    (evolveSpec_write hP _ x y (k0 + 1) _ (fun t ht => by
                      rw [hread t ht]
                      exact hP.keep rfl rfl rfl))
                · exact evolveSpec_comp hP hs1
                    (stepRel_evolveHealthyTail hP T draws _ (k0 + 1) x y
                      services tile.zone _ _ _ _ _ hread)
              · exact evolveSpec_comp hP hs1
                  (stepRel_evolveHealthyTail hP T draws _ k0 x y services
                    tile.zone _ _ _ _ _ hread)


/-- Every write of the spawn-or-evolve dispatcher satisfies the tick
closure conditions. -/
theorem stepRel_tickSpawnOrEvolve {PB : Building → Building → Prop}
    (hP : TickPredB PB) (T : Tables) (sq draws : ℕ → ℚ)
    (services : ServiceCoverage) (demand : ℚ × ℚ × ℚ) (size : ℕ)
    (newPowered newWatered : Bool) (x y : ℤ) (sk : PassState × ℕ) :
    StepRel PB sk.1 (tickSpawnOrEvolve T sq draws services demand size
      newPowered newWatered x y sk).1 := by
  unfold tickSpawnOrEvolve vmodB
  rcases h : aliasRead sk.1 x y with _ | tile
  · exact stepRel_refl hP _
  · dsimp only
    split
    · split
      · split
        · split
          · refine stepRel_trans hP ?_
              (stepRel_applyFootprint hP T _ x y _ tile.zone 1 (some services))
            refine stepRel_foldl hP _ _ ?_ sk.1
            intro sa dy
            dsimp only
            split
            · exact stepRel_ensureRow hP sa _
            · exact stepRel_refl hP _
          · exact stepRel_refl hP _
        · exact stepRel_refl hP _
      · exact stepRel_refl hP _
    · split
      · refine stepRel_trans hP
          (stepRel_evolveBuilding hP T sq draws sk.1 sk.2 x y services
            demand).1 ?_
        exact stepRel_vmod hP (fun t ht =>
          (stepRel_evolveBuilding hP T sq draws sk.1 sk.2 x y services
            demand).2 t ht)
      · exact stepRel_refl hP _


/-- Every write of `processTile` satisfies the tick closure conditions. -/
theorem stepRel_processTile {PB : Building → Building → Prop}
    (hP : TickPredB PB) (T : Tables) (sq draws : ℕ → ℚ)
    (services : ServiceCoverage) (demand : ℚ × ℚ × ℚ)
    (disastersEnabled : Bool) (size : ℕ) (sk : PassState × ℕ)
    (pos : ℤ × ℤ) :
    StepRel PB sk.1 (processTile T sq draws services demand disastersEnabled
      size sk pos).1 := by
  unfold processTile vmodB
  dsimp only
  rcases h : zget2 sk.1.inp pos.2 pos.1 with _ | originalTile
  · exact stepRel_refl hP _
  · dsimp only
    split
    · exact stepRel_refl hP _
    · split
      · exact stepRel_refl hP _
      · split
        · exact stepRel_refl hP _
        · refine stepRel_trans hP ?_
            (stepRel_tickFireSelf hP draws disastersEnabled _ _ _)
          refine stepRel_trans hP ?_
            (stepRel_tickFireCatch hP draws services disastersEnabled size _ _ _)
          refine stepRel_trans hP ?_
            (stepRel_tickFireBurn hP draws services disastersEnabled _ _ _)
          refine stepRel_trans hP ?_ (stepRel_tickDecay hP _ _ _)
          refine stepRel_trans hP ?_ (stepRel_tickSpread hP draws size _ _ _)
          refine stepRel_trans hP ?_ (stepRel_tickScrub hP _ _ _)
          refine stepRel_trans hP ?_ (stepRel_tickPollution hP T _ _ _)
          refine stepRel_trans hP ?_
            (stepRel_tickSpawnOrEvolve hP T sq draws services demand size
              _ _ _ _ _)
          refine stepRel_trans hP ?_ (stepRel_tickOrphan hP _ _ size _ _ _)
          refine stepRel_trans hP ?_
            (stepRel_tickConstruction hP sq draws _ _ _)
          refine stepRel_trans hP ?_
            (stepRel_vmod hP (fun t ht => hP.keep rfl rfl rfl))
          exact stepRel_ensureRow hP sk.1 _


/-- Reading the freshly initialised pass state is reading the input grid
(rows beyond the copy-on-write table read as absent). -/
theorem aliasRead_init (g : Grid) (size : ℕ) (x y : ℤ) :
    aliasRead { inp := g, cow := List.replicate size none } x y =
      if 0 ≤ y ∧ y < (size : ℤ) then zget2 g x y else none := by
  unfold aliasRead zget
  dsimp only
  rcases Decidable.em (0 ≤ y) with hy | hy
  · rw [if_pos hy]
    rcases Decidable.em (y < (size : ℤ)) with hys | hys
    · rw [List.getElem?_replicate, if_pos (by omega)]
      rw [if_pos ⟨hy, hys⟩]
    · rw [List.getElem?_replicate, if_neg (by omega)]
      rw [if_neg (by intro hc; exact hys hc.2)]
  · rw [if_neg hy]
    rw [if_neg (by intro hc; exact hy hc.1)]

/-- A materialised row reads back exactly what the pass state reads. -/
theorem materializeRow_read (final : PassState) (x y : ℤ) :
    zget (materializeRow final y) x = aliasRead final x y := by
  unfold materializeRow aliasRead
  rcases hc : zget final.cow y with _ | or
  · simp [zget]
  · rcases or with _ | row
    · rcases hi : zget final.inp y with _ | irow
      · simp only [Option.getD_none]
        unfold zget2
        rw [hi]
        simp [zget]
      · simp only [Option.getD_some]
        unfold zget2
        rw [hi]
        rfl
    · rfl

/-- Any cell successfully read from a 2-dimensional array is a member of
one of its rows. -/
theorem zget2_mem {g : List (List α)} {x y : ℤ} {t : α}
    (h : zget2 g x y = some t) : ∃ r ∈ g, t ∈ r := by
  unfold zget2 zget at h
  rcases Decidable.em (0 ≤ y) with hy | hy
  · rw [if_pos hy] at h
    rcases hg : g[y.toNat]? with _ | row
    · rw [hg] at h
      cases h
    · rw [hg] at h
      rw [Option.some_bind] at h
      rcases Decidable.em (0 ≤ x) with hx | hx
      · rw [if_pos hx] at h
        exact ⟨row, List.getElem?_mem hg, List.getElem?_mem h⟩
      · rw [if_neg hx] at h
        cases h
  · rw [if_neg hy] at h
    cases h

/-- The master tick lemma: for any tick building relation, every tile of
the returned grid descends from the same cell of the input grid. -/
theorem stepRel_simulateTick {PB : Building → Building → Prop}
    (hP : TickPredB PB) (T : Tables) (sq draws : ℕ → ℚ) (state : GameState)
    (a b : ℤ) (t' : Tile)
    (h : zget2 (simulateTick T sq draws state).grid a b = some t') :
    ∃ t, zget2 state.grid a b = some t ∧ PB t.building t'.building := by
  unfold simulateTick at h
  dsimp only at h
  unfold zget2 at h
  rw [zget_tab] at h
  split at h
  · rw [Option.some_bind, materializeRow_read] at h
    have hstep : StepRel PB
        { inp := state.grid, cow := List.replicate state.gridSize none }
        ((tilePositions state.gridSize).foldl
          (processTile T sq draws
            (calculateServiceCoverage sq state.grid state.gridSize)
            state.demand state.disastersEnabled state.gridSize)
          ({ inp := state.grid, cow := List.replicate state.gridSize none },
            0)).1 :=
      stepRel_foldl2 hP _ _ (fun sk pos =>
        stepRel_processTile hP T sq draws _ state.demand
          state.disastersEnabled state.gridSize sk pos) _
    obtain ⟨t, hti, hPB⟩ := hstep a b t' h
    rw [aliasRead_init] at hti
    rcases Decidable.em (0 ≤ b ∧ b < (state.gridSize : ℤ)) with hb | hb
    · rw [if_pos hb] at hti
      exact ⟨t, hti, hPB⟩
    · rw [if_neg hb] at hti
      cases hti
  · rw [Option.none_bind] at h
    cases h

/-- The fire-introduction relation is closed under every kind of tick
write. -/
theorem tickPredB_fireIntro : TickPredB FireIntro := by
  refine ⟨?_, ?_, ?_, ?_, ?_, ?_, ?_⟩
  · intro b hm hf
    exact ⟨hm, hf⟩
  · intro a b c hab hbc hm hf
    obtain ⟨hm2, hf2⟩ := hbc hm hf
    exact hab hm2 hf2
  · intro b b' ht hf _ hm hfi
    rw [ht] at hm
    rw [hf] at hfi
    exact ⟨hm, hfi⟩
  · intro b b' hf _ _ hfi
    rw [hf] at hfi
    cases hfi
  · intro b b' ht hnm _ hm _
    rw [ht] at hm
    exact absurd hm hnm
  · intro b b' ht hf _ hm hfi
    rw [ht] at hm
    rw [hf] at hfi
    exact ⟨hm, hfi⟩
  · intro b b' ht hf _ _ hfi
    rw [hf] at hfi
    cases hfi

/-- The progress-cap relation is closed under every kind of tick write. -/
theorem tickPredB_progCap : TickPredB ProgCap := by
  refine ⟨?_, ?_, ?_, ?_, ?_, ?_, ?_⟩
  · intro b h
    exact h
  · intro a b c hab hbc h
    exact hbc (hab h)
  · intro b b' _ _ hp h
    rw [hp]
    exact h
  · intro b b' _ hp _
    exact hp
  · intro b b' _ _ hp h
    rw [hp]
    exact h
  · intro b b' _ _ hp _
    exact hp
  · intro b b' _ _ hp h
    rw [hp]
    exact h

/-- C9: for every game state and coordinate pair outside the grid bounds,
`placeBuilding` and `bulldozeTile` return the input state unchanged (a
silent no-op); likewise `placeBuilding` returns the input state unchanged
when the target tile's building type is water. -/
theorem c9_invalid_coords_silent_noop (T : Tables) (state : GameState)
    (x y : ℤ) (bt z : Option String)
    (hwf : WFGrid state.grid state.gridSize) :
    ((x < 0 ∨ y < 0 ∨ (state.gridSize : ℤ) ≤ x ∨ (state.gridSize : ℤ) ≤ y) →
      placeBuilding T state x y bt z = state ∧ bulldozeTile state x y = state) ∧
    (∀ tile, zget2 state.grid x y = some tile → tile.building.type = "water" →
      placeBuilding T state x y bt z = state) := by
  constructor
  · intro h
    have hn := zget2_eq_none_of_oob hwf h
    constructor
    · unfold placeBuilding
      rw [hn]
    · unfold bulldozeTile
      rw [hn]
  · intro tile ht hw
    unfold placeBuilding
    rw [ht]
    simp only [hw]
    rw [if_pos trivial]

/-- Witness for C9 at concrete inputs: out-of-bounds coordinates on a 1×1
state, and a placement on a water tile. -/
theorem c9_invalid_coords_silent_noop_witness :
    (placeBuilding specTables oneGrassState 5 0 (some "road") none = oneGrassState ∧
      bulldozeTile oneGrassState 5 0 = oneGrassState) ∧
    placeBuilding specTables oneWaterState 0 0 (some "road") none = oneWaterState := by
  constructor
  · exact (c9_invalid_coords_silent_noop specTables oneGrassState 5 0
      (some "road") none (by constructor <;> decide)).1 (by decide)
  · exact (c9_invalid_coords_silent_noop specTables oneWaterState 0 0
      (some "road") none (by constructor <;> decide)).2
      (createTile 0 0 "water") (by decide) (by decide)

/-- C8 counterexample: on a 4×4 grid, expanding by 1 and then shrinking by
1 yields no grid at all — `shrinkGrid` returns the null sentinel because
the target size 4 is below its minimum of 20 — so the round trip does not
restore the original grid. -/
theorem c8_small_grid_counterexample :
    shrinkGrid (expandGrid smallGrassGrid 4 1).1 (expandGrid smallGrassGrid 4 1).2 1 =
      none := by decide

/-- C8 (amended): for every well-formed grid of size `n ≥ 20` whose tiles
store their own coordinates, expanding by any amount `k` and then
shrinking by the same `k` succeeds and restores the original tile (all
fields, including the stored coordinates) at every original coordinate. -/
theorem c8_expand_shrink_roundtrip (g : Grid) (n k : ℕ)
    (hwf : WFGrid g n)
    (hxy : ∀ (x y : ℤ) (t : Tile), zget2 g x y = some t → t.x = x ∧ t.y = y)
    (h20 : 20 ≤ n) :
    ∃ g', shrinkGrid (expandGrid g n k).1 (expandGrid g n k).2 k = some (g', n) ∧
      ∀ x y : ℤ, 0 ≤ x → x < (n : ℤ) → 0 ≤ y → y < (n : ℤ) →
        zget2 g' x y = zget2 g x y := by
  have hsz : ((n + k * 2 : ℕ) : ℤ) - (k : ℤ) * 2 = (n : ℤ) := by push_cast; omega
  unfold expandGrid shrinkGrid
  simp only
  rw [if_neg (by omega)]
  rw [hsz, Int.toNat_natCast]
  refine ⟨_, rfl, ?_⟩
  intro x y hx0 hxn hy0 hyn
  simp only [zget2_tab]
  rw [if_pos (by omega)]
  rw [if_pos (by push_cast; omega)]
  simp only
  rw [if_pos (by constructor <;> [omega; constructor <;> [omega; constructor <;> omega]])]
  have hadd : x + (k : ℤ) - (k : ℤ) = x := by omega
  have hadd2 : y + (k : ℤ) - (k : ℤ) = y := by omega
  rw [hadd, hadd2]
  obtain ⟨t, ht⟩ := zget2_isSome_of_inb hwf hx0 hxn hy0 hyn
  rw [ht]
  obtain ⟨htx, hty⟩ := hxy x y t ht
  cases t
  simp_all

/-- Witness for C8 at a concrete input: a 20×20 all-grass grid expanded
and shrunk by 3. -/
theorem c8_expand_shrink_roundtrip_witness :
    ∃ g', shrinkGrid (expandGrid grass20Grid 20 3).1 (expandGrid grass20Grid 20 3).2 3 =
        some (g', 20) ∧
      ∀ x y : ℤ, 0 ≤ x → x < (20 : ℤ) → 0 ≤ y → y < (20 : ℤ) →
        zget2 g' x y = zget2 grass20Grid x y := by
  refine c8_expand_shrink_roundtrip grass20Grid 20 3 wf_mkGrid ?_ (by decide)
  intro x y t ht
  unfold grass20Grid at ht
  rw [zget2_mkGrid] at ht
  split at ht
  · cases ht
    exact ⟨rfl, rfl⟩
  · cases ht

/-- C3 counterexample: the code floors the effective range before the
distance test.  On a 15×15 grid whose only service building is a completed
level-2 water tower at the origin (effective range 12 · 1.2 = 14.4, floored
to 14), the tile (14, 1) lies at Euclidean distance √197 ≈ 14.04 — within
the claimed effective range 14.4 — yet it is not watered, because
197 > 14² = 196. -/
theorem c3_unfloored_range_counterexample :
    covB (calculateServiceCoverage qsqrt towerLevel2Grid 15).water 14 1 = false ∧
    ∃ t, zget2 towerLevel2Grid 0 0 = some t ∧
      t.building.type = "water_tower" ∧ ¬ t.building.constructionProgress < 100 ∧
      ¬ t.building.abandoned ∧
      ((14 : ℚ) - 0) * (14 - 0) + ((1 : ℚ) - 0) * (1 - 0) ≤
        ((serviceRange "water_tower").getD 0 *
            (1 + (t.building.level - 1) * SERVICE_RANGE_INCREASE_PER_LEVEL)) *
          ((serviceRange "water_tower").getD 0 *
            (1 + (t.building.level - 1) * SERVICE_RANGE_INCREASE_PER_LEVEL)) := by
  refine ⟨by decide, towerLevel2 0 0, by decide, by decide, by decide, by decide, by decide⟩

/-- C3 (amended): for every grid and every in-bounds tile, the boolean
power (respectively water) coverage computed by `calculateServiceCoverage`
holds if and only if some in-bounds completed, non-abandoned power plant
(water tower) has squared Euclidean distance to the tile at most the
square of the FLOORED effective range ⌊baseRange · (1 + (level − 1) · 0.2)⌋
(which must also be non-negative). -/
theorem c3_boolean_coverage_union (sq : ℕ → ℚ) (grid : Grid) (size : ℕ)
    (x y : ℤ) (hx : 0 ≤ x ∧ x < (size : ℤ)) (hy : 0 ≤ y ∧ y < (size : ℤ)) :
    (covB (calculateServiceCoverage sq grid size).power x y = true ↔
      ∃ cx cy t, zget2 grid cx cy = some t ∧
        0 ≤ cx ∧ cx < (size : ℤ) ∧ 0 ≤ cy ∧ cy < (size : ℤ) ∧
        t.building.type = "power_plant" ∧
        ¬ t.building.constructionProgress < 100 ∧ ¬ t.building.abandoned ∧
        0 ≤ entryRange "power_plant" t.building.level ∧
        (x - cx) * (x - cx) + (y - cy) * (y - cy) ≤
          entryRange "power_plant" t.building.level *
            entryRange "power_plant" t.building.level) ∧
    (covB (calculateServiceCoverage sq grid size).water x y = true ↔
      ∃ cx cy t, zget2 grid cx cy = some t ∧
        0 ≤ cx ∧ cx < (size : ℤ) ∧ 0 ≤ cy ∧ cy < (size : ℤ) ∧
        t.building.type = "water_tower" ∧
        ¬ t.building.constructionProgress < 100 ∧ ¬ t.building.abandoned ∧
        0 ≤ entryRange "water_tower" t.building.level ∧
        (x - cx) * (x - cx) + (y - cy) * (y - cy) ≤
          entryRange "water_tower" t.building.level *
            entryRange "water_tower" t.building.level) := by
  obtain ⟨hp, hw⟩ :=
    @covB_calculateServiceCoverage sq grid size _ _ hx hy
  constructor
  · rw [hp]
    constructor
    · rintro ⟨e, he, hct, hr0, hdist⟩
      obtain ⟨t, hz, hcx0, hcxn, hcy0, hcyn, _, h100, hab, htype, hlev⟩ :=
        mem_collectServiceBuildings.mp he
      exact ⟨e.1, e.2.1, t, hz, hcx0, hcxn, hcy0, hcyn, by rw [← htype, hct], h100, hab,
        by rw [← hlev]; exact hr0, by rw [← hlev]; exact hdist⟩
    · rintro ⟨cx, cy, t, hz, hcx0, hcxn, hcy0, hcyn, htp, h100, hab, hr0, hdist⟩
      refine ⟨(cx, cy, t.building.type, t.building.level), ?_, htp, ?_, ?_⟩
      · exact mem_collectServiceBuildings.mpr
          ⟨t, hz, hcx0, hcxn, hcy0, hcyn, by rw [htp]; decide, h100, hab, rfl, rfl⟩
      · show 0 ≤ entryRange "power_plant" t.building.level
        exact hr0
      · show (x - cx) * (x - cx) + (y - cy) * (y - cy) ≤
          entryRange "power_plant" t.building.level *
            entryRange "power_plant" t.building.level
        exact hdist
  · rw [hw]
    constructor
    · rintro ⟨e, he, hct, hr0, hdist⟩
      obtain ⟨t, hz, hcx0, hcxn, hcy0, hcyn, _, h100, hab, htype, hlev⟩ :=
        mem_collectServiceBuildings.mp he
      exact ⟨e.1, e.2.1, t, hz, hcx0, hcxn, hcy0, hcyn, by rw [← htype, hct], h100, hab,
        by rw [← hlev]; exact hr0, by rw [← hlev]; exact hdist⟩
    · rintro ⟨cx, cy, t, hz, hcx0, hcxn, hcy0, hcyn, htp, h100, hab, hr0, hdist⟩
      refine ⟨(cx, cy, t.building.type, t.building.level), ?_, htp, ?_, ?_⟩
      · exact mem_collectServiceBuildings.mpr
          ⟨t, hz, hcx0, hcxn, hcy0, hcyn, by rw [htp]; decide, h100, hab, rfl, rfl⟩
      · show 0 ≤ entryRange "water_tower" t.building.level
        exact hr0
      · show (x - cx) * (x - cx) + (y - cy) * (y - cy) ≤
          entryRange "water_tower" t.building.level *
            entryRange "water_tower" t.building.level
        exact hdist

/-- Witness for C3 at a concrete input: on the 15×15 level-2-tower grid the
origin tile is watered, produced by the amended characterisation applied at
tile (0, 0). -/
theorem c3_boolean_coverage_union_witness :
    (0 ≤ (0 : ℤ) ∧ (0 : ℤ) < ((15 : ℕ) : ℤ)) ∧
      covB (calculateServiceCoverage qsqrt towerLevel2Grid 15).water 0 0 = true := by
  refine ⟨by decide, ?_⟩
  exact ((c3_boolean_coverage_union qsqrt towerLevel2Grid 15 0 0
      (by decide) (by decide)).2).mpr
    ⟨0, 0, towerLevel2 0 0, by decide, by decide, by decide, by decide, by decide,
      by decide, by decide, by decide, by decide, by decide⟩

/-- C4 (confirmed): coverage is monotonic in level.  For every pair of
grids that agree except that building levels are raised
(`GridLevelLE` — in particular, replacing one service building's level by
any strictly larger level), recomputing `calculateServiceCoverage` never
decreases any tile's value in any of the six coverage fields (the four
quality fields numerically, the boolean power and water fields with
`false < true`). -/
theorem c4_coverage_monotone_in_level (sq : ℕ → ℚ) (sqs : SqSpec sq)
    (grid grid' : Grid) (size : ℕ) (hrel : GridLevelLE grid grid') :
    SvLE (calculateServiceCoverage sq grid size)
      (calculateServiceCoverage sq grid' size) := by
  unfold calculateServiceCoverage
  exact svLE_fold_rel sqs (collect_levelLE hrel) _ svOK_create

/-- Witness for C4 at a concrete input: raising the level-2 water tower of
the 15×15 grid to level 3. -/
theorem c4_coverage_monotone_in_level_witness :
    SvLE (calculateServiceCoverage qsqrt towerLevel2Grid 15)
      (calculateServiceCoverage qsqrt towerLevel3Grid 15) := by
  refine c4_coverage_monotone_in_level qsqrt qsqrt_spec _ _ 15 ?_
  apply gridLevelLE_mkGrid
  intro x y
  by_cases hxy : x = 0 ∧ y = 0
  · rw [if_pos hxy, if_pos hxy]
    exact ⟨by decide, rfl⟩
  · rw [if_neg hxy, if_neg hxy]
    exact ⟨le_rfl, rfl⟩

/-- C7 (confirmed): on the straight path road, water, water, water, road,
bridge creation replaces exactly the 3 water tiles with bridge buildings
of bridgeType "large", positioned start / middle / end in order along the
run, and leaves every other tile unchanged; the span classification maps
length 1 to "small", lengths 2–5 to "large" and longer spans to
"suspension"; and no bridge is created when the water run exceeds
`MAX_BRIDGE_SPAN` (11 water tiles) or is terminated by a grass tile
instead of a tile of the same track type. -/
theorem c7_bridge_detection_straight_path :
    checkAndCreateBridges bridge5Grid 5 0 2 "road" = c7Expected ∧
    (List.range 10).map (fun i => getBridgeTypeForSpan (i + 1)) =
      ["small", "large", "large", "large", "large",
       "suspension", "suspension", "suspension", "suspension", "suspension"] ∧
    checkAndCreateBridges bridge13Grid 13 0 2 "road" = bridge13Grid ∧
    checkAndCreateBridges bridgeGrassGrid 5 0 2 "road" = bridgeGrassGrid := by
  exact ⟨by decide, by decide, by decide, by decide⟩

/-- C10 (confirmed): bulldozing an in-bounds bridge tile (whose building
records an orientation) replaces every tile of the maximal contiguous run
of bridge tiles sharing that orientation — extending along x for
orientation "ns" and along y otherwise — with a fresh water building,
zone "none" and cleared rail overlay, and leaves every tile outside the
run unchanged (and the grid size unchanged). -/
theorem c10_bulldoze_bridge_run (state : GameState) (x y : ℤ) (tile : Tile)
    (o : String) (hwf : WFGrid state.grid state.gridSize)
    (hz : zget2 state.grid x y = some tile)
    (htype : tile.building.type = "bridge")
    (horient : tile.building.bridgeOrientation = some o) :
    (bulldozeTile state x y).gridSize = state.gridSize ∧
    ∀ a b : ℤ,
      zget2 (bulldozeTile state x y).grid a b =
        if inBridgeRun state.grid o x y a b then
          (zget2 state.grid a b).map bulldozeBridgeTileUpdate
        else zget2 state.grid a b := by
  have hred1 : (bulldozeTile state x y).gridSize = state.gridSize := by
    unfold bulldozeTile
    rw [hz]
    dsimp only
    rw [htype]
    rw [if_neg (by decide), if_pos rfl]
  have hred2 : (bulldozeTile state x y).grid =
      (findConnectedBridgeTiles state.grid state.gridSize x y).foldl
        (fun g bt => vmod plainView g bt.1 bt.2 bulldozeBridgeTileUpdate)
        state.grid := by
    unfold bulldozeTile
    rw [hz]
    dsimp only
    rw [htype]
    rw [if_neg (by decide), if_pos rfl]
    rfl
  refine ⟨hred1, ?_⟩
  intro a b
  rw [hred2,
    zget2_foldl_vmod bulldozeBridgeTileUpdate (fun t => rfl) _ state.grid a b]
  exact if_congr (mem_findConnectedBridgeTiles hwf hz htype horient a b) rfl rfl

/-- Witness for C10 at a concrete input: bulldozing the middle tile of the
three-tile bridge on the 5×5 state. -/
theorem c10_bulldoze_bridge_run_witness :
    (bulldozeTile c10State 2 2).gridSize = c10State.gridSize ∧
    ∀ a b : ℤ,
      zget2 (bulldozeTile c10State 2 2).grid a b =
        if inBridgeRun c10State.grid "ns" 2 2 a b then
          (zget2 c10State.grid a b).map bulldozeBridgeTileUpdate
        else zget2 c10State.grid a b :=
  c10_bulldoze_bridge_run c10State 2 2 (c7BridgeTile 2 "middle" 1) "ns"
    (by unfold WFGrid; exact ⟨by decide, by decide⟩)
    (by decide) (by decide) (by decide)

/-- C1 counterexample (code bug): `simulateTick` mutates its input.  On a
2×2 grid with a water tower at the origin and a polluted grass tile below
it, the tower's pollution scrub writes the neighbor tile through a row
still shared with the caller's grid (no copy-on-write check on the
neighbor writes), so after the call the caller's grid object differs from
the pre-call contents: the tile at (0, 1) had pollution 50 before the
call and 45 after it. -/
theorem c1_simulate_tick_mutates_input :
    (simulateTick specTables qsqrt halfDraws c1State).inputAfter ≠ c1State.grid ∧
    ((zget2 (simulateTick specTables qsqrt halfDraws c1State).inputAfter 0 1).map
      (fun t => t.pollution)) = some 45 ∧
    ((zget2 c1State.grid 0 1).map (fun t => t.pollution)) = some 50 := by
  refine ⟨by decide, by decide, by decide⟩


/-- If some pending neighbor is an in-bounds, unvisited road or bridge
tile, the neighbor scan reports success. -/
theorem roadAccessNeighbors_finds {σ : Type} (V : GridView σ) (s : σ)
    (size : ℕ) (startZone : String) (n : ℤ × ℤ) (nt : Tile)
    (hx0 : 0 ≤ n.1) (hxs : n.1 < (size : ℤ)) (hy0 : 0 ≤ n.2)
    (hys : n.2 < (size : ℤ)) (hread : V.read s n.1 n.2 = some nt)
    (hroad : nt.building.type = "road" ∨ nt.building.type = "bridge") :
    ∀ (l : List (ℤ × ℤ)) (dist : ℕ) (st : BfsState), l.Nodup → n ∈ l →
      n ∉ st.visited →
      (roadAccessNeighbors V s size startZone l dist st).1 = true := by
  intro l
  induction l with
  | nil =>
    intro dist st _ hn _
    cases hn
  | cons m rest ih =>
    intro dist st hnd hn hnv
    have hndr : rest.Nodup := (List.nodup_cons.1 hnd).2
    rcases List.mem_cons.1 hn with heq | hmem
    · subst heq
      have hnv' : (n.1, n.2) ∉ st.visited := hnv
      simp only [roadAccessNeighbors]
      rw [hread]
      rw [if_neg (by omega), if_neg hnv']
      dsimp only
      rw [if_pos hroad]
    · have hne : n ≠ m := by
        intro hc
        exact (List.nodup_cons.1 hnd).1 (hc ▸ hmem)
      simp only [roadAccessNeighbors]
      split
      · exact ih dist st hndr hmem hnv
      · split
        · exact ih dist st hndr hmem hnv
        · split
          · exact ih dist _ hndr hmem (by
              intro hc
              rcases List.mem_cons.1 hc with hc1 | hc2
              · exact hne (by rw [hc1])
              · exact hnv hc2)
          · split
            · rfl
            · split
              · exact ih dist _ hndr hmem (by
                  intro hc
                  rcases List.mem_cons.1 hc with hc1 | hc2
                  · exact hne (by rw [hc1])
                  · exact hnv hc2)
              · exact ih dist _ hndr hmem (by
                  intro hc
                  rcases List.mem_cons.1 hc with hc1 | hc2
                  · exact hne (by rw [hc1])
                  · exact hnv hc2)

/-- C2 counterexample: the claim lists rail among the types that never
ignite, but the code's self-ignition immunity list omits rail.  On a 1×1
grid holding a non-burning rail tile with a little pollution, disasters
enabled, and every draw equal to 0 (so the 0.00003 roll succeeds), the
tick sets the rail tile on fire. -/
theorem c2_rail_self_ignites :
    (zget2 c2State.grid 0 0).map
        (fun t => (t.building.type, t.building.onFire)) =
      some ("rail", false) ∧
    (zget2 (simulateTick specTables qsqrt zeroDraws c2State).grid 0 0).map
        (fun t => (t.building.type, t.building.onFire)) =
      some ("rail", true) := by
  refine ⟨by decide, by decide⟩

/-- C2 (amended): during a tick, fire is never introduced on a tile whose
building type is in the code's self-ignition immunity list (grass, water,
road, tree, empty — not bridge or rail): if such a tile is on fire after
the tick, the same cell already held an immune-typed burning building
before the tick, for every draw outcome. -/
theorem c2_no_fire_introduced_on_immune_types (T : Tables)
    (sq draws : ℕ → ℚ) (state : GameState) (a b : ℤ) (t' : Tile)
    (h : zget2 (simulateTick T sq draws state).grid a b = some t')
    (hmem : t'.building.type ∈ FIRE_SELF_IMMUNE)
    (hfire : t'.building.onFire = true) :
    ∃ t, zget2 state.grid a b = some t ∧
      t.building.type ∈ FIRE_SELF_IMMUNE ∧ t.building.onFire = true := by
  obtain ⟨t, hti, hPB⟩ :=
    stepRel_simulateTick tickPredB_fireIntro T sq draws state a b t' h
  obtain ⟨hm, hf⟩ := hPB hmem hfire
  exact ⟨t, hti, hm, hf⟩

/-- Witness for the amended C2 at a concrete input: a burning grass tile
survives the tick, and the theorem traces its fire back to the input. -/
theorem c2_no_fire_introduced_on_immune_types_witness :
    ∃ t, zget2 c2WitnessState.grid 0 0 = some t ∧
      t.building.type ∈ FIRE_SELF_IMMUNE ∧ t.building.onFire = true :=
  c2_no_fire_introduced_on_immune_types specTables qsqrt zeroDraws
    c2WitnessState 0 0 burningGrassTile (by decide) (by decide) (by decide)

/-- C6 counterexample: construction progress is not monotone under
sustained utilities.  On a 2×2 grid with a road, completed water and
power service buildings, and a residential-zoned grass tile (progress
100), high residential demand spawns a starter house on the zoned tile:
its construction progress drops from 100 to 0 in one tick while the tile
is powered and watered. -/
theorem c6_progress_resets_on_spawn :
    (zget2 c6State.grid 1 0).map
        (fun t => t.building.constructionProgress) = some 100 ∧
    (zget2 (simulateTick specTables qsqrt zeroDraws c6State).grid 1 0).map
        (fun t => (t.building.constructionProgress, t.building.powered,
          t.building.watered)) = some (0, true, true) := by
  refine ⟨by decide, by decide⟩

/-- C6 (amended): construction progress never exceeds 100.  If every
building of the input grid has progress at most 100, then after a tick
every building of the returned grid still has progress at most 100, for
every draw outcome and with no utility assumption. -/
theorem c6_construction_progress_capped (T : Tables) (sq draws : ℕ → ℚ)
    (state : GameState)
    (hcap : ∀ a b t, zget2 state.grid a b = some t →
      t.building.constructionProgress ≤ 100)
    (a b : ℤ) (t' : Tile)
    (h : zget2 (simulateTick T sq draws state).grid a b = some t') :
    t'.building.constructionProgress ≤ 100 := by
  obtain ⟨t, hti, hPB⟩ :=
    stepRel_simulateTick tickPredB_progCap T sq draws state a b t' h
  exact hPB (hcap a b t hti)

/-- Witness for the amended C6 at a concrete input: the 1×1 grass state
satisfies the cap before the tick, and the theorem bounds the tile the
tick returns. -/
theorem c6_construction_progress_capped_witness :
    (createTile 0 0 "grass").building.constructionProgress ≤ 100 :=
  c6_construction_progress_capped specTables qsqrt zeroDraws oneGrassState
    (fun a b t ht => by
      obtain ⟨r, hr, htm⟩ := zget2_mem ht
      simp only [oneGrassState, List.mem_singleton] at hr
      subst hr
      rw [List.mem_singleton] at htm
      subst htm
      decide)
    0 0 (createTile 0 0 "grass") (by decide)


end AquaSim
